import Mathlib

/-! Parking lot: a shallow embedding of `gpt.cpp` and `Parking_lot.cpp`.

Two independent programs live in the repository; each gets its own namespace.

* `Gpt` embeds `src/parking lot/gpt.cpp` (multi-level lot, licence plates).
* `PLot` embeds `src/parking lot/Parking_lot.cpp` (single level, tickets).

Conventions of the embedding

* `time_t` is `ℤ` (seconds); every call of `time(nullptr)` is an explicit
  argument of the embedded function. `double` arithmetic is exact (`ℚ`).
* A `ParkingSpot*` / `Spot*` is the index of the spot in `allSpots`
  (the vector is never resized after construction, so addresses are stable).
* A `std::queue` is a `List` whose head is the front of the queue.
* An `unordered_map<SpotType, queue<..>>` read with `operator[]` is a total
  function `SpotType → List Nat` (absent keys read as the empty queue).
* In gpt.cpp a `Vehicle*` is the vehicle it points to (plate, type, fee
  strategy): the program only ever reads the plate and the type through it, and
  `new` / `delete` of vehicles are not part of the state. In Parking_lot.cpp
  `removeVehicle` compares addresses and `parkVehicle` writes through the
  pointer, so there a `Vehicle*` is an address into `Memory.vehicles`.
* Console output is not part of the state; the fee that Parking_lot.cpp prints
  is returned by the embedded `removeVehicle`.
-/

set_option autoImplicit false

namespace Gpt

/-! ## Fee strategy (gpt.cpp 13-29) -/

/-- Class `HourlyRate`: the only field is the rate. -/
structure HourlyRate where
  rate : ℚ
  deriving DecidableEq

/-- Method `HourlyRate::calculateFee`; `now` is the value of `time(nullptr)`. -/
def HourlyRate.calculateFee (self : HourlyRate) (entryTime now : ℤ) : ℚ :=
  let duration : ℚ := ((now - entryTime : ℤ) : ℚ) / 3600
  duration * self.rate

/-! ## Vehicles (gpt.cpp 32-78) -/

inductive VehicleType where
  | CAR
  | BIKE
  | BUS
  deriving DecidableEq, Repr

/-- Class `Vehicle`. The base constructor leaves `feeStrategy` null. -/
structure Vehicle where
  licensePlate : String
  type : VehicleType
  feeStrategy : Option HourlyRate
  deriving DecidableEq

/-- Constructor `Car::Car`. -/
def Car (licensePlate : String) : Vehicle :=
  { licensePlate := licensePlate, type := VehicleType.CAR, feeStrategy := some ⟨5⟩ }

/-- Constructor `Bike::Bike`. -/
def Bike (licensePlate : String) : Vehicle :=
  { licensePlate := licensePlate, type := VehicleType.BIKE, feeStrategy := some ⟨2⟩ }

/-- Constructor `Bus::Bus`. -/
def Bus (licensePlate : String) : Vehicle :=
  { licensePlate := licensePlate, type := VehicleType.BUS, feeStrategy := some ⟨10⟩ }

/-- Function `VehicleFactory::createVehicle`; the `default` branch is not
reachable for a value of the enumeration. -/
def createVehicle (type : VehicleType) (licensePlate : String) : Vehicle :=
  match type with
  | VehicleType.CAR => Car licensePlate
  | VehicleType.BIKE => Bike licensePlate
  | VehicleType.BUS => Bus licensePlate

/-! ## Spots and levels (gpt.cpp 81-146) -/

inductive SpotType where
  | HANDICAP
  | COMPACT
  | LARGE
  | MOTORCYCLE
  deriving DecidableEq, Repr

/-- Class `ParkingSpot`. -/
structure ParkingSpot where
  spotId : String
  type : SpotType
  isOccupied : Bool
  vehicle : Option Vehicle
  deriving DecidableEq

/-- Constructor `ParkingSpot::ParkingSpot`. -/
def ParkingSpot.new (spotId : String) (type : SpotType) : ParkingSpot :=
  { spotId := spotId, type := type, isOccupied := false, vehicle := none }

/-- Class `ParkingLevel`. -/
structure ParkingLevel where
  levelId : String
  availableSpots : SpotType → List Nat
  allSpots : List ParkingSpot

/-- One of the four creation loops of the constructor:
`for (int i = 0; i < count; i++) allSpots.push_back(ParkingSpot(levelId + tag + to_string(i+1), t))`. -/
def createSpots (levelId tag : String) (count : ℤ) (t : SpotType) : List ParkingSpot :=
  (List.range count.toNat).map fun i => ParkingSpot.new (levelId ++ tag ++ toString (i + 1)) t

/-- The loop `for (auto &spot : allSpots) availableSpots[spot.type].push(&spot)`,
started at the spot of index `i` with the pools `pools`. -/
def enqueueAll : List ParkingSpot → Nat → (SpotType → List Nat) → (SpotType → List Nat)
  | [], _, pools => pools
  | spot :: rest, i, pools =>
      enqueueAll rest (i + 1) (Function.update pools spot.type (pools spot.type ++ [i]))

/-- Constructor `ParkingLevel::ParkingLevel`. -/
def ParkingLevel.new (levelId : String) (handicap compact large motorcycle : ℤ) : ParkingLevel :=
  let allSpots :=
    createSpots levelId "-H" handicap SpotType.HANDICAP ++
    createSpots levelId "-C" compact SpotType.COMPACT ++
    createSpots levelId "-L" large SpotType.LARGE ++
    createSpots levelId "-M" motorcycle SpotType.MOTORCYCLE
  { levelId := levelId
    availableSpots := enqueueAll allSpots 0 (fun _ => [])
    allSpots := allSpots }

/-- The local `requiredType` of `findAvailableSpot`. -/
def requiredType (vType : VehicleType) : SpotType :=
  if vType = VehicleType.BIKE then SpotType.MOTORCYCLE
  else if vType = VehicleType.CAR then SpotType.COMPACT
  else SpotType.LARGE

/-- Method `ParkingLevel::findAvailableSpot`: the popped spot (or null) and the
level after the pop. -/
def ParkingLevel.findAvailableSpot (self : ParkingLevel) (vType : VehicleType) :
    Option Nat × ParkingLevel :=
  match self.availableSpots (requiredType vType) with
  | spot :: rest =>
      (some spot,
        { self with availableSpots := Function.update self.availableSpots (requiredType vType) rest })
  | [] => (none, self)

/-- The two writes `spot->isOccupied = true; spot->vehicle = vehicle`. An index
outside the vector (no pool ever holds one, see `LevelInv.pool_valid`) writes
nothing. -/
def occupy (spots : List ParkingSpot) (spot : Nat) (vehicle : Vehicle) : List ParkingSpot :=
  match spots[spot]? with
  | some s => spots.set spot { s with isOccupied := true, vehicle := some vehicle }
  | none => spots

/-- Method `ParkingLevel::parkVehicle`. -/
def ParkingLevel.parkVehicle (self : ParkingLevel) (vehicle : Vehicle) : Bool × ParkingLevel :=
  match self.findAvailableSpot vehicle.type with
  | (none, lvl) => (false, lvl)
  | (some spot, lvl) => (true, { lvl with allSpots := occupy lvl.allSpots spot vehicle })

/-- The loop condition of `removeVehicle`:
`spot.isOccupied && spot.vehicle->licensePlate == licensePlate`.
A spot that is occupied with a null vehicle (a state no operation produces,
see `LevelInv`) is read as not matching. -/
def ParkingSpot.holds (spot : ParkingSpot) (licensePlate : String) : Bool :=
  spot.isOccupied &&
    (match spot.vehicle with
     | some v => v.licensePlate == licensePlate
     | none => false)

/-- The scan `for (auto &spot : allSpots)` of `removeVehicle`, from index `i`:
the first spot that holds the plate, with its index. -/
def findHolder (licensePlate : String) : List ParkingSpot → Nat → Option (Nat × ParkingSpot)
  | [], _ => none
  | spot :: rest, i =>
      if spot.holds licensePlate then some (i, spot) else findHolder licensePlate rest (i + 1)

/-- Method `ParkingLevel::removeVehicle`. -/
def ParkingLevel.removeVehicle (self : ParkingLevel) (licensePlate : String) :
    Bool × ParkingLevel :=
  match findHolder licensePlate self.allSpots 0 with
  | some (i, spot) =>
      (true,
        { self with
          availableSpots :=
            Function.update self.availableSpots spot.type (self.availableSpots spot.type ++ [i])
          allSpots := self.allSpots.set i { spot with isOccupied := false, vehicle := none } })
  | none => (false, self)

/-! ## The lot (gpt.cpp 149-182) -/

/-- Class `ParkingLot`. The `unordered_map<string, ParkingLevel*>` is the list
of its entries in iteration order; the map is not modified after construction,
so the order is the same in every later call. -/
structure ParkingLot where
  levels : List (String × ParkingLevel)

/-- The assignment `levels[id] = value` on the entry list: an existing key keeps its
place, a new key is added at the end. -/
def mapAssign (entries : List (String × ParkingLevel)) (id : String) (value : ParkingLevel) :
    List (String × ParkingLevel) :=
  match entries with
  | [] => [(id, value)]
  | (k, v) :: rest => if k = id then (k, value) :: rest else (k, v) :: mapAssign rest id value

/-- Constructor `ParkingLot::ParkingLot`, entries in insertion order. The
iteration order of the real map is some permutation of this list. -/
def ParkingLot.new (levelIds : List String) (handicap compact large motorcycle : ℤ) : ParkingLot :=
  { levels :=
      levelIds.foldl
        (fun entries id => mapAssign entries id (ParkingLevel.new id handicap compact large motorcycle))
        [] }

/-- The loop of `ParkingLot::parkVehicle` over the levels. -/
def parkInLevels (vehicle : Vehicle) :
    List (String × ParkingLevel) → Bool × List (String × ParkingLevel)
  | [] => (false, [])
  | (id, lvl) :: rest =>
      match lvl.parkVehicle vehicle with
      | (true, lvl') => (true, (id, lvl') :: rest)
      | (false, lvl') =>
          ((parkInLevels vehicle rest).1, (id, lvl') :: (parkInLevels vehicle rest).2)

/-- Method `ParkingLot::parkVehicle`. -/
def ParkingLot.parkVehicle (self : ParkingLot) (vehicle : Vehicle) : Bool × ParkingLot :=
  ((parkInLevels vehicle self.levels).1, { levels := (parkInLevels vehicle self.levels).2 })

/-- The loop of `ParkingLot::removeVehicle` over the levels. -/
def removeInLevels (licensePlate : String) :
    List (String × ParkingLevel) → Bool × List (String × ParkingLevel)
  | [] => (false, [])
  | (id, lvl) :: rest =>
      match lvl.removeVehicle licensePlate with
      | (true, lvl') => (true, (id, lvl') :: rest)
      | (false, lvl') =>
          ((removeInLevels licensePlate rest).1, (id, lvl') :: (removeInLevels licensePlate rest).2)

/-- Method `ParkingLot::removeVehicle`. -/
def ParkingLot.removeVehicle (self : ParkingLot) (licensePlate : String) : Bool × ParkingLot :=
  ((removeInLevels licensePlate self.levels).1,
    { levels := (removeInLevels licensePlate self.levels).2 })

end Gpt


namespace PLot

/-! ## Fee strategies (Parking_lot.cpp 12-45) -/

inductive SpotType where
  | HANDICAP
  | BIKE
  | CAR
  | BUS
  deriving DecidableEq, Repr

/-- Class `FeeStrategy`. -/
structure FeeStrategy where
  rate : ℚ
  deriving DecidableEq

/-- Method `FeeStrategy::calculateFee`; `now` is the value of `time(nullptr)`. -/
def FeeStrategy.calculateFee (self : FeeStrategy) (entryTime now : ℤ) : ℚ :=
  let duration : ℚ := ((now - entryTime : ℤ) : ℚ) / 3600
  duration * self.rate

/-- Constructor `HandicapFeeStrategy()`. -/
def HandicapFeeStrategy : FeeStrategy := ⟨1⟩

/-- Constructor `BikeFeeStrategy()`, rate 2.5. -/
def BikeFeeStrategy : FeeStrategy := ⟨5 / 2⟩

/-- Constructor `CarFeeStrategy()`. -/
def CarFeeStrategy : FeeStrategy := ⟨5⟩

/-- Constructor `BusFeeStrategy()`. -/
def BusFeeStrategy : FeeStrategy := ⟨10⟩

/-! ## Tickets, vehicles, spots (Parking_lot.cpp 47-93) -/

/-- Class `Ticket`. -/
structure Ticket where
  ticketNumber : String
  entryTime : ℤ
  deriving DecidableEq

/-- Constructor `Ticket::Ticket`; `randValue` is the value of `rand()` and
`now` the value of `time(nullptr)`. -/
def Ticket.new (randValue : ℕ) (now : ℤ) : Ticket :=
  { ticketNumber := toString randValue, entryTime := now }

/-- Class `Vehicle`. `ticket` is a `Ticket*`: the index of the ticket among the
allocated tickets; the constructor does not set it. -/
structure Vehicle where
  vehicleNumber : String
  type : SpotType
  feeStrategy : FeeStrategy
  ticket : Option ℕ
  deriving DecidableEq

/-- Constructor `Vehicle::Vehicle`. -/
def Vehicle.new (vehicleNumber : String) (type : SpotType) : Vehicle :=
  { vehicleNumber := vehicleNumber
    type := type
    feeStrategy :=
      match type with
      | SpotType.HANDICAP => HandicapFeeStrategy
      | SpotType.BIKE => BikeFeeStrategy
      | SpotType.CAR => CarFeeStrategy
      | SpotType.BUS => BusFeeStrategy
    ticket := none }

/-- Class `Spot`. `vehicle` is a `Vehicle*`: an address in `Memory.vehicles`. -/
structure Spot where
  id : String
  isOccupied : Bool
  vehicle : Option ℕ
  type : SpotType
  deriving DecidableEq

/-- Constructor `Spot::Spot`. -/
def Spot.new (id : String) (type : SpotType) : Spot :=
  { id := id, isOccupied := false, vehicle := none, type := type }

/-- The heap objects the lot works on: the `Vehicle` objects by address
(`none` once deleted) and every `Ticket` allocated so far. -/
structure Memory where
  vehicles : List (Option Vehicle)
  tickets : List Ticket
  deriving DecidableEq

/-- Expression `new Vehicle(vehicleNumber, type)`: the address and the heap after. -/
def Memory.newVehicle (mem : Memory) (vehicleNumber : String) (type : SpotType) : ℕ × Memory :=
  (mem.vehicles.length,
    { mem with vehicles := mem.vehicles ++ [some (Vehicle.new vehicleNumber type)] })

/-- Dereference of a `Vehicle*`: `none` for an address that holds no live object. -/
def Memory.vehicleAt (mem : Memory) (vehicle : ℕ) : Option Vehicle :=
  (mem.vehicles[vehicle]?).join

/-! ## The lot (Parking_lot.cpp 95-171) -/

/-- Class `ParkingLot` (one level). -/
structure ParkingLot where
  levelId : String
  availableSpots : SpotType → List ℕ
  allSpots : List Spot

/-- Method `ParkingLot::createSpot`. -/
def ParkingLot.createSpot (self : ParkingLot) (type : SpotType) (i : ℕ) : ParkingLot :=
  let type_id :=
    match type with
    | SpotType.BIKE => "B"
    | SpotType.HANDICAP => "H"
    | SpotType.CAR => "C"
    | SpotType.BUS => "BU"
  let spot := Spot.new (self.levelId ++ type_id ++ toString (i + 1)) type
  { self with
    allSpots := self.allSpots ++ [spot]
    availableSpots :=
      Function.update self.availableSpots type (self.availableSpots type ++ [self.allSpots.length]) }

/-- One loop `for (int i = 0; i < count; i++) createSpot(type, i)` of the constructor. -/
def ParkingLot.createSpots (self : ParkingLot) (type : SpotType) (count : ℤ) : ParkingLot :=
  (List.range count.toNat).foldl (fun lot i => lot.createSpot type i) self

/-- Constructor `ParkingLot::ParkingLot`. -/
def ParkingLot.new (levelId : String) (handicap bike car bus : ℤ) : ParkingLot :=
  let lot0 : ParkingLot := { levelId := levelId, availableSpots := fun _ => [], allSpots := [] }
  (((lot0.createSpots SpotType.HANDICAP handicap).createSpots SpotType.BIKE bike).createSpots
    SpotType.CAR car).createSpots SpotType.BUS bus

/-- Method `ParkingLot::findAvailableSpot`. -/
def ParkingLot.findAvailableSpot (self : ParkingLot) (type : SpotType) : Option ℕ × ParkingLot :=
  match self.availableSpots type with
  | [] => (none, self)
  | spot :: rest =>
      (some spot, { self with availableSpots := Function.update self.availableSpots type rest })

/-- The writes `spot->isOccupied = true; spot->vehicle = vehicle`. -/
def occupy (spots : List Spot) (spot : ℕ) (vehicle : ℕ) : List Spot :=
  match spots[spot]? with
  | some s => spots.set spot { s with isOccupied := true, vehicle := some vehicle }
  | none => spots

/-- The write `vehicle->ticket = ticket`. -/
def Memory.setTicket (mem : Memory) (vehicle : ℕ) (ticket : ℕ) : Memory :=
  match mem.vehicleAt vehicle with
  | some v => { mem with vehicles := mem.vehicles.set vehicle (some { v with ticket := some ticket }) }
  | none => mem

/-- Method `ParkingLot::parkVehicle`. `randValue` and `now` are the values read
by the `Ticket` constructor. The result is `none` when `vehicle` is not the
address of a live object (the read `vehicle->type` is then undefined). -/
def ParkingLot.parkVehicle (self : ParkingLot) (mem : Memory) (vehicle : ℕ) (randValue : ℕ)
    (now : ℤ) : Option (Bool × ParkingLot × Memory) :=
  match mem.vehicleAt vehicle with
  | none => none
  | some v =>
      let found := self.findAvailableSpot v.type
      let ticket := mem.tickets.length
      let mem1 : Memory := { mem with tickets := mem.tickets ++ [Ticket.new randValue now] }
      match found with
      | (some spot, lot) =>
          some (true, { lot with allSpots := occupy lot.allSpots spot vehicle },
            mem1.setTicket vehicle ticket)
      | (none, lot) => some (false, lot, mem1)

/-- The scan `for (auto spot : allSpots)` of `removeVehicle`, from index `i`:
the first spot with `spot->isOccupied && spot->vehicle == vehicle`. -/
def findHolder (vehicle : ℕ) : List Spot → ℕ → Option (ℕ × Spot)
  | [], _ => none
  | spot :: rest, i =>
      if spot.isOccupied && spot.vehicle == some vehicle then some (i, spot)
      else findHolder vehicle rest (i + 1)

/-- What `removeVehicle` gives back: the returned flag, the amount it prints
after "Money to be recieved" (when it prints one), and the state after. -/
structure Removal where
  found : Bool
  cost : Option ℚ
  lot : ParkingLot
  mem : Memory

/-- Method `ParkingLot::removeVehicle`. `timeArg` is the value of the call
`time(nullptr)` in the argument of `calculateFee`, `timeNow` the value of the
one inside `calculateFee`. The result is `none` when the matching spot holds
an address with no live object (the read `vehicle->feeStrategy` is then
undefined). -/
def ParkingLot.removeVehicle (self : ParkingLot) (mem : Memory) (vehicle : ℕ)
    (timeArg timeNow : ℤ) : Option Removal :=
  match findHolder vehicle self.allSpots 0 with
  | none => some { found := false, cost := none, lot := self, mem := mem }
  | some (i, spot) =>
      match mem.vehicleAt vehicle with
      | none => none
      | some v =>
          some
            { found := true
              cost := some (v.feeStrategy.calculateFee timeArg timeNow)
              lot :=
                { self with
                  allSpots := self.allSpots.set i { spot with isOccupied := false }
                  availableSpots :=
                    Function.update self.availableSpots spot.type
                      (self.availableSpots spot.type ++ [i]) }
              mem := { mem with vehicles := mem.vehicles.set vehicle none } }

end PLot

/-! ## Vocabulary of the properties -/

namespace Gpt

/-- Level states reachable from the constructor by `parkVehicle` / `removeVehicle`. -/
inductive LevelReachable : ParkingLevel → Prop
  | init (levelId : String) (handicap compact large motorcycle : ℤ) :
      LevelReachable (ParkingLevel.new levelId handicap compact large motorcycle)
  | park {lvl : ParkingLevel} (vehicle : Vehicle) :
      LevelReachable lvl → LevelReachable (lvl.parkVehicle vehicle).2
  | remove {lvl : ParkingLevel} (licensePlate : String) :
      LevelReachable lvl → LevelReachable (lvl.removeVehicle licensePlate).2

/-- Number of occupied spots of a level. -/
def occupiedCount (lvl : ParkingLevel) : ℕ :=
  lvl.allSpots.countP (fun s => s.isOccupied)

/-- Sum of the sizes of the four free pools of a level. -/
def freeCount (lvl : ParkingLevel) : ℕ :=
  (lvl.availableSpots SpotType.HANDICAP).length + (lvl.availableSpots SpotType.COMPACT).length
    + (lvl.availableSpots SpotType.LARGE).length + (lvl.availableSpots SpotType.MOTORCYCLE).length

/-- Indices (counted from `i`) of the spots of type `t`, in list order. -/
def indicesOfType (t : SpotType) : List ParkingSpot → ℕ → List ℕ
  | [], _ => []
  | spot :: rest, i =>
      if spot.type = t then i :: indicesOfType t rest (i + 1) else indicesOfType t rest (i + 1)

/-- The bookkeeping invariant of a level. -/
structure LevelInv (lvl : ParkingLevel) : Prop where
  /-- every pool entry is a spot of the pool's type that is not occupied -/
  pool_valid : ∀ (t : SpotType) (i : ℕ), i ∈ lvl.availableSpots t →
    ∃ s : ParkingSpot, lvl.allSpots[i]? = some s ∧ s.type = t ∧ s.isOccupied = false
  /-- no pool holds a spot twice -/
  pool_nodup : ∀ t, (lvl.availableSpots t).Nodup
  /-- every spot that is not occupied is queued in the pool of its type -/
  free_queued : ∀ (i : ℕ) (s : ParkingSpot), lvl.allSpots[i]? = some s → s.isOccupied = false →
    i ∈ lvl.availableSpots s.type
  /-- a spot is occupied exactly when a vehicle is bound to it -/
  occupied_bound : ∀ (i : ℕ) (s : ParkingSpot), lvl.allSpots[i]? = some s →
    (s.isOccupied = true ↔ s.vehicle ≠ none)
  /-- occupied spots and pool entries add up to the spots of the level -/
  count_eq : occupiedCount lvl + freeCount lvl = lvl.allSpots.length

/-- Lot states reachable from the constructor by `parkVehicle` / `removeVehicle`;
the constructed map may iterate in any order of its entries. -/
inductive LotReachable : ParkingLot → Prop
  | init (levelIds : List String) (handicap compact large motorcycle : ℤ)
      (levels : List (String × ParkingLevel)) :
      levels.Perm (ParkingLot.new levelIds handicap compact large motorcycle).levels →
      LotReachable { levels := levels }
  | park {lot : ParkingLot} (vehicle : Vehicle) :
      LotReachable lot → LotReachable (lot.parkVehicle vehicle).2
  | remove {lot : ParkingLot} (licensePlate : String) :
      LotReachable lot → LotReachable (lot.removeVehicle licensePlate).2

/-- The licence plates bound to the occupied spots of a list of spots, in spot order. -/
def occupantPlates (spots : List ParkingSpot) : List String :=
  spots.filterMap fun s =>
    if s.isOccupied then s.vehicle.map (fun v => v.licensePlate) else none

/-- The licence plates bound to the occupied spots of all levels of a lot. -/
def ParkingLot.plates (lot : ParkingLot) : List String :=
  lot.levels.flatMap fun e => occupantPlates e.2.allSpots

end Gpt

namespace Gpt

/-- Number of pool entries of type `t` over all levels of a lot. -/
def ParkingLot.freeOf (lot : ParkingLot) (t : SpotType) : ℕ :=
  (lot.levels.map fun e => (e.2.availableSpots t).length).sum

/-- The lot after the calls `parkVehicle(v)` for the vehicles of a list, in order. -/
def parkAll (lot : ParkingLot) (vehicles : List Vehicle) : ParkingLot :=
  vehicles.foldl (fun l v => (l.parkVehicle v).2) lot

/-- Lot states reachable from the constructor when `parkVehicle` is only ever
called with a licence plate that is bound to no occupied spot at that moment. -/
inductive LotReachableFresh : ParkingLot → Prop
  | init (levelIds : List String) (handicap compact large motorcycle : ℤ)
      (levels : List (String × ParkingLevel)) :
      levels.Perm (ParkingLot.new levelIds handicap compact large motorcycle).levels →
      LotReachableFresh { levels := levels }
  | park {lot : ParkingLot} (vehicle : Vehicle) :
      LotReachableFresh lot → vehicle.licensePlate ∉ lot.plates →
      LotReachableFresh (lot.parkVehicle vehicle).2
  | remove {lot : ParkingLot} (licensePlate : String) :
      LotReachableFresh lot → LotReachableFresh (lot.removeVehicle licensePlate).2

/-- The lot of the scenario with two levels of one Large spot each. -/
def demoLot : ParkingLot := ParkingLot.new ["L1", "L2"] 0 0 1 0

end Gpt

/-! ## Vocabulary of call sequences -/

namespace Gpt

/-- One call on a level or on a lot: `parkVehicle(vehicle)` or `removeVehicle(licensePlate)`. -/
inductive Op where
  | park (vehicle : Vehicle)
  | remove (licensePlate : String)

/-- The level after one call. -/
def ParkingLevel.step (lvl : ParkingLevel) : Op → ParkingLevel
  | Op.park vehicle => (lvl.parkVehicle vehicle).2
  | Op.remove licensePlate => (lvl.removeVehicle licensePlate).2

/-- The level after a sequence of calls. -/
def ParkingLevel.run (lvl : ParkingLevel) (ops : List Op) : ParkingLevel :=
  ops.foldl ParkingLevel.step lvl

/-- The spots handed out by the successful `parkVehicle` calls of a sequence of
calls on a level, in the order of the calls. -/
def handouts : ParkingLevel → List Op → List ℕ
  | _, [] => []
  | lvl, Op.park vehicle :: ops =>
      match (lvl.findAvailableSpot vehicle.type).1 with
      | some spot => spot :: handouts (lvl.parkVehicle vehicle).2 ops
      | none => handouts (lvl.parkVehicle vehicle).2 ops
  | lvl, Op.remove licensePlate :: ops => handouts (lvl.removeVehicle licensePlate).2 ops

/-- The lot after one call. -/
def ParkingLot.step (lot : ParkingLot) : Op → ParkingLot
  | Op.park vehicle => (lot.parkVehicle vehicle).2
  | Op.remove licensePlate => (lot.removeVehicle licensePlate).2

/-- The lot after a sequence of calls. -/
def ParkingLot.run (lot : ParkingLot) (ops : List Op) : ParkingLot :=
  ops.foldl ParkingLot.step lot

/-- The tag that the constructor of a level puts between the level id and the
number of a spot of the given type. -/
def spotTag : SpotType → String
  | SpotType.HANDICAP => "-H"
  | SpotType.COMPACT => "-C"
  | SpotType.LARGE => "-L"
  | SpotType.MOTORCYCLE => "-M"

/-- Number of occupied spots of type `t` over a list of levels. -/
def occupiedOfType (t : SpotType) (levels : List (String × ParkingLevel)) : ℕ :=
  (levels.map fun e => e.2.allSpots.countP (fun s => s.isOccupied && decide (s.type = t))).sum

/-- Number of spots of each type that the constructor of a level creates
(a negative count creates none). -/
def typeCount (handicap compact large motorcycle : ℤ) : SpotType → ℕ
  | SpotType.HANDICAP => handicap.toNat
  | SpotType.COMPACT => compact.toNat
  | SpotType.LARGE => large.toNat
  | SpotType.MOTORCYCLE => motorcycle.toNat

/-- Index in `allSpots` of the first spot of each type of a constructed level. -/
def typeOffset (handicap compact large : ℤ) : SpotType → ℕ
  | SpotType.HANDICAP => 0
  | SpotType.COMPACT => handicap.toNat
  | SpotType.LARGE => handicap.toNat + compact.toNat
  | SpotType.MOTORCYCLE => handicap.toNat + compact.toNat + large.toNat

/-- The Handicap spots of a level are all free and its Handicap pool holds the
`n` spots `0, .., n - 1`, which are all the Handicap spots of the level. -/
def HandicapUntouched (n : ℕ) (lvl : ParkingLevel) : Prop :=
  (∀ s ∈ lvl.allSpots, s.type = SpotType.HANDICAP → s.isOccupied = false)
    ∧ lvl.availableSpots SpotType.HANDICAP = List.range' 0 n
    ∧ ∀ (i : ℕ) (s : ParkingSpot), lvl.allSpots[i]? = some s →
        (s.type = SpotType.HANDICAP ↔ i < n)

end Gpt

namespace PLot

/-- The `type_id` that `createSpot` puts between the level id and the number of a spot. -/
def spotTag : SpotType → String
  | SpotType.HANDICAP => "H"
  | SpotType.BIKE => "B"
  | SpotType.CAR => "C"
  | SpotType.BUS => "BU"

/-- Number of spots of each type that the constructor creates (a negative
count creates none). -/
def typeCount (handicap bike car bus : ℤ) : SpotType → ℕ
  | SpotType.HANDICAP => handicap.toNat
  | SpotType.BIKE => bike.toNat
  | SpotType.CAR => car.toNat
  | SpotType.BUS => bus.toNat

/-- Index in `allSpots` of the first spot of each type of a constructed lot. -/
def typeOffset (handicap bike car : ℤ) : SpotType → ℕ
  | SpotType.HANDICAP => 0
  | SpotType.BIKE => handicap.toNat
  | SpotType.CAR => handicap.toNat + bike.toNat
  | SpotType.BUS => handicap.toNat + bike.toNat + car.toNat

end PLot

/-! # Theorems -/

namespace Gpt

/-! ## Levels of gpt.cpp: the operations in closed form -/

theorem parkVehicle_of_empty (lvl : ParkingLevel) (v : Vehicle)
    (h : lvl.availableSpots (requiredType v.type) = []) :
    lvl.parkVehicle v = (false, lvl) := by
  simp only [ParkingLevel.parkVehicle, ParkingLevel.findAvailableSpot, h]

theorem parkVehicle_of_front (lvl : ParkingLevel) (v : Vehicle) (i : ℕ) (rest : List ℕ)
    (h : lvl.availableSpots (requiredType v.type) = i :: rest) :
    lvl.parkVehicle v =
      (true,
        { levelId := lvl.levelId
          availableSpots := Function.update lvl.availableSpots (requiredType v.type) rest
          allSpots := occupy lvl.allSpots i v }) := by
  simp only [ParkingLevel.parkVehicle, ParkingLevel.findAvailableSpot, h]

theorem occupy_of_getElem? {spots : List ParkingSpot} {i : ℕ} {s : ParkingSpot} (v : Vehicle)
    (h : spots[i]? = some s) :
    occupy spots i v = spots.set i { s with isOccupied := true, vehicle := some v } := by
  simp only [occupy, h]

theorem occupy_length (spots : List ParkingSpot) (i : ℕ) (v : Vehicle) :
    (occupy spots i v).length = spots.length := by
  unfold occupy
  split <;> simp

theorem removeVehicle_of_none (lvl : ParkingLevel) (p : String)
    (h : findHolder p lvl.allSpots 0 = none) :
    lvl.removeVehicle p = (false, lvl) := by
  simp only [ParkingLevel.removeVehicle, h]

theorem removeVehicle_of_some (lvl : ParkingLevel) (p : String) (i : ℕ) (s : ParkingSpot)
    (h : findHolder p lvl.allSpots 0 = some (i, s)) :
    lvl.removeVehicle p =
      (true,
        { levelId := lvl.levelId
          availableSpots :=
            Function.update lvl.availableSpots s.type (lvl.availableSpots s.type ++ [i])
          allSpots := lvl.allSpots.set i { s with isOccupied := false, vehicle := none } }) := by
  simp only [ParkingLevel.removeVehicle, h]

/-- What a successful scan of `removeVehicle` found: the first holder. -/
theorem findHolder_some {p : String} {spots : List ParkingSpot} {n i : ℕ} {s : ParkingSpot}
    (h : findHolder p spots n = some (i, s)) :
    ∃ k, i = n + k ∧ spots[k]? = some s ∧ s.holds p = true
      ∧ ∀ k' s', k' < k → spots[k']? = some s' → s'.holds p = false := by
  induction spots generalizing n with
  | nil => simp [findHolder] at h
  | cons a rest ih =>
    unfold findHolder at h
    by_cases ha : a.holds p = true
    · rw [if_pos ha] at h
      simp only [Option.some.injEq, Prod.mk.injEq] at h
      obtain ⟨rfl, rfl⟩ := h
      exact ⟨0, rfl, by simp, ha, fun k' s' hk => absurd hk (Nat.not_lt_zero _)⟩
    · rw [if_neg ha] at h
      obtain ⟨k, hk, hget, hholds, hfirst⟩ := ih h
      refine ⟨k + 1, by omega, by simpa using hget, hholds, ?_⟩
      intro k' s' hlt hs'
      cases k' with
      | zero =>
        simp only [List.getElem?_cons_zero, Option.some.injEq] at hs'
        subst hs'
        simpa using ha
      | succ j =>
        exact hfirst j s' (by omega) (by simpa using hs')

/-- A failed scan of `removeVehicle`: no spot holds the plate. -/
theorem findHolder_eq_none {p : String} {spots : List ParkingSpot} {n : ℕ} :
    findHolder p spots n = none ↔ ∀ s ∈ spots, s.holds p = false := by
  induction spots generalizing n with
  | nil => simp [findHolder]
  | cons a rest ih =>
    unfold findHolder
    by_cases ha : a.holds p = true
    · simp [ha]
    · simp only [if_neg ha, ih, List.mem_cons, forall_eq_or_imp]
      simp only [Bool.not_eq_true] at ha
      simp [ha]

theorem holds_isOccupied {s : ParkingSpot} {p : String} (h : s.holds p = true) :
    s.isOccupied = true := by
  unfold ParkingSpot.holds at h
  simp only [Bool.and_eq_true] at h
  exact h.1

/-! ## Counting -/

theorem countP_set_gain {α : Type} (p : α → Bool) :
    ∀ (l : List α) (i : ℕ) (a b : α), l[i]? = some a → p a = false → p b = true →
      (l.set i b).countP p = l.countP p + 1
  | [], i, a, b, h, _, _ => by simp at h
  | x :: l, 0, a, b, h, ha, hb => by
      simp only [List.getElem?_cons_zero, Option.some.injEq] at h
      subst h
      simp [List.countP_cons, ha, hb]
  | x :: l, i + 1, a, b, h, ha, hb => by
      simp only [List.getElem?_cons_succ] at h
      simp only [List.set_cons_succ, List.countP_cons, countP_set_gain p l i a b h ha hb]
      omega

theorem countP_set_loss {α : Type} (p : α → Bool) :
    ∀ (l : List α) (i : ℕ) (a b : α), l[i]? = some a → p a = true → p b = false →
      (l.set i b).countP p + 1 = l.countP p
  | [], i, a, b, h, _, _ => by simp at h
  | x :: l, 0, a, b, h, ha, hb => by
      simp only [List.getElem?_cons_zero, Option.some.injEq] at h
      subst h
      simp [List.countP_cons, ha, hb]
  | x :: l, i + 1, a, b, h, ha, hb => by
      simp only [List.getElem?_cons_succ] at h
      simp only [List.set_cons_succ, List.countP_cons]
      have := countP_set_loss p l i a b h ha hb
      omega

theorem freeCount_update (lvl : ParkingLevel) (t : SpotType) (q : List ℕ) (spots : List ParkingSpot) :
    freeCount { levelId := lvl.levelId, availableSpots := Function.update lvl.availableSpots t q,
                allSpots := spots } + (lvl.availableSpots t).length
      = freeCount lvl + q.length := by
  cases t <;> simp [freeCount, Function.update] <;> omega

end Gpt

namespace Gpt

/-! ## The constructor's pools -/

theorem enqueueAll_apply (t : SpotType) :
    ∀ (spots : List ParkingSpot) (n : ℕ) (pools : SpotType → List ℕ),
      enqueueAll spots n pools t = pools t ++ indicesOfType t spots n
  | [], n, pools => by simp [enqueueAll, indicesOfType]
  | a :: rest, n, pools => by
      rw [enqueueAll, enqueueAll_apply t rest (n + 1), indicesOfType]
      by_cases h : a.type = t
      · subst h
        simp
      · rw [if_neg h, Function.update_noteq (Ne.symm h)]

theorem mem_indicesOfType {t : SpotType} :
    ∀ {spots : List ParkingSpot} {n j : ℕ},
      j ∈ indicesOfType t spots n ↔ ∃ k s, spots[k]? = some s ∧ s.type = t ∧ j = n + k
  | [], n, j => by simp [indicesOfType]
  | a :: rest, n, j => by
      have ih := @mem_indicesOfType t rest (n + 1) j
      constructor
      · intro h
        unfold indicesOfType at h
        by_cases ha : a.type = t
        · rw [if_pos ha, List.mem_cons] at h
          rcases h with rfl | h
          · exact ⟨0, a, by simp, ha, rfl⟩
          · obtain ⟨k, s, hk, hs, rfl⟩ := ih.mp h
            exact ⟨k + 1, s, by simpa using hk, hs, by omega⟩
        · rw [if_neg ha] at h
          obtain ⟨k, s, hk, hs, rfl⟩ := ih.mp h
          exact ⟨k + 1, s, by simpa using hk, hs, by omega⟩
      · rintro ⟨k, s, hk, hs, rfl⟩
        unfold indicesOfType
        cases k with
        | zero =>
          simp only [List.getElem?_cons_zero, Option.some.injEq] at hk
          subst hk
          simp [hs]
        | succ k =>
          have hmem : n + (k + 1) ∈ indicesOfType t rest (n + 1) :=
            ih.mpr ⟨k, s, by simpa using hk, hs, by omega⟩
          by_cases ha : a.type = t
          · rw [if_pos ha]
            exact List.mem_cons_of_mem _ hmem
          · rw [if_neg ha]
            exact hmem

theorem nodup_indicesOfType (t : SpotType) :
    ∀ (spots : List ParkingSpot) (n : ℕ), (indicesOfType t spots n).Nodup
  | [], n => by simp [indicesOfType]
  | a :: rest, n => by
      unfold indicesOfType
      have ih := nodup_indicesOfType t rest (n + 1)
      by_cases ha : a.type = t
      · rw [if_pos ha, List.nodup_cons]
        refine ⟨?_, ih⟩
        intro hmem
        obtain ⟨k, s, _, _, hk⟩ := mem_indicesOfType.mp hmem
        omega
      · rw [if_neg ha]
        exact ih

theorem length_indicesOfType_sum :
    ∀ (spots : List ParkingSpot) (n : ℕ),
      (indicesOfType SpotType.HANDICAP spots n).length
        + (indicesOfType SpotType.COMPACT spots n).length
        + (indicesOfType SpotType.LARGE spots n).length
        + (indicesOfType SpotType.MOTORCYCLE spots n).length = spots.length
  | [], n => by simp [indicesOfType]
  | a :: rest, n => by
      have ih := length_indicesOfType_sum rest (n + 1)
      unfold indicesOfType
      cases hty : a.type <;> simp <;> omega

theorem createSpots_fresh {levelId tag : String} {count : ℤ} {t : SpotType} {s : ParkingSpot}
    (h : s ∈ createSpots levelId tag count t) :
    s.type = t ∧ s.isOccupied = false ∧ s.vehicle = none := by
  simp only [createSpots, List.mem_map, List.mem_range] at h
  obtain ⟨i, _, rfl⟩ := h
  exact ⟨rfl, rfl, rfl⟩

theorem new_allSpots_fresh (levelId : String) (h c l m : ℤ) {s : ParkingSpot}
    (hs : s ∈ (ParkingLevel.new levelId h c l m).allSpots) :
    s.isOccupied = false ∧ s.vehicle = none := by
  simp only [ParkingLevel.new, List.mem_append] at hs
  rcases hs with ((hs | hs) | hs) | hs <;> exact (createSpots_fresh hs).2

theorem new_availableSpots (levelId : String) (h c l m : ℤ) (t : SpotType) :
    (ParkingLevel.new levelId h c l m).availableSpots t
      = indicesOfType t (ParkingLevel.new levelId h c l m).allSpots 0 := by
  simp only [ParkingLevel.new, enqueueAll_apply, List.nil_append]

/-! ## The invariant holds in every reachable level state -/

theorem levelInv_new (levelId : String) (h c l m : ℤ) :
    LevelInv (ParkingLevel.new levelId h c l m) := by
  have hfresh := fun s => @new_allSpots_fresh levelId h c l m s
  have hpool := new_availableSpots levelId h c l m
  refine ⟨?_, ?_, ?_, ?_, ?_⟩
  · intro t i hi
    rw [hpool] at hi
    obtain ⟨k, s, hk, hs, rfl⟩ := mem_indicesOfType.mp hi
    refine ⟨s, by simpa using hk, hs, (hfresh s (List.getElem?_mem hk)).1⟩
  · intro t
    rw [hpool]
    exact nodup_indicesOfType _ _ _
  · intro i s hi _
    rw [hpool]
    exact mem_indicesOfType.mpr ⟨i, s, hi, rfl, by omega⟩
  · intro i s hi
    have := hfresh s (List.getElem?_mem hi)
    simp [this.1, this.2]
  · have hocc : occupiedCount (ParkingLevel.new levelId h c l m) = 0 := by
      simp only [occupiedCount, List.countP_eq_zero]
      intro s hs
      simp [(hfresh s hs).1]
    simp only [hocc, freeCount, hpool, length_indicesOfType_sum, zero_add]

theorem levelInv_parkVehicle {lvl : ParkingLevel} (v : Vehicle) (inv : LevelInv lvl) :
    LevelInv (lvl.parkVehicle v).2 := by
  cases hq : lvl.availableSpots (requiredType v.type) with
  | nil => rw [parkVehicle_of_empty lvl v hq]; exact inv
  | cons i rest =>
    rw [parkVehicle_of_front lvl v i rest hq]
    obtain ⟨s, hs, hty, hfree⟩ := inv.pool_valid _ i (by rw [hq]; exact List.mem_cons_self _ _)
    have hnd := inv.pool_nodup (requiredType v.type)
    rw [hq, List.nodup_cons] at hnd
    rw [occupy_of_getElem? v hs]
    refine ⟨?_, ?_, ?_, ?_, ?_⟩
    · intro t j hj
      simp only at hj ⊢
      by_cases ht : t = requiredType v.type
      · subst ht
        rw [Function.update_same] at hj
        have hji : i ≠ j := fun e => hnd.1 (e ▸ hj)
        obtain ⟨s', hs', h1, h2⟩ := inv.pool_valid _ j (by rw [hq]; exact List.mem_cons_of_mem _ hj)
        exact ⟨s', by rw [List.getElem?_set_ne hji]; exact hs', h1, h2⟩
      · rw [Function.update_noteq ht] at hj
        obtain ⟨s', hs', h1, h2⟩ := inv.pool_valid _ j hj
        have hji : i ≠ j := by
          rintro rfl
          rw [hs] at hs'
          simp only [Option.some.injEq] at hs'
          subst hs'
          exact ht (h1.symm.trans hty)
        exact ⟨s', by rw [List.getElem?_set_ne hji]; exact hs', h1, h2⟩
    · intro t
      simp only
      by_cases ht : t = requiredType v.type
      · subst ht
        rw [Function.update_same]
        exact hnd.2
      · rw [Function.update_noteq ht]
        exact inv.pool_nodup t
    · intro j s' hs' hfree'
      simp only at hs' ⊢
      have hji : i ≠ j := by
        rintro rfl
        rw [List.getElem?_set_self (List.getElem?_eq_some.mp hs).1] at hs'
        simp only [Option.some.injEq] at hs'
        subst hs'
        simp at hfree'
      rw [List.getElem?_set_ne hji] at hs'
      have hmem := inv.free_queued j s' hs' hfree'
      by_cases ht : s'.type = requiredType v.type
      · rw [ht, Function.update_same]
        rw [ht, hq, List.mem_cons] at hmem
        rcases hmem with rfl | hmem
        · exact absurd rfl hji
        · exact hmem
      · rw [Function.update_noteq ht]
        exact hmem
    · intro j s' hs'
      simp only at hs'
      by_cases hji : i = j
      · subst hji
        rw [List.getElem?_set_self (List.getElem?_eq_some.mp hs).1] at hs'
        simp only [Option.some.injEq] at hs'
        subst hs'
        simp
      · rw [List.getElem?_set_ne hji] at hs'
        exact inv.occupied_bound j s' hs'
    · have hc := countP_set_gain (fun s : ParkingSpot => s.isOccupied) lvl.allSpots i s
        { s with isOccupied := true, vehicle := some v } hs hfree rfl
      have hf := freeCount_update lvl (requiredType v.type) rest
        (lvl.allSpots.set i { s with isOccupied := true, vehicle := some v })
      have hcount := inv.count_eq
      simp only [occupiedCount, hq, List.length_cons, List.length_set] at hc hf hcount ⊢
      omega

theorem levelInv_removeVehicle {lvl : ParkingLevel} (p : String) (inv : LevelInv lvl) :
    LevelInv (lvl.removeVehicle p).2 := by
  cases hf : findHolder p lvl.allSpots 0 with
  | none => rw [removeVehicle_of_none lvl p hf]; exact inv
  | some found =>
    obtain ⟨i, s⟩ := found
    rw [removeVehicle_of_some lvl p i s hf]
    obtain ⟨k, hk, hs, hholds, _⟩ := findHolder_some hf
    have hik : i = k := by omega
    subst hik
    have hocc := holds_isOccupied hholds
    have hnotin : ∀ t, i ∉ lvl.availableSpots t := by
      intro t hmem
      obtain ⟨s', hs', _, h2⟩ := inv.pool_valid t i hmem
      rw [hs] at hs'
      simp only [Option.some.injEq] at hs'
      subst hs'
      rw [hocc] at h2
      exact Bool.noConfusion h2
    have hlt := (List.getElem?_eq_some.mp hs).1
    refine ⟨?_, ?_, ?_, ?_, ?_⟩
    · intro t j hj
      simp only at hj ⊢
      by_cases hji : i = j
      · subst hji
        rw [List.getElem?_set_self hlt]
        refine ⟨_, rfl, ?_, rfl⟩
        by_contra hne
        rw [Function.update_noteq (fun e => hne e.symm)] at hj
        exact hnotin t hj
      · have hj' : j ∈ lvl.availableSpots t := by
          by_cases ht : t = s.type
          · subst ht
            rw [Function.update_same, List.mem_append, List.mem_singleton] at hj
            rcases hj with hj | rfl
            · exact hj
            · exact absurd rfl hji
          · rwa [Function.update_noteq ht] at hj
        obtain ⟨s', hs', h1, h2⟩ := inv.pool_valid t j hj'
        exact ⟨s', by rw [List.getElem?_set_ne hji]; exact hs', h1, h2⟩
    · intro t
      simp only
      by_cases ht : t = s.type
      · subst ht
        rw [Function.update_same]
        refine List.Nodup.append (inv.pool_nodup _) (List.nodup_singleton i) ?_
        intro a ha hai
        rw [List.mem_singleton] at hai
        subst hai
        exact hnotin _ ha
      · rw [Function.update_noteq ht]
        exact inv.pool_nodup t
    · intro j s' hs' hfree'
      simp only at hs' ⊢
      by_cases hji : i = j
      · subst hji
        rw [List.getElem?_set_self hlt] at hs'
        simp only [Option.some.injEq] at hs'
        subst hs'
        simp
      · rw [List.getElem?_set_ne hji] at hs'
        have hmem := inv.free_queued j s' hs' hfree'
        by_cases ht : s'.type = s.type
        · rw [ht, Function.update_same]
          rw [ht] at hmem
          exact List.mem_append_left _ hmem
        · rw [Function.update_noteq ht]
          exact hmem
    · intro j s' hs'
      simp only at hs'
      by_cases hji : i = j
      · subst hji
        rw [List.getElem?_set_self hlt] at hs'
        simp only [Option.some.injEq] at hs'
        subst hs'
        simp
      · rw [List.getElem?_set_ne hji] at hs'
        exact inv.occupied_bound j s' hs'
    · have hc := countP_set_loss (fun s : ParkingSpot => s.isOccupied) lvl.allSpots i s
        { s with isOccupied := false, vehicle := none } hs hocc rfl
      have hfc := freeCount_update lvl s.type (lvl.availableSpots s.type ++ [i])
        (lvl.allSpots.set i { s with isOccupied := false, vehicle := none })
      have hcount := inv.count_eq
      simp only [occupiedCount, List.length_append, List.length_singleton,
        List.length_set] at hc hfc hcount ⊢
      omega

theorem levelInv_of_reachable {lvl : ParkingLevel} (h : LevelReachable lvl) : LevelInv lvl := by
  induction h with
  | init levelId h c l m => exact levelInv_new levelId h c l m
  | park v _ ih => exact levelInv_parkVehicle v ih
  | remove p _ ih => exact levelInv_removeVehicle p ih

end Gpt

namespace Gpt

/-- C1: in every level state reachable from the constructor by `parkVehicle` /
`removeVehicle`, a spot that is not occupied is in the free pool of its own type
exactly once and in no other pool, an occupied spot is in no pool, every pool
entry is a spot of the level, and occupied spots plus pool sizes add up to the
number of spots of the level. -/
theorem level_pools_partition_spots (lvl : ParkingLevel) (h : LevelReachable lvl) :
    (∀ (i : ℕ) (s : ParkingSpot), lvl.allSpots[i]? = some s →
        (s.isOccupied = false →
          (lvl.availableSpots s.type).count i = 1
            ∧ ∀ t, t ≠ s.type → i ∉ lvl.availableSpots t)
        ∧ (s.isOccupied = true → ∀ t, i ∉ lvl.availableSpots t))
    ∧ (∀ (t : SpotType) (i : ℕ), i ∈ lvl.availableSpots t → i < lvl.allSpots.length)
    ∧ occupiedCount lvl + freeCount lvl = lvl.allSpots.length := by
  have inv := levelInv_of_reachable h
  refine ⟨?_, ?_, inv.count_eq⟩
  · intro i s hs
    have key : ∀ t, i ∈ lvl.availableSpots t → s.type = t ∧ s.isOccupied = false := by
      intro t hmem
      obtain ⟨s', hs', h1, h2⟩ := inv.pool_valid t i hmem
      rw [hs] at hs'
      simp only [Option.some.injEq] at hs'
      subst hs'
      exact ⟨h1, h2⟩
    refine ⟨fun hfree => ⟨?_, ?_⟩, ?_⟩
    · exact List.count_eq_one_of_mem (inv.pool_nodup _) (inv.free_queued i s hs hfree)
    · intro t ht hmem
      exact ht (key t hmem).1.symm
    · intro hocc t hmem
      have := (key t hmem).2
      rw [hocc] at this
      exact Bool.noConfusion this
  · intro t i hmem
    obtain ⟨s, hs, _, _⟩ := inv.pool_valid t i hmem
    exact (List.getElem?_eq_some.mp hs).1

/-- Witness of C1: the level "L1" with 1, 2, 1, 1 spots after one Car is parked. -/
theorem level_pools_partition_spots_witness :
    (∀ (i : ℕ) (s : ParkingSpot),
        ((ParkingLevel.new "L1" 1 2 1 1).parkVehicle (Car "KA-01-1234")).2.allSpots[i]? = some s →
        (s.isOccupied = false →
          (((ParkingLevel.new "L1" 1 2 1 1).parkVehicle (Car "KA-01-1234")).2.availableSpots
              s.type).count i = 1
            ∧ ∀ t, t ≠ s.type →
              i ∉ ((ParkingLevel.new "L1" 1 2 1 1).parkVehicle (Car "KA-01-1234")).2.availableSpots t)
        ∧ (s.isOccupied = true → ∀ t,
            i ∉ ((ParkingLevel.new "L1" 1 2 1 1).parkVehicle (Car "KA-01-1234")).2.availableSpots t))
    ∧ (∀ (t : SpotType) (i : ℕ),
        i ∈ ((ParkingLevel.new "L1" 1 2 1 1).parkVehicle (Car "KA-01-1234")).2.availableSpots t →
        i < ((ParkingLevel.new "L1" 1 2 1 1).parkVehicle (Car "KA-01-1234")).2.allSpots.length)
    ∧ occupiedCount ((ParkingLevel.new "L1" 1 2 1 1).parkVehicle (Car "KA-01-1234")).2
        + freeCount ((ParkingLevel.new "L1" 1 2 1 1).parkVehicle (Car "KA-01-1234")).2
      = ((ParkingLevel.new "L1" 1 2 1 1).parkVehicle (Car "KA-01-1234")).2.allSpots.length :=
  level_pools_partition_spots _
    (LevelReachable.park (Car "KA-01-1234") (LevelReachable.init "L1" 1 2 1 1))

/-- C8: `ParkingLevel::parkVehicle` returns false exactly when the free pool of
the required spot type is empty, and then the level (spots and pools) is
unchanged. -/
theorem level_parkVehicle_false_iff (lvl : ParkingLevel) (v : Vehicle) :
    ((lvl.parkVehicle v).1 = false ↔ lvl.availableSpots (requiredType v.type) = [])
    ∧ ((lvl.parkVehicle v).1 = false → (lvl.parkVehicle v).2 = lvl) := by
  cases hq : lvl.availableSpots (requiredType v.type) with
  | nil => simp [parkVehicle_of_empty lvl v hq]
  | cons i rest => simp [parkVehicle_of_front lvl v i rest hq]

end Gpt

namespace Gpt

/-! ## The lot of gpt.cpp: the loops in closed form -/

theorem parkInLevels_cons_empty (v : Vehicle) (id : String) (lvl : ParkingLevel)
    (rest : List (String × ParkingLevel))
    (h : lvl.availableSpots (requiredType v.type) = []) :
    parkInLevels v ((id, lvl) :: rest)
      = ((parkInLevels v rest).1, (id, lvl) :: (parkInLevels v rest).2) := by
  simp only [parkInLevels, parkVehicle_of_empty lvl v h]

theorem parkInLevels_cons_front (v : Vehicle) (id : String) (lvl : ParkingLevel)
    (rest : List (String × ParkingLevel))
    (h : lvl.availableSpots (requiredType v.type) ≠ []) :
    parkInLevels v ((id, lvl) :: rest) = (true, (id, (lvl.parkVehicle v).2) :: rest) := by
  cases hq : lvl.availableSpots (requiredType v.type) with
  | nil => exact absurd hq h
  | cons i q => simp only [parkInLevels, parkVehicle_of_front lvl v i q hq]

/-- A failed `ParkingLot::parkVehicle`: every pool of the required type is empty
and no level changes. -/
theorem parkInLevels_false (v : Vehicle) :
    ∀ (levels : List (String × ParkingLevel)), (parkInLevels v levels).1 = false →
      (∀ e ∈ levels, e.2.availableSpots (requiredType v.type) = [])
        ∧ (parkInLevels v levels).2 = levels
  | [], _ => by simp [parkInLevels]
  | (id, lvl) :: rest, h => by
      by_cases hq : lvl.availableSpots (requiredType v.type) = []
      · rw [parkInLevels_cons_empty v id lvl rest hq] at h ⊢
        obtain ⟨h1, h2⟩ := parkInLevels_false v rest h
        refine ⟨?_, by simp only [h2]⟩
        intro e he
        rcases List.mem_cons.mp he with rfl | he
        · exact hq
        · exact h1 e he
      · rw [parkInLevels_cons_front v id lvl rest hq] at h
        exact Bool.noConfusion h

/-- A successful `ParkingLot::parkVehicle`: the first level whose pool of the
required type is not empty parks the vehicle, the other levels are untouched. -/
theorem parkInLevels_true (v : Vehicle) :
    ∀ (levels : List (String × ParkingLevel)), (parkInLevels v levels).1 = true →
      ∃ pre id lvl post, levels = pre ++ (id, lvl) :: post
        ∧ (∀ e ∈ pre, e.2.availableSpots (requiredType v.type) = [])
        ∧ lvl.availableSpots (requiredType v.type) ≠ []
        ∧ (parkInLevels v levels).2 = pre ++ (id, (lvl.parkVehicle v).2) :: post
  | [], h => by simp [parkInLevels] at h
  | (id, lvl) :: rest, h => by
      by_cases hq : lvl.availableSpots (requiredType v.type) = []
      · rw [parkInLevels_cons_empty v id lvl rest hq] at h ⊢
        obtain ⟨pre, id', lvl', post, h1, h2, h3, h4⟩ := parkInLevels_true v rest h
        refine ⟨(id, lvl) :: pre, id', lvl', post, by simp only [h1, List.cons_append], ?_, h3,
          by simp only [h4, List.cons_append]⟩
        intro e he
        rcases List.mem_cons.mp he with rfl | he
        · exact hq
        · exact h2 e he
      · rw [parkInLevels_cons_front v id lvl rest hq]
        exact ⟨[], id, lvl, rest, rfl, by simp, hq, rfl⟩

theorem parkInLevels_true_iff (v : Vehicle) (levels : List (String × ParkingLevel)) :
    (parkInLevels v levels).1 = true
      ↔ ∃ e ∈ levels, e.2.availableSpots (requiredType v.type) ≠ [] := by
  constructor
  · intro h
    obtain ⟨pre, id, lvl, post, h1, _, h3, _⟩ := parkInLevels_true v levels h
    exact ⟨(id, lvl), by simp [h1], h3⟩
  · rintro ⟨e, he, hne⟩
    by_contra hf
    simp only [Bool.not_eq_true] at hf
    exact hne ((parkInLevels_false v levels hf).1 e he)

theorem removeInLevels_cons_none (p : String) (id : String) (lvl : ParkingLevel)
    (rest : List (String × ParkingLevel)) (h : findHolder p lvl.allSpots 0 = none) :
    removeInLevels p ((id, lvl) :: rest)
      = ((removeInLevels p rest).1, (id, lvl) :: (removeInLevels p rest).2) := by
  simp only [removeInLevels, removeVehicle_of_none lvl p h]

theorem removeInLevels_cons_some (p : String) (id : String) (lvl : ParkingLevel)
    (rest : List (String × ParkingLevel)) (h : findHolder p lvl.allSpots 0 ≠ none) :
    removeInLevels p ((id, lvl) :: rest) = (true, (id, (lvl.removeVehicle p).2) :: rest) := by
  cases hf : findHolder p lvl.allSpots 0 with
  | none => exact absurd hf h
  | some found =>
    obtain ⟨i, s⟩ := found
    simp only [removeInLevels, removeVehicle_of_some lvl p i s hf]

/-- Every level of the result of either loop is an old level or the result of
the level operation on an old level. -/
theorem parkInLevels_forall (P : ParkingLevel → Prop) (v : Vehicle)
    (hstep : ∀ lvl, P lvl → P (lvl.parkVehicle v).2) :
    ∀ (levels : List (String × ParkingLevel)), (∀ e ∈ levels, P e.2) →
      ∀ e ∈ (parkInLevels v levels).2, P e.2
  | [], _ => by simp [parkInLevels]
  | (id, lvl) :: rest, h => by
      have hrest : ∀ e ∈ rest, P e.2 := fun e he => h e (List.mem_cons_of_mem _ he)
      have hlvl : P lvl := h (id, lvl) (List.mem_cons_self _ _)
      by_cases hq : lvl.availableSpots (requiredType v.type) = []
      · rw [parkInLevels_cons_empty v id lvl rest hq]
        intro e he
        rcases List.mem_cons.mp he with rfl | he
        · exact hlvl
        · exact parkInLevels_forall P v hstep rest hrest e he
      · rw [parkInLevels_cons_front v id lvl rest hq]
        intro e he
        rcases List.mem_cons.mp he with rfl | he
        · exact hstep lvl hlvl
        · exact hrest e he

theorem removeInLevels_forall (P : ParkingLevel → Prop) (p : String)
    (hstep : ∀ lvl, P lvl → P (lvl.removeVehicle p).2) :
    ∀ (levels : List (String × ParkingLevel)), (∀ e ∈ levels, P e.2) →
      ∀ e ∈ (removeInLevels p levels).2, P e.2
  | [], _ => by simp [removeInLevels]
  | (id, lvl) :: rest, h => by
      have hrest : ∀ e ∈ rest, P e.2 := fun e he => h e (List.mem_cons_of_mem _ he)
      have hlvl : P lvl := h (id, lvl) (List.mem_cons_self _ _)
      by_cases hf : findHolder p lvl.allSpots 0 = none
      · rw [removeInLevels_cons_none p id lvl rest hf]
        intro e he
        rcases List.mem_cons.mp he with rfl | he
        · exact hlvl
        · exact removeInLevels_forall P p hstep rest hrest e he
      · rw [removeInLevels_cons_some p id lvl rest hf]
        intro e he
        rcases List.mem_cons.mp he with rfl | he
        · exact hstep lvl hlvl
        · exact hrest e he

/-! ## The constructor of the lot -/

theorem mem_mapAssign {entries : List (String × ParkingLevel)} {id : String} {value : ParkingLevel}
    {e : String × ParkingLevel} (h : e ∈ mapAssign entries id value) :
    e ∈ entries ∨ e = (id, value) := by
  induction entries with
  | nil =>
    simp only [mapAssign, List.mem_singleton] at h
    exact Or.inr h
  | cons a rest ih =>
    obtain ⟨k, w⟩ := a
    unfold mapAssign at h
    by_cases hk : k = id
    · rw [if_pos hk, List.mem_cons] at h
      rcases h with h | h
      · exact Or.inr (by rw [h, hk])
      · exact Or.inl (List.mem_cons_of_mem _ h)
    · rw [if_neg hk, List.mem_cons] at h
      rcases h with h | h
      · exact Or.inl (by rw [h]; exact List.mem_cons_self _ _)
      · rcases ih h with h | h
        · exact Or.inl (List.mem_cons_of_mem _ h)
        · exact Or.inr h

theorem mem_foldl_mapAssign (f : String → ParkingLevel) :
    ∀ (ids : List String) (acc : List (String × ParkingLevel)) (e : String × ParkingLevel),
      e ∈ ids.foldl (fun entries id => mapAssign entries id (f id)) acc →
      e ∈ acc ∨ e.2 = f e.1
  | [], acc, e, h => Or.inl h
  | id :: ids, acc, e, h => by
      rw [List.foldl_cons] at h
      rcases mem_foldl_mapAssign f ids _ e h with h | h
      · rcases mem_mapAssign h with h | h
        · exact Or.inl h
        · exact Or.inr (by rw [h])
      · exact Or.inr h

/-- Every level of a constructed lot is a freshly constructed level. -/
theorem new_levels_fresh (levelIds : List String) (h c l m : ℤ) {e : String × ParkingLevel}
    (he : e ∈ (ParkingLot.new levelIds h c l m).levels) :
    e.2 = ParkingLevel.new e.1 h c l m := by
  rcases mem_foldl_mapAssign (fun id => ParkingLevel.new id h c l m) levelIds [] e he with h | h
  · simp at h
  · exact h

theorem mapAssign_of_not_mem {entries : List (String × ParkingLevel)} {id : String}
    (value : ParkingLevel) (h : ∀ e ∈ entries, e.1 ≠ id) :
    mapAssign entries id value = entries ++ [(id, value)] := by
  induction entries with
  | nil => rfl
  | cons a rest ih =>
    obtain ⟨k, w⟩ := a
    have hk : k ≠ id := h (k, w) (List.mem_cons_self _ _)
    unfold mapAssign
    rw [if_neg hk, ih (fun e he => h e (List.mem_cons_of_mem _ he))]
    rfl

theorem foldl_mapAssign_nodup (f : String → ParkingLevel) :
    ∀ (ids : List String) (acc : List (String × ParkingLevel)), ids.Nodup →
      (∀ e ∈ acc, e.1 ∉ ids) →
      ids.foldl (fun entries id => mapAssign entries id (f id)) acc
        = acc ++ ids.map (fun id => (id, f id))
  | [], acc, _, _ => by simp
  | id :: ids, acc, hnd, hacc => by
      rw [List.nodup_cons] at hnd
      rw [List.foldl_cons, mapAssign_of_not_mem (f id)
        (fun e he heq => hacc e he (heq ▸ List.mem_cons_self _ _))]
      rw [foldl_mapAssign_nodup f ids _ hnd.2]
      · simp
      · intro e he
        rcases List.mem_append.mp he with he | he
        · exact fun hmem => hacc e he (List.mem_cons_of_mem _ hmem)
        · rw [List.mem_singleton] at he
          rw [he]
          exact hnd.1

/-- For pairwise distinct ids the constructed map has one fresh level per id. -/
theorem new_levels_of_nodup (levelIds : List String) (h c l m : ℤ) (hnd : levelIds.Nodup) :
    (ParkingLot.new levelIds h c l m).levels
      = levelIds.map (fun id => (id, ParkingLevel.new id h c l m)) := by
  have := foldl_mapAssign_nodup (fun id => ParkingLevel.new id h c l m) levelIds [] hnd (by simp)
  simpa [ParkingLot.new] using this

/-! ## Every level of a reachable lot satisfies the level invariant -/

theorem lot_levelInv {lot : ParkingLot} (h : LotReachable lot) :
    ∀ e ∈ lot.levels, LevelInv e.2 := by
  induction h with
  | init levelIds h c l m levels hperm =>
    intro e he
    have he' := hperm.subset he
    rw [new_levels_fresh levelIds h c l m he']
    exact levelInv_new _ _ _ _ _
  | park v _ ih =>
    exact parkInLevels_forall LevelInv v (fun _ inv => levelInv_parkVehicle v inv) _ ih
  | remove p _ ih =>
    exact removeInLevels_forall LevelInv p (fun _ inv => levelInv_removeVehicle p inv) _ ih

end Gpt

namespace Gpt

/-! ## Plates bound to occupied spots -/

theorem holds_iff_plate (s : ParkingSpot) (p : String) :
    s.holds p = true
      ↔ (if s.isOccupied then s.vehicle.map (fun v => v.licensePlate) else none) = some p := by
  unfold ParkingSpot.holds
  cases hocc : s.isOccupied <;> cases hv : s.vehicle <;> simp

theorem not_mem_occupantPlates {spots : List ParkingSpot} {p : String} :
    p ∉ occupantPlates spots ↔ ∀ s ∈ spots, s.holds p = false := by
  simp only [occupantPlates, List.mem_filterMap, not_exists, not_and]
  constructor
  · intro h s hs
    have := h s hs
    rw [← holds_iff_plate] at this
    simpa using this
  · intro h s hs
    rw [← holds_iff_plate, h s hs]
    simp

theorem removeInLevels_of_absent (p : String) :
    ∀ (levels : List (String × ParkingLevel)),
      (∀ e ∈ levels, p ∉ occupantPlates e.2.allSpots) →
      removeInLevels p levels = (false, levels)
  | [], _ => rfl
  | (id, lvl) :: rest, h => by
      have h1 : findHolder p lvl.allSpots 0 = none :=
        findHolder_eq_none.mpr (not_mem_occupantPlates.mp (h (id, lvl) (List.mem_cons_self _ _)))
      rw [removeInLevels_cons_none p id lvl rest h1,
        removeInLevels_of_absent p rest (fun e he => h e (List.mem_cons_of_mem _ he))]

/-- The spot that a successful `ParkingLot::parkVehicle` binds, in a reachable lot. -/
theorem lot_park_shape (lot : ParkingLot) (v : Vehicle) (h : LotReachable lot)
    (hres : (lot.parkVehicle v).1 = true) :
    ∃ pre id lvl post i rest s,
      lot.levels = pre ++ (id, lvl) :: post
      ∧ (∀ e ∈ pre, e.2.availableSpots (requiredType v.type) = [])
      ∧ lvl.availableSpots (requiredType v.type) = i :: rest
      ∧ i ∉ rest
      ∧ lvl.allSpots[i]? = some s
      ∧ s.type = requiredType v.type ∧ s.isOccupied = false ∧ s.vehicle = none
      ∧ (lot.parkVehicle v).2.levels
          = pre ++ (id,
              { levelId := lvl.levelId
                availableSpots := Function.update lvl.availableSpots (requiredType v.type) rest
                allSpots := lvl.allSpots.set i { s with isOccupied := true, vehicle := some v } })
            :: post := by
  obtain ⟨pre, id, lvl, post, h1, h2, h3, h4⟩ := parkInLevels_true v lot.levels hres
  have inv : LevelInv lvl := lot_levelInv h (id, lvl) (by simp [h1])
  cases hq : lvl.availableSpots (requiredType v.type) with
  | nil => exact absurd hq h3
  | cons i rest =>
    obtain ⟨s, hs, hty, hfree⟩ := inv.pool_valid _ i (by rw [hq]; exact List.mem_cons_self _ _)
    have hnd := inv.pool_nodup (requiredType v.type)
    rw [hq, List.nodup_cons] at hnd
    have hveh : s.vehicle = none := by
      have := inv.occupied_bound i s hs
      rw [hfree] at this
      by_contra hne
      exact Bool.noConfusion (this.mpr hne)
    refine ⟨pre, id, lvl, post, i, rest, s, h1, h2, hq, hnd.1, hs, hty, hfree, hveh, ?_⟩
    simp only [ParkingLot.parkVehicle, h4, parkVehicle_of_front lvl v i rest hq,
      occupy_of_getElem? v hs]

/-- A failed `ParkingLot::parkVehicle` leaves the lot as it was. -/
theorem lot_park_false_unchanged (lot : ParkingLot) (v : Vehicle)
    (hf : (lot.parkVehicle v).1 = false) : (lot.parkVehicle v).2 = lot := by
  simp only [ParkingLot.parkVehicle, (parkInLevels_false v lot.levels hf).2]

/-- C7: when the plate is bound to no occupied spot of any level,
`ParkingLot::removeVehicle` returns false and the lot (every spot and every
pool of every level) is unchanged. -/
theorem lot_removeVehicle_absent (lot : ParkingLot) (licensePlate : String)
    (h : licensePlate ∉ lot.plates) :
    lot.removeVehicle licensePlate = (false, lot) := by
  have h' : ∀ e ∈ lot.levels, licensePlate ∉ occupantPlates e.2.allSpots := by
    intro e he hmem
    exact h (List.mem_flatMap.mpr ⟨e, he, hmem⟩)
  simp only [ParkingLot.removeVehicle, removeInLevels_of_absent licensePlate lot.levels h']

/-- Witness of C7: a lot of two levels holding one Car, asked to remove a plate that is not parked. -/
theorem lot_removeVehicle_absent_witness :
    "KA-09-0000" ∉ ((ParkingLot.new ["L1", "L2"] 1 1 1 1).parkVehicle (Car "KA-01-1234")).2.plates
    ∧ ((ParkingLot.new ["L1", "L2"] 1 1 1 1).parkVehicle (Car "KA-01-1234")).2.removeVehicle
          "KA-09-0000"
        = (false, ((ParkingLot.new ["L1", "L2"] 1 1 1 1).parkVehicle (Car "KA-01-1234")).2) :=
  ⟨by decide, lot_removeVehicle_absent _ _ (by decide)⟩

/-- C9: in a reachable lot, `ParkingLot::parkVehicle` returns true exactly when
some level has a non-empty free pool of the required type; on success the first
such level in iteration order pops the front spot of that pool, which was free
and becomes occupied by the vehicle, and nothing else changes; on failure the
lot is unchanged. -/
theorem lot_parkVehicle_first_success (lot : ParkingLot) (v : Vehicle) (h : LotReachable lot) :
    ((lot.parkVehicle v).1 = true
        ↔ ∃ e ∈ lot.levels, e.2.availableSpots (requiredType v.type) ≠ [])
    ∧ ((lot.parkVehicle v).1 = true →
        ∃ pre id lvl post i rest s,
          lot.levels = pre ++ (id, lvl) :: post
          ∧ (∀ e ∈ pre, e.2.availableSpots (requiredType v.type) = [])
          ∧ lvl.availableSpots (requiredType v.type) = i :: rest
          ∧ i ∉ rest
          ∧ lvl.allSpots[i]? = some s
          ∧ s.type = requiredType v.type ∧ s.isOccupied = false ∧ s.vehicle = none
          ∧ (lot.parkVehicle v).2.levels
              = pre ++ (id,
                  { levelId := lvl.levelId
                    availableSpots :=
                      Function.update lvl.availableSpots (requiredType v.type) rest
                    allSpots :=
                      lvl.allSpots.set i { s with isOccupied := true, vehicle := some v } })
                :: post)
    ∧ ((lot.parkVehicle v).1 = false → (lot.parkVehicle v).2 = lot) := by
  exact ⟨parkInLevels_true_iff v lot.levels, lot_park_shape lot v h,
    lot_park_false_unchanged lot v⟩

/-- Witness of C9: a Bus arrives at the freshly built lot of two levels with one Large spot each. -/
theorem lot_parkVehicle_first_success_witness :
    ((demoLot.parkVehicle (Bus "KA-03-9999")).1 = true
        ↔ ∃ e ∈ demoLot.levels, e.2.availableSpots (requiredType (Bus "KA-03-9999").type) ≠ [])
    ∧ ((demoLot.parkVehicle (Bus "KA-03-9999")).1 = true →
        ∃ pre id lvl post i rest s,
          demoLot.levels = pre ++ (id, lvl) :: post
          ∧ (∀ e ∈ pre, e.2.availableSpots (requiredType (Bus "KA-03-9999").type) = [])
          ∧ lvl.availableSpots (requiredType (Bus "KA-03-9999").type) = i :: rest
          ∧ i ∉ rest
          ∧ lvl.allSpots[i]? = some s
          ∧ s.type = requiredType (Bus "KA-03-9999").type ∧ s.isOccupied = false ∧ s.vehicle = none
          ∧ (demoLot.parkVehicle (Bus "KA-03-9999")).2.levels
              = pre ++ (id,
                  { levelId := lvl.levelId
                    availableSpots :=
                      Function.update lvl.availableSpots (requiredType (Bus "KA-03-9999").type) rest
                    allSpots :=
                      lvl.allSpots.set i { s with isOccupied := true, vehicle := some (Bus "KA-03-9999") } })
                :: post)
    ∧ ((demoLot.parkVehicle (Bus "KA-03-9999")).1 = false → (demoLot.parkVehicle (Bus "KA-03-9999")).2 = demoLot) :=
  lot_parkVehicle_first_success demoLot (Bus "KA-03-9999")
    (LotReachable.init ["L1", "L2"] 0 0 1 0 _ (List.Perm.refl _))

end Gpt

namespace Gpt

/-! ## How the operations change the bound plates -/

theorem set_split {α : Type} :
    ∀ (l : List α) (i : ℕ) (a : α), l[i]? = some a →
      ∃ l1 l2, l = l1 ++ a :: l2 ∧ ∀ b, l.set i b = l1 ++ b :: l2
  | [], i, a, h => by simp at h
  | x :: l, 0, a, h => by
      simp only [List.getElem?_cons_zero, Option.some.injEq] at h
      subst h
      exact ⟨[], l, rfl, fun b => rfl⟩
  | x :: l, i + 1, a, h => by
      simp only [List.getElem?_cons_succ] at h
      obtain ⟨l1, l2, h1, h2⟩ := set_split l i a h
      refine ⟨x :: l1, l2, by rw [h1]; rfl, fun b => ?_⟩
      rw [List.set_cons_succ, h2 b]
      rfl

/-- Binding a vehicle to a free spot adds its plate to the bound plates. -/
theorem occupantPlates_set_occupy (spots : List ParkingSpot) (i : ℕ) (s : ParkingSpot)
    (v : Vehicle) (hs : spots[i]? = some s) (hfree : s.isOccupied = false) :
    (occupantPlates (spots.set i { s with isOccupied := true, vehicle := some v })).Perm
      (v.licensePlate :: occupantPlates spots) := by
  obtain ⟨l1, l2, h1, h2⟩ := set_split spots i s hs
  rw [h2, h1]
  simp only [occupantPlates, List.filterMap_append, List.filterMap_cons, hfree, if_true,
    Option.map_some', Bool.false_eq_true, if_false]
  exact List.perm_middle

/-- Releasing a spot removes at most its plate from the bound plates. -/
theorem occupantPlates_set_release (spots : List ParkingSpot) (i : ℕ) (s : ParkingSpot)
    (hs : spots[i]? = some s) :
    (occupantPlates (spots.set i { s with isOccupied := false, vehicle := none })).Sublist
      (occupantPlates spots) := by
  obtain ⟨l1, l2, h1, h2⟩ := set_split spots i s hs
  rw [h2]
  conv => rhs; rw [h1]
  simp only [occupantPlates, List.filterMap_append, List.filterMap_cons, Bool.false_eq_true,
    if_false]
  refine List.Sublist.append (List.Sublist.refl _) ?_
  split
  · exact List.Sublist.refl _
  · exact List.sublist_cons_self _ _

theorem level_remove_plates_sublist (lvl : ParkingLevel) (p : String) :
    (occupantPlates (lvl.removeVehicle p).2.allSpots).Sublist (occupantPlates lvl.allSpots) := by
  cases hf : findHolder p lvl.allSpots 0 with
  | none => rw [removeVehicle_of_none lvl p hf]
  | some found =>
    obtain ⟨i, s⟩ := found
    rw [removeVehicle_of_some lvl p i s hf]
    obtain ⟨k, hk, hs, _, _⟩ := findHolder_some hf
    have hik : i = k := by omega
    subst hik
    exact occupantPlates_set_release lvl.allSpots i s hs

theorem lot_remove_plates_sublist (lot : ParkingLot) (p : String) :
    (lot.removeVehicle p).2.plates.Sublist lot.plates := by
  obtain ⟨levels⟩ := lot
  simp only [ParkingLot.removeVehicle, ParkingLot.plates]
  induction levels with
  | nil => simp [removeInLevels]
  | cons a rest ih =>
    obtain ⟨id, lvl⟩ := a
    by_cases hf : findHolder p lvl.allSpots 0 = none
    · rw [removeInLevels_cons_none p id lvl rest hf]
      simp only [List.flatMap_cons]
      exact List.Sublist.append (List.Sublist.refl _) ih
    · rw [removeInLevels_cons_some p id lvl rest hf]
      simp only [List.flatMap_cons]
      exact List.Sublist.append (level_remove_plates_sublist lvl p) (List.Sublist.refl _)

theorem lot_park_plates_perm (lot : ParkingLot) (v : Vehicle) (h : LotReachable lot)
    (hres : (lot.parkVehicle v).1 = true) :
    (lot.parkVehicle v).2.plates.Perm (v.licensePlate :: lot.plates) := by
  obtain ⟨pre, id, lvl, post, i, rest, s, h1, _, _, _, h5, _, h7, _, h9⟩ :=
    lot_park_shape lot v h hres
  simp only [ParkingLot.plates, h9, h1, List.flatMap_append, List.flatMap_cons]
  refine List.Perm.trans ?_ List.perm_middle
  refine List.Perm.append_left _ ?_
  have := occupantPlates_set_occupy lvl.allSpots i s v h5 h7
  exact (List.Perm.append_right _ this)

theorem reachable_of_fresh {lot : ParkingLot} (h : LotReachableFresh lot) : LotReachable lot := by
  induction h with
  | init levelIds h c l m levels hperm => exact LotReachable.init levelIds h c l m levels hperm
  | park v _ _ ih => exact LotReachable.park v ih
  | remove p _ ih => exact LotReachable.remove p ih

theorem new_level_plates (levelId : String) (h c l m : ℤ) :
    occupantPlates (ParkingLevel.new levelId h c l m).allSpots = [] := by
  simp only [occupantPlates, List.filterMap_eq_nil_iff]
  intro s hs
  simp [(new_allSpots_fresh levelId h c l m hs).1]

/-- C2, as stated, fails: a lot with one level of two Compact spots parks the
plate "KA-01-1234", and a second `parkVehicle` for the same plate, while it is
still parked, returns true and binds a second spot to it. -/
theorem same_plate_parks_twice :
    LotReachable
        (((ParkingLot.new ["L1"] 0 2 0 0).parkVehicle (Car "KA-01-1234")).2.parkVehicle
          (Car "KA-01-1234")).2
    ∧ ((ParkingLot.new ["L1"] 0 2 0 0).parkVehicle (Car "KA-01-1234")).2.plates = ["KA-01-1234"]
    ∧ (((ParkingLot.new ["L1"] 0 2 0 0).parkVehicle (Car "KA-01-1234")).2.parkVehicle
          (Car "KA-01-1234")).1 = true
    ∧ (((ParkingLot.new ["L1"] 0 2 0 0).parkVehicle (Car "KA-01-1234")).2.parkVehicle
          (Car "KA-01-1234")).2.plates = ["KA-01-1234", "KA-01-1234"]
    ∧ ¬ (((ParkingLot.new ["L1"] 0 2 0 0).parkVehicle (Car "KA-01-1234")).2.parkVehicle
          (Car "KA-01-1234")).2.plates.Nodup := by
  refine ⟨?_, by decide, by decide, by decide, by decide⟩
  exact LotReachable.park _ (LotReachable.park _
    (LotReachable.init ["L1"] 0 2 0 0 _ (List.Perm.refl _)))

/-- C2 (amended): in every lot state reachable by `parkVehicle` / `removeVehicle`
calls in which each `parkVehicle` is called with a plate that is bound to no
occupied spot at the time of the call, no plate is bound to more than one
occupied spot across all levels. -/
theorem plates_nodup_of_fresh_parks (lot : ParkingLot) (h : LotReachableFresh lot) :
    lot.plates.Nodup := by
  induction h with
  | init levelIds h c l m levels hperm =>
    have : ParkingLot.plates { levels := levels } = [] := by
      simp only [ParkingLot.plates, List.flatMap_eq_nil_iff]
      intro e he
      rw [new_levels_fresh levelIds h c l m (hperm.subset he)]
      exact new_level_plates _ _ _ _ _
    rw [this]
    exact List.nodup_nil
  | @park lot v hreach hfresh ih =>
    cases hres : (lot.parkVehicle v).1 with
    | false =>
      rw [lot_park_false_unchanged lot v hres]
      exact ih
    | true =>
      have hperm := lot_park_plates_perm lot v (reachable_of_fresh hreach) hres
      exact hperm.nodup_iff.mpr (List.nodup_cons.mpr ⟨hfresh, ih⟩)
  | remove p _ ih =>
    exact ih.sublist (lot_remove_plates_sublist _ p)

/-- Witness of C2 (amended): two Buses with different plates parked one after the other. -/
theorem plates_nodup_of_fresh_parks_witness :
    ((demoLot.parkVehicle (Bus "KA-03-9999")).2.parkVehicle (Bus "KA-04-0001")).2.plates.Nodup :=
  plates_nodup_of_fresh_parks _
    (LotReachableFresh.park _
      (LotReachableFresh.park _
        (LotReachableFresh.init ["L1", "L2"] 0 0 1 0 _ (List.Perm.refl _)) (by decide))
      (by decide))

end Gpt

namespace PLot

/-- The fee printed by `removeVehicle` of Parking_lot.cpp is computed from the two
clock readings taken at departure only. -/
theorem plot_removeVehicle_cost (lot : ParkingLot) (mem : Memory) (vehicle : ℕ)
    (timeArg timeNow : ℤ) (r : Removal)
    (h : lot.removeVehicle mem vehicle timeArg timeNow = some r) (hf : r.found = true) :
    ∃ v, mem.vehicleAt vehicle = some v
      ∧ r.cost = some (v.feeStrategy.rate * (((timeNow - timeArg : ℤ) : ℚ) / 3600)) := by
  unfold ParkingLot.removeVehicle at h
  split at h
  · simp only [Option.some.injEq] at h
    subst h
    simp at hf
  · split at h
    · simp at h
    · rename_i v hv
      simp only [Option.some.injEq] at h
      subst h
      refine ⟨v, hv, ?_⟩
      simp only [FeeStrategy.calculateFee]
      congr 1
      ring

/-- C3 (the code at the failing input): a Car is parked at clock 0, so its ticket
has entry time 0, and removed at clock 7200. The fee that `removeVehicle`
computes is 0, whereas `calculateFee(ticket.entryTime, now)` is 10. -/
theorem plot_departure_fee_ignores_ticket :
    ∃ lot1 mem1 r,
      (ParkingLot.new "1" 0 0 1 0).parkVehicle
          ((Memory.mk [] []).newVehicle "ABC" SpotType.CAR).2 0 42 0 = some (true, lot1, mem1)
      ∧ (mem1.vehicleAt 0).map (fun v => v.ticket.map fun t => (mem1.tickets[t]?).map Ticket.entryTime)
          = some (some (some 0))
      ∧ lot1.removeVehicle mem1 0 7200 7200 = some r
      ∧ r.found = true
      ∧ r.cost = some 0
      ∧ (mem1.vehicleAt 0).map (fun v => v.feeStrategy.calculateFee 0 7200) = some 10 := by
  refine ⟨_, _, _, rfl, ?_, rfl, rfl, ?_, ?_⟩
  · decide
  · simp [FeeStrategy.calculateFee]
  · simp [Memory.vehicleAt, Memory.newVehicle, Memory.setTicket, Vehicle.new, CarFeeStrategy,
      FeeStrategy.calculateFee]
    norm_num

end PLot

/-! ## Fee computation -/

theorem Gpt.hourlyRate_fee_eq (rate : ℚ) (entryTime now : ℤ) :
    (Gpt.HourlyRate.mk rate).calculateFee entryTime now
      = rate * (((now - entryTime : ℤ) : ℚ) / 3600) := by
  simp only [Gpt.HourlyRate.calculateFee]
  ring

/-- Closed form of `FeeStrategy::calculateFee`. -/
theorem PLot.feeStrategy_fee_eq (rate : ℚ) (entryTime now : ℤ) :
    (PLot.FeeStrategy.mk rate).calculateFee entryTime now
      = rate * (((now - entryTime : ℤ) : ℚ) / 3600) := by
  simp only [PLot.FeeStrategy.calculateFee]
  ring

/-- The elapsed time in hours is not negative when the clock is not before the entry time. -/
theorem hours_nonneg {entryTime now : ℤ} (h : entryTime ≤ now) :
    (0 : ℚ) ≤ ((now - entryTime : ℤ) : ℚ) / 3600 := by
  have h1 : (0 : ℚ) ≤ ((now - entryTime : ℤ) : ℚ) := by
    exact_mod_cast sub_nonneg.mpr h
  positivity

/-- C4, as stated, fails: with entry time 3600 and clock 0 a rate of 5 gives
the fee -5 in both programs, while the clamped formula gives 0. -/
theorem calculateFee_not_clamped :
    (Gpt.HourlyRate.mk 5).calculateFee 3600 0 = -5
    ∧ (PLot.FeeStrategy.mk 5).calculateFee 3600 0 = -5
    ∧ (5 : ℚ) * max 0 (((0 - 3600 : ℤ) : ℚ) / 3600) = 0
    ∧ (Gpt.HourlyRate.mk 5).calculateFee 3600 0
        ≠ 5 * max 0 (((0 - 3600 : ℤ) : ℚ) / 3600)
    ∧ (PLot.FeeStrategy.mk 5).calculateFee 3600 0
        ≠ 5 * max 0 (((0 - 3600 : ℤ) : ℚ) / 3600) := by
  simp only [Gpt.HourlyRate.calculateFee, PLot.FeeStrategy.calculateFee]
  norm_num

/-- C4 (amended): for every entry time and clock reading with
`entryTime ≤ now`, both `calculateFee` functions return exactly
`rate * max 0 ((now - entryTime) / 3600)`. -/
theorem calculateFee_clamped_of_le (rate : ℚ) (entryTime now : ℤ) (h : entryTime ≤ now) :
    (Gpt.HourlyRate.mk rate).calculateFee entryTime now
        = rate * max 0 (((now - entryTime : ℤ) : ℚ) / 3600)
    ∧ (PLot.FeeStrategy.mk rate).calculateFee entryTime now
        = rate * max 0 (((now - entryTime : ℤ) : ℚ) / 3600) := by
  rw [max_eq_right (hours_nonneg h)]
  exact ⟨Gpt.hourlyRate_fee_eq rate entryTime now, PLot.feeStrategy_fee_eq rate entryTime now⟩

/-- Witness of C4 (amended): rate 5, entry time 0, clock 7200. -/
theorem calculateFee_clamped_of_le_witness :
    (Gpt.HourlyRate.mk 5).calculateFee 0 7200 = 5 * max 0 (((7200 - 0 : ℤ) : ℚ) / 3600)
    ∧ (PLot.FeeStrategy.mk 5).calculateFee 0 7200 = 5 * max 0 (((7200 - 0 : ℤ) : ℚ) / 3600) :=
  calculateFee_clamped_of_le 5 0 7200 (by decide)

/-- C5: for a rate `≥ 0` and `entryTime ≤ now1 ≤ now2`, in both programs the fee
is non-negative, is monotone in the clock reading, and is zero for zero
elapsed time. -/
theorem calculateFee_nonneg_mono_zero (rate : ℚ) (entryTime now1 now2 : ℤ)
    (hrate : 0 ≤ rate) (h1 : entryTime ≤ now1) (h2 : now1 ≤ now2) :
    (0 ≤ (Gpt.HourlyRate.mk rate).calculateFee entryTime now1
      ∧ (Gpt.HourlyRate.mk rate).calculateFee entryTime now1
          ≤ (Gpt.HourlyRate.mk rate).calculateFee entryTime now2
      ∧ (Gpt.HourlyRate.mk rate).calculateFee entryTime entryTime = 0)
    ∧ (0 ≤ (PLot.FeeStrategy.mk rate).calculateFee entryTime now1
      ∧ (PLot.FeeStrategy.mk rate).calculateFee entryTime now1
          ≤ (PLot.FeeStrategy.mk rate).calculateFee entryTime now2
      ∧ (PLot.FeeStrategy.mk rate).calculateFee entryTime entryTime = 0) := by
  have hmono : ((now1 - entryTime : ℤ) : ℚ) / 3600 ≤ ((now2 - entryTime : ℤ) : ℚ) / 3600 := by
    have : ((now1 - entryTime : ℤ) : ℚ) ≤ ((now2 - entryTime : ℤ) : ℚ) := by
      exact_mod_cast sub_le_sub_right h2 entryTime
    exact div_le_div_of_nonneg_right this (by norm_num)
  have h0 := hours_nonneg h1
  simp only [Gpt.hourlyRate_fee_eq, PLot.feeStrategy_fee_eq, sub_self, Int.cast_zero, zero_div,
    mul_zero, and_true]
  exact ⟨⟨mul_nonneg hrate h0, mul_le_mul_of_nonneg_left hmono hrate⟩,
    ⟨mul_nonneg hrate h0, mul_le_mul_of_nonneg_left hmono hrate⟩⟩

/-- Witness of C5: rate 5, entry time 0, clock readings 1800 and 7200. -/
theorem calculateFee_nonneg_mono_zero_witness :
    (0 ≤ (Gpt.HourlyRate.mk 5).calculateFee 0 1800
      ∧ (Gpt.HourlyRate.mk 5).calculateFee 0 1800 ≤ (Gpt.HourlyRate.mk 5).calculateFee 0 7200
      ∧ (Gpt.HourlyRate.mk 5).calculateFee 0 0 = 0)
    ∧ (0 ≤ (PLot.FeeStrategy.mk 5).calculateFee 0 1800
      ∧ (PLot.FeeStrategy.mk 5).calculateFee 0 1800 ≤ (PLot.FeeStrategy.mk 5).calculateFee 0 7200
      ∧ (PLot.FeeStrategy.mk 5).calculateFee 0 0 = 0) :=
  calculateFee_nonneg_mono_zero 5 0 1800 7200 (by norm_num) (by decide) (by decide)

/-- The rate table of gpt.cpp (`Car`, `Bike`, `Bus` constructors). -/
theorem Gpt.createVehicle_rate (t : Gpt.VehicleType) (plate : String) :
    (Gpt.createVehicle t plate).feeStrategy
      = some ⟨match t with
          | Gpt.VehicleType.CAR => 5
          | Gpt.VehicleType.BIKE => 2
          | Gpt.VehicleType.BUS => 10⟩ := by
  cases t <;> rfl

/-- C6: the strategy attached at creation carries the rate of the class
(gpt.cpp: Car 5, Bike 2, Bus 10; Parking_lot.cpp: Handicap 1, Bike 2.5, Car 5,
Bus 10), the fee for exactly `h` whole hours is `rate * h`, and a Car parked
exactly two hours is charged 10 in both programs. -/
theorem fee_table_whole_hours :
    (∀ (t : Gpt.VehicleType) (plate : String),
      ∃ s, (Gpt.createVehicle t plate).feeStrategy = some s
        ∧ s.rate = (match t with
            | Gpt.VehicleType.CAR => 5
            | Gpt.VehicleType.BIKE => 2
            | Gpt.VehicleType.BUS => 10)
        ∧ ∀ (entryTime : ℤ) (h : ℕ),
            s.calculateFee entryTime (entryTime + 3600 * h) = s.rate * h)
    ∧ (∀ (t : PLot.SpotType) (number : String),
        (PLot.Vehicle.new number t).feeStrategy.rate = (match t with
            | PLot.SpotType.HANDICAP => 1
            | PLot.SpotType.BIKE => 5 / 2
            | PLot.SpotType.CAR => 5
            | PLot.SpotType.BUS => 10)
        ∧ ∀ (entryTime : ℤ) (h : ℕ),
            (PLot.Vehicle.new number t).feeStrategy.calculateFee entryTime (entryTime + 3600 * h)
              = (PLot.Vehicle.new number t).feeStrategy.rate * h)
    ∧ (∀ (plate : String) (entryTime : ℤ),
        (Gpt.createVehicle Gpt.VehicleType.CAR plate).feeStrategy.map
            (fun s => s.calculateFee entryTime (entryTime + 7200)) = some 10)
    ∧ (∀ (number : String) (entryTime : ℤ),
        (PLot.Vehicle.new number PLot.SpotType.CAR).feeStrategy.calculateFee
            entryTime (entryTime + 7200) = 10) := by
  refine ⟨?_, ?_, ?_, ?_⟩
  · intro t plate
    refine ⟨_, Gpt.createVehicle_rate t plate, rfl, ?_⟩
    intro entryTime h
    simp only [Gpt.HourlyRate.calculateFee]
    push_cast
    ring
  · intro t number
    refine ⟨by cases t <;> rfl, ?_⟩
    intro entryTime h
    simp only [PLot.FeeStrategy.calculateFee]
    push_cast
    ring
  · intro plate entryTime
    simp only [Gpt.createVehicle, Gpt.Car, Option.map_some', Gpt.HourlyRate.calculateFee]
    push_cast
    norm_num
  · intro number entryTime
    simp only [PLot.Vehicle.new, PLot.CarFeeStrategy, PLot.FeeStrategy.calculateFee]
    push_cast
    norm_num

namespace Gpt

/-! ## Counting the free spots of one type over the lot -/

theorem length_indicesOfType (t : SpotType) :
    ∀ (spots : List ParkingSpot) (n : ℕ),
      (indicesOfType t spots n).length = spots.countP (fun s => decide (s.type = t))
  | [], n => by simp [indicesOfType]
  | a :: rest, n => by
      unfold indicesOfType
      by_cases ha : a.type = t
      · simp [ha, length_indicesOfType t rest (n + 1)]
      · simp [ha, length_indicesOfType t rest (n + 1)]

theorem countP_createSpots (levelId tag : String) (count : ℤ) (t t' : SpotType) :
    (createSpots levelId tag count t).countP (fun s => decide (s.type = t'))
      = if t = t' then count.toNat else 0 := by
  by_cases h : t = t'
  · rw [if_pos h, List.countP_eq_length.mpr]
    · simp [createSpots]
    · intro s hs
      simp [(createSpots_fresh hs).1, h]
  · rw [if_neg h, List.countP_eq_zero]
    intro s hs
    simp [(createSpots_fresh hs).1, h]

/-- A fresh level queues exactly `large` spots in its Large pool. -/
theorem new_large_pool_length (levelId : String) (h c l m : ℤ) :
    ((ParkingLevel.new levelId h c l m).availableSpots SpotType.LARGE).length = l.toNat := by
  rw [new_availableSpots, length_indicesOfType]
  simp [ParkingLevel.new, List.countP_append, countP_createSpots]

theorem freeOf_new (levelIds : List String) (h c l m : ℤ)
    (levels : List (String × ParkingLevel))
    (hnd : levelIds.Nodup)
    (hperm : levels.Perm (ParkingLot.new levelIds h c l m).levels) :
    ParkingLot.freeOf { levels := levels } SpotType.LARGE = levelIds.length * l.toNat := by
  unfold ParkingLot.freeOf
  rw [(hperm.map _).sum_eq, new_levels_of_nodup levelIds h c l m hnd]
  simp [List.map_map, Function.comp_def, new_large_pool_length]

theorem parkVehicle_pool_length (lvl : ParkingLevel) (v : Vehicle)
    (h : lvl.availableSpots (requiredType v.type) ≠ []) :
    ((lvl.parkVehicle v).2.availableSpots (requiredType v.type)).length + 1
      = (lvl.availableSpots (requiredType v.type)).length := by
  cases hq : lvl.availableSpots (requiredType v.type) with
  | nil => exact absurd hq h
  | cons i rest => simp [parkVehicle_of_front lvl v i rest hq]

/-- `ParkingLot::parkVehicle` succeeds exactly when the lot has a free spot of the
required type, and then uses up one. -/
theorem lot_park_freeOf (lot : ParkingLot) (v : Vehicle) :
    ((lot.parkVehicle v).1 = true ↔ 0 < lot.freeOf (requiredType v.type))
    ∧ ((lot.parkVehicle v).1 = true →
        (lot.parkVehicle v).2.freeOf (requiredType v.type) + 1 = lot.freeOf (requiredType v.type))
    ∧ ((lot.parkVehicle v).1 = false → (lot.parkVehicle v).2 = lot) := by
  obtain ⟨levels⟩ := lot
  simp only [ParkingLot.parkVehicle, ParkingLot.freeOf]
  induction levels with
  | nil => simp [parkInLevels]
  | cons a rest ih =>
    obtain ⟨id, lvl⟩ := a
    by_cases hq : lvl.availableSpots (requiredType v.type) = []
    · rw [parkInLevels_cons_empty v id lvl rest hq]
      obtain ⟨ih1, ih2, ih3⟩ := ih
      simp only [List.map_cons, List.sum_cons, hq, List.length_nil, zero_add]
      refine ⟨ih1, ih2, ?_⟩
      intro hf
      have := ih3 hf
      simp only [ParkingLot.mk.injEq] at this ⊢
      rw [this]
    · rw [parkInLevels_cons_front v id lvl rest hq]
      have hlen := parkVehicle_pool_length lvl v hq
      have hpos : 0 < (lvl.availableSpots (requiredType v.type)).length :=
        List.length_pos.mpr hq
      simp only [List.map_cons, List.sum_cons, true_iff, forall_const, Bool.true_eq_false,
        false_implies, and_true]
      constructor <;> omega

theorem parkAll_reachable {lot : ParkingLot} (h : LotReachable lot) :
    ∀ (vehicles : List Vehicle), LotReachable (parkAll lot vehicles) := by
  intro vehicles
  induction vehicles generalizing lot with
  | nil => exact h
  | cons v vs ih => exact ih (LotReachable.park v h)

/-- Buses parked one after the other: the call number `k` (from 0) succeeds
exactly when `k` is below the number of free Large spots at the start. -/
theorem parkAll_buses :
    ∀ (buses : List Vehicle) (lot : ParkingLot) (k : ℕ) (b : Vehicle),
      (∀ x ∈ buses, x.type = VehicleType.BUS) → buses[k]? = some b →
      (((parkAll lot (buses.take k)).parkVehicle b).1 = true
        ↔ k < lot.freeOf SpotType.LARGE)
  | [], lot, k, b, _, hk => by simp at hk
  | x :: xs, lot, 0, b, hbus, hk => by
      simp only [List.getElem?_cons_zero, Option.some.injEq] at hk
      subst hk
      have hreq : requiredType x.type = SpotType.LARGE := by
        rw [hbus x (List.mem_cons_self _ _)]; rfl
      have := (lot_park_freeOf lot x).1
      rw [hreq] at this
      simpa [parkAll] using this
  | x :: xs, lot, k + 1, b, hbus, hk => by
      simp only [List.getElem?_cons_succ] at hk
      have hreq : requiredType x.type = SpotType.LARGE := by
        rw [hbus x (List.mem_cons_self _ _)]; rfl
      have ih := parkAll_buses xs (lot.parkVehicle x).2 k b
        (fun y hy => hbus y (List.mem_cons_of_mem _ hy)) hk
      have hstep := lot_park_freeOf lot x
      rw [hreq] at hstep
      have hfold : parkAll lot ((x :: xs).take (k + 1))
          = parkAll (lot.parkVehicle x).2 (xs.take k) := by
        simp [parkAll]
      rw [hfold, ih]
      cases hres : (lot.parkVehicle x).1 with
      | true =>
        have h1 := hstep.2.1 hres
        omega
      | false =>
        have h1 := hstep.2.2 hres
        have h2 : ¬ 0 < lot.freeOf SpotType.LARGE := by
          rw [← hstep.1, hres]; simp
        rw [h1]
        omega

/-- C10: a lot is built from `n` pairwise distinct level ids with `L ≥ 0` Large
spots per level (the map iterating in any order) and Buses are parked one after
the other with no removal. The call number `k` (counted from 0) returns true
and occupies a Large spot that was free before when `k < n * L`, and returns
false when `k ≥ n * L`. The plates of the Buses play no role. -/
theorem buses_fill_large_spots (levelIds : List String) (h c L m : ℤ)
    (levels : List (String × ParkingLevel)) (buses : List Vehicle) (k : ℕ) (b : Vehicle)
    (hids : levelIds.Nodup) (hL : 0 ≤ L)
    (hperm : levels.Perm (ParkingLot.new levelIds h c L m).levels)
    (hbus : ∀ x ∈ buses, x.type = VehicleType.BUS) (hk : buses[k]? = some b) :
    ((k : ℤ) < levelIds.length * L →
        ((parkAll { levels := levels } (buses.take k)).parkVehicle b).1 = true
        ∧ ∃ pre id lvl post i s,
            (parkAll { levels := levels } (buses.take k)).levels = pre ++ (id, lvl) :: post
            ∧ lvl.allSpots[i]? = some s
            ∧ s.type = SpotType.LARGE ∧ s.isOccupied = false
            ∧ ∃ pool, ((parkAll { levels := levels } (buses.take k)).parkVehicle b).2.levels
                = pre ++ (id,
                    { levelId := lvl.levelId
                      availableSpots := pool
                      allSpots :=
                        lvl.allSpots.set i { s with isOccupied := true, vehicle := some b } })
                  :: post)
    ∧ ((levelIds.length : ℤ) * L ≤ k →
        ((parkAll { levels := levels } (buses.take k)).parkVehicle b).1 = false) := by
  have hreach : LotReachable { levels := levels } := LotReachable.init levelIds h c L m levels hperm
  have hcount := parkAll_buses buses { levels := levels } k b hbus hk
  rw [freeOf_new levelIds h c L m levels hids hperm] at hcount
  have hcast : ((levelIds.length * L.toNat : ℕ) : ℤ) = levelIds.length * L := by
    rw [Nat.cast_mul, Int.toNat_of_nonneg hL]
  have hreq : requiredType b.type = SpotType.LARGE := by
    rw [hbus b (List.getElem?_mem hk)]; rfl
  constructor
  · intro hlt
    have hres : ((parkAll { levels := levels } (buses.take k)).parkVehicle b).1 = true := by
      rw [hcount]
      rw [← hcast] at hlt
      exact_mod_cast hlt
    refine ⟨hres, ?_⟩
    obtain ⟨pre, id, lvl, post, i, rest, s, h1, _, _, _, h5, h6, h7, _, h9⟩ :=
      lot_park_shape _ b (parkAll_reachable hreach (buses.take k)) hres
    exact ⟨pre, id, lvl, post, i, s, h1, h5, h6.trans hreq, h7, _, h9⟩
  · intro hge
    cases hres : ((parkAll { levels := levels } (buses.take k)).parkVehicle b).1 with
    | false => rfl
    | true =>
      rw [hcount] at hres
      rw [← hcast] at hge
      have : levelIds.length * L.toNat ≤ k := by exact_mod_cast hge
      omega

/-- Witness of C10 (n = 2, L = 1): the first and the second Bus are parked, the third is refused. -/
theorem buses_fill_large_spots_witness :
    ((parkAll { levels := demoLot.levels }
        ([Bus "KA-03-9999", Bus "KA-04-0001", Bus "KA-05-0002"].take 0)).parkVehicle
          (Bus "KA-03-9999")).1 = true
    ∧ ((parkAll { levels := demoLot.levels }
        ([Bus "KA-03-9999", Bus "KA-04-0001", Bus "KA-05-0002"].take 1)).parkVehicle
          (Bus "KA-04-0001")).1 = true
    ∧ ((parkAll { levels := demoLot.levels }
        ([Bus "KA-03-9999", Bus "KA-04-0001", Bus "KA-05-0002"].take 2)).parkVehicle
          (Bus "KA-05-0002")).1 = false :=
  ⟨((buses_fill_large_spots ["L1", "L2"] 0 0 1 0 demoLot.levels
        [Bus "KA-03-9999", Bus "KA-04-0001", Bus "KA-05-0002"] 0 (Bus "KA-03-9999")
        (by decide) (by decide) (List.Perm.refl _) (by decide) rfl).1 (by decide)).1,
   ((buses_fill_large_spots ["L1", "L2"] 0 0 1 0 demoLot.levels
        [Bus "KA-03-9999", Bus "KA-04-0001", Bus "KA-05-0002"] 1 (Bus "KA-04-0001")
        (by decide) (by decide) (List.Perm.refl _) (by decide) rfl).1 (by decide)).1,
   (buses_fill_large_spots ["L1", "L2"] 0 0 1 0 demoLot.levels
        [Bus "KA-03-9999", Bus "KA-04-0001", Bus "KA-05-0002"] 2 (Bus "KA-05-0002")
        (by decide) (by decide) (List.Perm.refl _) (by decide) rfl).2 (by decide)⟩

end Gpt

namespace Gpt

/-! ## Single calls on a level -/

theorem holds_iff (s : ParkingSpot) (p : String) :
    s.holds p = true
      ↔ s.isOccupied = true ∧ ∃ v, s.vehicle = some v ∧ v.licensePlate = p := by
  unfold ParkingSpot.holds
  cases hocc : s.isOccupied <;> cases hv : s.vehicle <;> simp

/-- The scan of `removeVehicle` stops at the first spot that holds the plate. -/
theorem findHolder_of_first {p : String} :
    ∀ {spots : List ParkingSpot} {n k : ℕ} {a : ParkingSpot},
      spots[k]? = some a → a.holds p = true →
      (∀ k' s', k' < k → spots[k']? = some s' → s'.holds p = false) →
      findHolder p spots n = some (n + k, a)
  | [], n, k, a, h, _, _ => by simp at h
  | x :: rest, n, 0, a, h, ha, _ => by
      simp only [List.getElem?_cons_zero, Option.some.injEq] at h
      subst h
      simp [findHolder, ha]
  | x :: rest, n, k + 1, a, h, ha, hfirst => by
      simp only [List.getElem?_cons_succ] at h
      have hx : x.holds p = false := hfirst 0 x (Nat.succ_pos k) (by simp)
      have ih := @findHolder_of_first p rest (n + 1) k a h ha
        (fun k' s' hk hs => hfirst (k' + 1) s' (by omega) (by simpa using hs))
      unfold findHolder
      rw [hx]
      simp only [Bool.false_eq_true, if_false, ih]
      congr 2
      omega

/-- The spot that a successful `ParkingLevel::parkVehicle` binds, in a level
that satisfies the invariant. -/
theorem level_park_shape (lvl : ParkingLevel) (v : Vehicle) (inv : LevelInv lvl)
    (hres : (lvl.parkVehicle v).1 = true) :
    ∃ i rest s, lvl.availableSpots (requiredType v.type) = i :: rest
      ∧ i ∉ rest
      ∧ lvl.allSpots[i]? = some s
      ∧ s.type = requiredType v.type ∧ s.isOccupied = false ∧ s.vehicle = none
      ∧ lvl.parkVehicle v
          = (true,
              { levelId := lvl.levelId
                availableSpots := Function.update lvl.availableSpots (requiredType v.type) rest
                allSpots := lvl.allSpots.set i { s with isOccupied := true, vehicle := some v } }) := by
  cases hq : lvl.availableSpots (requiredType v.type) with
  | nil =>
    rw [parkVehicle_of_empty lvl v hq] at hres
    exact Bool.noConfusion hres
  | cons i rest =>
    obtain ⟨s, hs, hty, hfree⟩ := inv.pool_valid _ i (by rw [hq]; exact List.mem_cons_self _ _)
    have hnd := inv.pool_nodup (requiredType v.type)
    rw [hq, List.nodup_cons] at hnd
    have hveh : s.vehicle = none := by
      have := inv.occupied_bound i s hs
      rw [hfree] at this
      by_contra hne
      exact Bool.noConfusion (this.mpr hne)
    refine ⟨i, rest, s, rfl, hnd.1, hs, hty, hfree, hveh, ?_⟩
    rw [parkVehicle_of_front lvl v i rest hq, occupy_of_getElem? v hs]

/-- C13: the required spot type is a function of the vehicle class (Bike to
Motorcycle, Car to Compact, Bus to Large), and in every reachable level state
the spot that a successful `ParkingLevel::parkVehicle` binds to the vehicle was
free and has exactly the required type. -/
theorem park_binds_required_type (lvl : ParkingLevel) (v : Vehicle) (h : LevelReachable lvl)
    (hres : (lvl.parkVehicle v).1 = true) :
    (requiredType VehicleType.BIKE = SpotType.MOTORCYCLE
      ∧ requiredType VehicleType.CAR = SpotType.COMPACT
      ∧ requiredType VehicleType.BUS = SpotType.LARGE)
    ∧ ∃ i s, lvl.allSpots[i]? = some s
        ∧ s.isOccupied = false
        ∧ s.type = requiredType v.type
        ∧ (lvl.parkVehicle v).2.allSpots
            = lvl.allSpots.set i { s with isOccupied := true, vehicle := some v } := by
  refine ⟨⟨rfl, rfl, rfl⟩, ?_⟩
  obtain ⟨i, rest, s, _, _, hs, hty, hfree, _, heq⟩ :=
    level_park_shape lvl v (levelInv_of_reachable h) hres
  exact ⟨i, s, hs, hfree, hty, by rw [heq]⟩

/-- Witness of C13: a Car arrives at the fresh level "L1" with 1, 2, 1, 1 spots. -/
theorem park_binds_required_type_witness :
    (requiredType VehicleType.BIKE = SpotType.MOTORCYCLE
      ∧ requiredType VehicleType.CAR = SpotType.COMPACT
      ∧ requiredType VehicleType.BUS = SpotType.LARGE)
    ∧ ∃ i s, (ParkingLevel.new "L1" 1 2 1 1).allSpots[i]? = some s
        ∧ s.isOccupied = false
        ∧ s.type = requiredType (Car "KA-01-1234").type
        ∧ ((ParkingLevel.new "L1" 1 2 1 1).parkVehicle (Car "KA-01-1234")).2.allSpots
            = (ParkingLevel.new "L1" 1 2 1 1).allSpots.set i
                { s with isOccupied := true, vehicle := some (Car "KA-01-1234") } :=
  park_binds_required_type (ParkingLevel.new "L1" 1 2 1 1) (Car "KA-01-1234")
    (LevelReachable.init "L1" 1 2 1 1) (by decide)

/-- C17: when an occupied spot of the level holds a vehicle with the plate,
`ParkingLevel::removeVehicle` returns true; the first such spot in `allSpots`
order becomes unoccupied with no occupant and is appended to the back of the
pool of its own type; the level id, every other spot and every other pool are
unchanged. -/
theorem level_removeVehicle_first_holder (lvl : ParkingLevel) (p : String)
    (h : p ∈ occupantPlates lvl.allSpots) :
    ∃ i s, lvl.allSpots[i]? = some s
      ∧ s.isOccupied = true
      ∧ (∃ v, s.vehicle = some v ∧ v.licensePlate = p)
      ∧ (∀ k s', k < i → lvl.allSpots[k]? = some s' → s'.holds p = false)
      ∧ lvl.removeVehicle p
          = (true,
              { levelId := lvl.levelId
                availableSpots :=
                  Function.update lvl.availableSpots s.type (lvl.availableSpots s.type ++ [i])
                allSpots := lvl.allSpots.set i { s with isOccupied := false, vehicle := none } })
      ∧ (∀ j, j ≠ i → (lvl.removeVehicle p).2.allSpots[j]? = lvl.allSpots[j]?)
      ∧ (∀ t, t ≠ s.type → (lvl.removeVehicle p).2.availableSpots t = lvl.availableSpots t)
      ∧ (lvl.removeVehicle p).2.availableSpots s.type = lvl.availableSpots s.type ++ [i] := by
  have hne : findHolder p lvl.allSpots 0 ≠ none := by
    intro hnone
    exact (not_mem_occupantPlates.mpr (findHolder_eq_none.mp hnone)) h
  cases hf : findHolder p lvl.allSpots 0 with
  | none => exact absurd hf hne
  | some found =>
    obtain ⟨i, s⟩ := found
    obtain ⟨k, hk, hs, hholds, hfirst⟩ := findHolder_some hf
    have hik : i = k := by omega
    subst hik
    have heq := removeVehicle_of_some lvl p i s hf
    obtain ⟨hocc, hv⟩ := (holds_iff s p).mp hholds
    refine ⟨i, s, hs, hocc, hv, hfirst, heq, ?_, ?_, ?_⟩
    · intro j hj
      rw [heq]
      exact List.getElem?_set_ne (Ne.symm hj)
    · intro t ht
      rw [heq]
      exact Function.update_noteq ht _ _
    · rw [heq]
      exact Function.update_same _ _ _

/-- Witness of C17: the Car parked on the level "L1" leaves. -/
theorem level_removeVehicle_first_holder_witness :
    ∃ i s, ((ParkingLevel.new "L1" 1 2 1 1).parkVehicle (Car "KA-01-1234")).2.allSpots[i]? = some s
      ∧ s.isOccupied = true
      ∧ (∃ v, s.vehicle = some v ∧ v.licensePlate = "KA-01-1234")
      ∧ (((ParkingLevel.new "L1" 1 2 1 1).parkVehicle (Car "KA-01-1234")).2.removeVehicle
            "KA-01-1234").1 = true
      ∧ (((ParkingLevel.new "L1" 1 2 1 1).parkVehicle (Car "KA-01-1234")).2.removeVehicle
            "KA-01-1234").2.allSpots
          = ((ParkingLevel.new "L1" 1 2 1 1).parkVehicle (Car "KA-01-1234")).2.allSpots.set i
              { s with isOccupied := false, vehicle := none }
      ∧ (((ParkingLevel.new "L1" 1 2 1 1).parkVehicle (Car "KA-01-1234")).2.removeVehicle
            "KA-01-1234").2.availableSpots s.type
          = ((ParkingLevel.new "L1" 1 2 1 1).parkVehicle (Car "KA-01-1234")).2.availableSpots s.type
              ++ [i] := by
  obtain ⟨i, s, h1, h2, h3, _, h5, _, _, h8⟩ :=
    level_removeVehicle_first_holder
      ((ParkingLevel.new "L1" 1 2 1 1).parkVehicle (Car "KA-01-1234")).2 "KA-01-1234" (by decide)
  exact ⟨i, s, h1, h2, h3, by rw [h5], by rw [h5], h8⟩

/-- C11, as stated, fails: on a level with two Compact spots the plate
"KA-01-1234" is parked twice, so the Compact pool is empty and a Car with that
plate occupies spot 1. `removeVehicle` of the plate frees spot 0, and the next
Car is assigned spot 0; spot 1 stays bound to the first plate. -/
theorem freed_spot_is_first_holder_not_s :
    (((ParkingLevel.new "L1" 0 2 0 0).parkVehicle (Car "KA-01-1234")).2.parkVehicle
        (Car "KA-01-1234")).2.availableSpots SpotType.COMPACT = []
    ∧ ((((ParkingLevel.new "L1" 0 2 0 0).parkVehicle (Car "KA-01-1234")).2.parkVehicle
        (Car "KA-01-1234")).2.allSpots.map
          fun s => (s.type, s.isOccupied, s.vehicle.map fun v => v.licensePlate))
        = [(SpotType.COMPACT, true, some "KA-01-1234"), (SpotType.COMPACT, true, some "KA-01-1234")]
    ∧ ((((ParkingLevel.new "L1" 0 2 0 0).parkVehicle (Car "KA-01-1234")).2.parkVehicle
        (Car "KA-01-1234")).2.parkVehicle (Car "KA-02-0002")).1 = false
    ∧ ((((ParkingLevel.new "L1" 0 2 0 0).parkVehicle (Car "KA-01-1234")).2.parkVehicle
        (Car "KA-01-1234")).2.removeVehicle "KA-01-1234").1 = true
    ∧ (((((ParkingLevel.new "L1" 0 2 0 0).parkVehicle (Car "KA-01-1234")).2.parkVehicle
        (Car "KA-01-1234")).2.removeVehicle "KA-01-1234").2.parkVehicle (Car "KA-02-0002")).1 = true
    ∧ ((((((ParkingLevel.new "L1" 0 2 0 0).parkVehicle (Car "KA-01-1234")).2.parkVehicle
        (Car "KA-01-1234")).2.removeVehicle "KA-01-1234").2.parkVehicle
          (Car "KA-02-0002")).2.allSpots.map
            fun s => (s.isOccupied, s.vehicle.map fun v => v.licensePlate))
        = [(true, some "KA-02-0002"), (true, some "KA-01-1234")] := by
  decide

/-- C11 (amended): in a level state in which the Compact pool is empty and a Car
`c1` occupies the Compact spot `s`, and no spot before `s` in `allSpots` order
holds the plate of `c1`: `parkVehicle` of a second Car fails and leaves the
level as it is; `removeVehicle` of the plate of `c1` then returns true; and the
next `parkVehicle` of a Car returns true and binds exactly the spot `s`. -/
theorem compact_spot_reused_after_release (lvl : ParkingLevel) (s : ℕ) (spot : ParkingSpot)
    (c1 c2 c3 : Vehicle)
    (hpool : lvl.availableSpots SpotType.COMPACT = [])
    (hs : lvl.allSpots[s]? = some spot) (hty : spot.type = SpotType.COMPACT)
    (hocc : spot.isOccupied = true) (hveh : spot.vehicle = some c1)
    (_h1 : c1.type = VehicleType.CAR) (h2 : c2.type = VehicleType.CAR)
    (h3 : c3.type = VehicleType.CAR)
    (hfirst : ∀ k s', k < s → lvl.allSpots[k]? = some s' → s'.holds c1.licensePlate = false) :
    lvl.parkVehicle c2 = (false, lvl)
    ∧ (lvl.parkVehicle c2).2.allSpots[s]? = some spot
    ∧ ((lvl.parkVehicle c2).2.removeVehicle c1.licensePlate).1 = true
    ∧ (((lvl.parkVehicle c2).2.removeVehicle c1.licensePlate).2.parkVehicle c3).1 = true
    ∧ (((lvl.parkVehicle c2).2.removeVehicle c1.licensePlate).2.parkVehicle c3).2.allSpots
        = lvl.allSpots.set s { spot with isOccupied := true, vehicle := some c3 }
    ∧ (((lvl.parkVehicle c2).2.removeVehicle c1.licensePlate).2.parkVehicle c3).2.availableSpots
        SpotType.COMPACT = [] := by
  have hreq : ∀ c : Vehicle, c.type = VehicleType.CAR → requiredType c.type = SpotType.COMPACT :=
    fun c hc => by rw [hc]; rfl
  have hfail : lvl.parkVehicle c2 = (false, lvl) :=
    parkVehicle_of_empty lvl c2 (by rw [hreq c2 h2]; exact hpool)
  have hholds : spot.holds c1.licensePlate = true :=
    (holds_iff spot _).mpr ⟨hocc, c1, hveh, rfl⟩
  have hf : findHolder c1.licensePlate lvl.allSpots 0 = some (s, spot) := by
    have := @findHolder_of_first c1.licensePlate lvl.allSpots 0 s spot hs hholds hfirst
    simpa using this
  have hrem := removeVehicle_of_some lvl c1.licensePlate s spot hf
  have hlt := (List.getElem?_eq_some.mp hs).1
  rw [hfail]
  refine ⟨rfl, hs, by rw [hrem], ?_⟩
  rw [hrem]
  have hq : (Function.update lvl.availableSpots spot.type (lvl.availableSpots spot.type ++ [s]))
      (requiredType c3.type) = s :: [] := by
    rw [hreq c3 h3, hty, Function.update_same, hpool]
    rfl
  rw [parkVehicle_of_front _ c3 s [] hq]
  have hget : (lvl.allSpots.set s { spot with isOccupied := false, vehicle := none })[s]?
      = some { spot with isOccupied := false, vehicle := none } :=
    List.getElem?_set_self hlt
  refine ⟨rfl, ?_, ?_⟩
  · simp only [occupy_of_getElem? c3 hget, List.set_set]
  · dsimp only
    rw [hreq c3 h3, Function.update_same]

/-- Witness of C11 (amended): the level with one Compact spot of the scenario. -/
theorem compact_spot_reused_after_release_witness :
    ((ParkingLevel.new "L1" 0 1 0 0).parkVehicle (Car "KA-01-1234")).2.parkVehicle
        (Car "KA-02-0002")
      = (false, ((ParkingLevel.new "L1" 0 1 0 0).parkVehicle (Car "KA-01-1234")).2)
    ∧ ((((ParkingLevel.new "L1" 0 1 0 0).parkVehicle (Car "KA-01-1234")).2.parkVehicle
          (Car "KA-02-0002")).2.removeVehicle "KA-01-1234").1 = true
    ∧ (((((ParkingLevel.new "L1" 0 1 0 0).parkVehicle (Car "KA-01-1234")).2.parkVehicle
          (Car "KA-02-0002")).2.removeVehicle "KA-01-1234").2.parkVehicle
            (Car "KA-02-0002")).1 = true
    ∧ (((((ParkingLevel.new "L1" 0 1 0 0).parkVehicle (Car "KA-01-1234")).2.parkVehicle
          (Car "KA-02-0002")).2.removeVehicle "KA-01-1234").2.parkVehicle
            (Car "KA-02-0002")).2.allSpots
        = ((ParkingLevel.new "L1" 0 1 0 0).parkVehicle (Car "KA-01-1234")).2.allSpots.set 0
            { spotId := "L1-C1", type := SpotType.COMPACT, isOccupied := true,
              vehicle := some (Car "KA-02-0002") } :=
  have key := compact_spot_reused_after_release
    ((ParkingLevel.new "L1" 0 1 0 0).parkVehicle (Car "KA-01-1234")).2 0
    { spotId := "L1-C1", type := SpotType.COMPACT, isOccupied := true,
      vehicle := some (Car "KA-01-1234") }
    (Car "KA-01-1234") (Car "KA-02-0002") (Car "KA-02-0002")
    (by decide) (by decide) rfl rfl rfl rfl rfl rfl
    (fun k s' hk => absurd hk (Nat.not_lt_zero k))
  ⟨key.1, key.2.2.1, key.2.2.2.1, key.2.2.2.2.1⟩

end Gpt

namespace Gpt

/-! ## A freshly constructed level, spot by spot -/

theorem indicesOfType_append (t : SpotType) :
    ∀ (l1 l2 : List ParkingSpot) (n : ℕ),
      indicesOfType t (l1 ++ l2) n = indicesOfType t l1 n ++ indicesOfType t l2 (n + l1.length)
  | [], l2, n => by simp [indicesOfType]
  | a :: l1, l2, n => by
      have ih := indicesOfType_append t l1 l2 (n + 1)
      have hlen : n + (a :: l1).length = n + 1 + l1.length := by
        rw [List.length_cons]; omega
      rw [hlen, List.cons_append, indicesOfType, indicesOfType, ih]
      by_cases ha : a.type = t
      · rw [if_pos ha, if_pos ha, List.cons_append]
      · rw [if_neg ha, if_neg ha]

theorem indicesOfType_of_same (t : SpotType) :
    ∀ (l : List ParkingSpot) (n : ℕ), (∀ s ∈ l, s.type = t) →
      indicesOfType t l n = List.range' n l.length
  | [], n, _ => by simp [indicesOfType]
  | a :: l, n, h => by
      have ha : a.type = t := h a (List.mem_cons_self _ _)
      have ih := indicesOfType_of_same t l (n + 1) (fun s hs => h s (List.mem_cons_of_mem _ hs))
      simp [indicesOfType, ha, ih, List.range'_succ]

theorem indicesOfType_of_other (t : SpotType) :
    ∀ (l : List ParkingSpot) (n : ℕ), (∀ s ∈ l, s.type ≠ t) → indicesOfType t l n = []
  | [], n, _ => by simp [indicesOfType]
  | a :: l, n, h => by
      have ha : a.type ≠ t := h a (List.mem_cons_self _ _)
      have ih := indicesOfType_of_other t l (n + 1) (fun s hs => h s (List.mem_cons_of_mem _ hs))
      simp [indicesOfType, ha, ih]

theorem createSpots_length (levelId tag : String) (count : ℤ) (t : SpotType) :
    (createSpots levelId tag count t).length = count.toNat := by
  simp [createSpots]

theorem createSpots_getElem? (levelId tag : String) (count : ℤ) (t : SpotType) (j : ℕ)
    (hj : j < count.toNat) :
    (createSpots levelId tag count t)[j]?
      = some (ParkingSpot.new (levelId ++ tag ++ toString (j + 1)) t) := by
  simp [createSpots, List.getElem?_map, List.getElem?_range hj]

theorem indicesOfType_createSpots (levelId tag : String) (count : ℤ) (t t' : SpotType) (n : ℕ) :
    indicesOfType t (createSpots levelId tag count t') n
      = if t' = t then List.range' n count.toNat else [] := by
  by_cases h : t' = t
  · rw [if_pos h, indicesOfType_of_same t _ n (fun s hs => (createSpots_fresh hs).1.trans h),
      createSpots_length]
  · rw [if_neg h, indicesOfType_of_other t _ n (fun s hs => by rw [(createSpots_fresh hs).1]; exact h)]

/-- The pools of a constructed level: the spots of each type in creation order. -/
theorem new_pool (levelId : String) (h c l m : ℤ) (t : SpotType) :
    (ParkingLevel.new levelId h c l m).availableSpots t
      = List.range' (typeOffset h c l t) (typeCount h c l m t) := by
  rw [new_availableSpots]
  simp only [ParkingLevel.new, indicesOfType_append, indicesOfType_createSpots,
    List.length_append, createSpots_length]
  cases t <;> simp [typeOffset, typeCount]

theorem new_allSpots_length (levelId : String) (h c l m : ℤ) :
    (ParkingLevel.new levelId h c l m).allSpots.length
      = h.toNat + c.toNat + l.toNat + m.toNat := by
  simp only [ParkingLevel.new, List.length_append, createSpots_length]

theorem getElem?_append4 {α : Type} (A B C D : List α) (j : ℕ) :
    (j < A.length → (A ++ B ++ C ++ D)[j]? = A[j]?)
    ∧ (j < B.length → (A ++ B ++ C ++ D)[A.length + j]? = B[j]?)
    ∧ (j < C.length → (A ++ B ++ C ++ D)[A.length + B.length + j]? = C[j]?)
    ∧ (j < D.length → (A ++ B ++ C ++ D)[A.length + B.length + C.length + j]? = D[j]?) := by
  refine ⟨fun hj => ?_, fun hj => ?_, fun hj => ?_, fun hj => ?_⟩
  · rw [List.append_assoc, List.append_assoc, List.getElem?_append_left hj]
  · rw [List.append_assoc, List.append_assoc, List.getElem?_append_right (by omega),
      List.getElem?_append_left (by omega)]
    congr 1
    omega
  · rw [List.getElem?_append_left (by rw [List.length_append, List.length_append]; omega),
      List.getElem?_append_right (by rw [List.length_append]; omega)]
    congr 1
    rw [List.length_append]
    omega
  · rw [List.getElem?_append_right (by rw [List.length_append, List.length_append]; omega)]
    congr 1
    rw [List.length_append, List.length_append]
    omega

/-- The spots of a constructed level: number `j + 1` of type `t` sits at index
`typeOffset t + j`, is free, and carries the id `levelId + tag + (j + 1)`. -/
theorem new_spot (levelId : String) (h c l m : ℤ) (t : SpotType) (j : ℕ)
    (hj : j < typeCount h c l m t) :
    (ParkingLevel.new levelId h c l m).allSpots[typeOffset h c l t + j]?
      = some (ParkingSpot.new (levelId ++ spotTag t ++ toString (j + 1)) t) := by
  have key := getElem?_append4 (createSpots levelId "-H" h SpotType.HANDICAP)
    (createSpots levelId "-C" c SpotType.COMPACT) (createSpots levelId "-L" l SpotType.LARGE)
    (createSpots levelId "-M" m SpotType.MOTORCYCLE) j
  simp only [createSpots_length] at key
  cases t <;> simp only [typeCount] at hj <;> simp only [ParkingLevel.new, typeOffset, spotTag]
  · rw [Nat.zero_add, key.1 hj]
    exact createSpots_getElem? _ _ _ _ j hj
  · rw [key.2.1 hj]
    exact createSpots_getElem? _ _ _ _ j hj
  · rw [key.2.2.1 hj]
    exact createSpots_getElem? _ _ _ _ j hj
  · rw [key.2.2.2 hj]
    exact createSpots_getElem? _ _ _ _ j hj

/-- Every index of a constructed level is the index of a numbered spot of some type. -/
theorem new_index_cases (h c l m : ℤ) (i : ℕ) (hi : i < h.toNat + c.toNat + l.toNat + m.toNat) :
    ∃ t j, j < typeCount h c l m t ∧ i = typeOffset h c l t + j := by
  by_cases h1 : i < h.toNat
  · exact ⟨SpotType.HANDICAP, i, h1, by simp [typeOffset]⟩
  · by_cases h2 : i < h.toNat + c.toNat
    · exact ⟨SpotType.COMPACT, i - h.toNat, by simp only [typeCount]; omega,
        by simp only [typeOffset]; omega⟩
    · by_cases h3 : i < h.toNat + c.toNat + l.toNat
      · exact ⟨SpotType.LARGE, i - (h.toNat + c.toNat), by simp only [typeCount]; omega,
          by simp only [typeOffset]; omega⟩
      · exact ⟨SpotType.MOTORCYCLE, i - (h.toNat + c.toNat + l.toNat),
          by simp only [typeCount]; omega, by simp only [typeOffset]; omega⟩

end Gpt

namespace Gpt

/-! ## What a call can change in a spot -/

theorem park_cases (lvl : ParkingLevel) (v : Vehicle) :
    lvl.parkVehicle v = (false, lvl)
    ∨ ∃ i rest, lvl.availableSpots (requiredType v.type) = i :: rest
        ∧ lvl.parkVehicle v
            = (true,
                { levelId := lvl.levelId
                  availableSpots := Function.update lvl.availableSpots (requiredType v.type) rest
                  allSpots := occupy lvl.allSpots i v }) := by
  cases hq : lvl.availableSpots (requiredType v.type) with
  | nil => exact Or.inl (parkVehicle_of_empty lvl v hq)
  | cons i rest => exact Or.inr ⟨i, rest, rfl, parkVehicle_of_front lvl v i rest hq⟩

theorem remove_cases (lvl : ParkingLevel) (p : String) :
    lvl.removeVehicle p = (false, lvl)
    ∨ ∃ i s, lvl.allSpots[i]? = some s ∧ s.holds p = true
        ∧ lvl.removeVehicle p
            = (true,
                { levelId := lvl.levelId
                  availableSpots :=
                    Function.update lvl.availableSpots s.type (lvl.availableSpots s.type ++ [i])
                  allSpots := lvl.allSpots.set i { s with isOccupied := false, vehicle := none } }) := by
  cases hf : findHolder p lvl.allSpots 0 with
  | none => exact Or.inl (removeVehicle_of_none lvl p hf)
  | some found =>
    obtain ⟨i, s⟩ := found
    obtain ⟨k, hk, hs, hholds, _⟩ := findHolder_some hf
    have hik : i = k := by omega
    subst hik
    exact Or.inr ⟨i, s, hs, hholds, removeVehicle_of_some lvl p i s hf⟩

/-- Writing a spot with the same id and type at an index changes no id and no type. -/
theorem set_frame (spots : List ParkingSpot) (i : ℕ) (s b : ParkingSpot)
    (hs : spots[i]? = some s) (hid : b.spotId = s.spotId) (hty : b.type = s.type) (j : ℕ) :
    ((spots.set i b)[j]?).map (fun x => (x.spotId, x.type))
      = (spots[j]?).map (fun x => (x.spotId, x.type)) := by
  by_cases hji : i = j
  · subst hji
    rw [List.getElem?_set_self (List.getElem?_eq_some.mp hs).1, hs]
    simp [hid, hty]
  · rw [List.getElem?_set_ne hji]

theorem park_frame (lvl : ParkingLevel) (v : Vehicle) (j : ℕ) :
    ((lvl.parkVehicle v).2.allSpots[j]?).map (fun x => (x.spotId, x.type))
      = (lvl.allSpots[j]?).map (fun x => (x.spotId, x.type)) := by
  rcases park_cases lvl v with h | ⟨i, rest, _, h⟩
  · rw [h]
  · rw [h]
    simp only [occupy]
    split
    · rename_i s hs
      exact set_frame lvl.allSpots i s { s with isOccupied := true, vehicle := some v } hs rfl rfl j
    · rfl

theorem remove_frame (lvl : ParkingLevel) (p : String) (j : ℕ) :
    ((lvl.removeVehicle p).2.allSpots[j]?).map (fun x => (x.spotId, x.type))
      = (lvl.allSpots[j]?).map (fun x => (x.spotId, x.type)) := by
  rcases remove_cases lvl p with h | ⟨i, s, hs, _, h⟩
  · rw [h]
  · rw [h]
    exact set_frame lvl.allSpots i s { s with isOccupied := false, vehicle := none } hs rfl rfl j

theorem step_frame (lvl : ParkingLevel) (op : Op) (j : ℕ) :
    ((lvl.step op).allSpots[j]?).map (fun x => (x.spotId, x.type))
      = (lvl.allSpots[j]?).map (fun x => (x.spotId, x.type)) := by
  cases op with
  | park v => exact park_frame lvl v j
  | remove p => exact remove_frame lvl p j

/-- No sequence of calls changes the id or the type of a spot, or the set of indices. -/
theorem run_frame (ops : List Op) :
    ∀ (lvl : ParkingLevel) (j : ℕ),
      ((lvl.run ops).allSpots[j]?).map (fun x => (x.spotId, x.type))
        = (lvl.allSpots[j]?).map (fun x => (x.spotId, x.type)) := by
  induction ops with
  | nil => intro lvl j; rfl
  | cons op ops ih =>
    intro lvl j
    have : lvl.run (op :: ops) = (lvl.step op).run ops := rfl
    rw [this, ih, step_frame]

theorem park_length (lvl : ParkingLevel) (v : Vehicle) :
    (lvl.parkVehicle v).2.allSpots.length = lvl.allSpots.length := by
  rcases park_cases lvl v with h | ⟨i, rest, _, h⟩
  · rw [h]
  · rw [h]
    exact occupy_length _ _ _

theorem remove_length (lvl : ParkingLevel) (p : String) :
    (lvl.removeVehicle p).2.allSpots.length = lvl.allSpots.length := by
  rcases remove_cases lvl p with h | ⟨i, s, _, _, h⟩
  · rw [h]
  · rw [h]
    exact List.length_set _ _ _

theorem frame_type {a b : Option ParkingSpot}
    (h : a.map (fun x => (x.spotId, x.type)) = b.map (fun x => (x.spotId, x.type)))
    {s s' : ParkingSpot} (ha : a = some s') (hb : b = some s) :
    s'.spotId = s.spotId ∧ s'.type = s.type := by
  subst ha hb
  simp only [Option.map_some', Option.some.injEq, Prod.mk.injEq] at h
  exact h

theorem run_reachable {lvl : ParkingLevel} (h : LevelReachable lvl) (ops : List Op) :
    LevelReachable (lvl.run ops) := by
  induction ops generalizing lvl with
  | nil => exact h
  | cons op ops ih =>
    cases op with
    | park v => exact ih (LevelReachable.park v h)
    | remove p => exact ih (LevelReachable.remove p h)

/-- C18: in a reachable level state neither `parkVehicle` nor `removeVehicle`
adds or removes a spot or changes a spot's id or type; `parkVehicle` changes a
spot only by turning a free spot into an occupied one (in a call that returns
true), `removeVehicle` only by turning an occupied spot into a free one (in a
call that returns true). Hence a spot handed out from the pool of the required
type of a vehicle is, whenever a later `removeVehicle` frees it, appended to
the pool of that same type. -/
theorem spot_transitions (lvl : ParkingLevel) (v : Vehicle) (p : String)
    (h : LevelReachable lvl) :
    ((lvl.parkVehicle v).2.allSpots.length = lvl.allSpots.length
      ∧ ∀ (i : ℕ) (s s' : ParkingSpot), lvl.allSpots[i]? = some s → (lvl.parkVehicle v).2.allSpots[i]? = some s' →
          s'.spotId = s.spotId ∧ s'.type = s.type
          ∧ (s' = s
            ∨ ((lvl.parkVehicle v).1 = true ∧ s.isOccupied = false ∧ s'.isOccupied = true)))
    ∧ ((lvl.removeVehicle p).2.allSpots.length = lvl.allSpots.length
      ∧ ∀ (i : ℕ) (s s' : ParkingSpot), lvl.allSpots[i]? = some s → (lvl.removeVehicle p).2.allSpots[i]? = some s' →
          s'.spotId = s.spotId ∧ s'.type = s.type
          ∧ (s' = s
            ∨ ((lvl.removeVehicle p).1 = true ∧ s.isOccupied = true ∧ s'.isOccupied = false)))
    ∧ (∀ (i : ℕ) (rest : List ℕ) (ops : List Op) (s1 s2 : ParkingSpot),
        lvl.availableSpots (requiredType v.type) = i :: rest →
        ((lvl.parkVehicle v).2.run ops).allSpots[i]? = some s1 → s1.isOccupied = true →
        (((lvl.parkVehicle v).2.run ops).removeVehicle p).2.allSpots[i]? = some s2 →
        s2.isOccupied = false →
        (((lvl.parkVehicle v).2.run ops).removeVehicle p).2.availableSpots (requiredType v.type)
          = ((lvl.parkVehicle v).2.run ops).availableSpots (requiredType v.type) ++ [i]) := by
  have inv := levelInv_of_reachable h
  refine ⟨⟨park_length lvl v, ?_⟩, ⟨remove_length lvl p, ?_⟩, ?_⟩
  · intro i s s' hs hs'
    obtain ⟨hid, hty⟩ := frame_type (park_frame lvl v i) hs' hs
    refine ⟨hid, hty, ?_⟩
    rcases park_cases lvl v with hc | ⟨j, rest, hq, hc⟩
    · left
      rw [hc, hs] at hs'
      exact (Option.some.inj hs').symm
    · obtain ⟨t, ht, _, hfree⟩ := inv.pool_valid _ j (by rw [hq]; exact List.mem_cons_self _ _)
      rw [hc, occupy_of_getElem? v ht] at hs'
      by_cases hji : j = i
      · subst hji
        right
        rw [List.getElem?_set_self (List.getElem?_eq_some.mp ht).1] at hs'
        rw [ht] at hs
        rw [← Option.some.inj hs, ← Option.some.inj hs', hc]
        exact ⟨rfl, hfree, rfl⟩
      · left
        rw [List.getElem?_set_ne hji, hs] at hs'
        exact (Option.some.inj hs').symm
  · intro i s s' hs hs'
    obtain ⟨hid, hty⟩ := frame_type (remove_frame lvl p i) hs' hs
    refine ⟨hid, hty, ?_⟩
    rcases remove_cases lvl p with hc | ⟨j, t, ht, hholds, hc⟩
    · left
      rw [hc, hs] at hs'
      exact (Option.some.inj hs').symm
    · rw [hc] at hs'
      by_cases hji : j = i
      · subst hji
        right
        rw [List.getElem?_set_self (List.getElem?_eq_some.mp ht).1] at hs'
        rw [ht] at hs
        rw [← Option.some.inj hs, ← Option.some.inj hs', hc]
        exact ⟨rfl, holds_isOccupied hholds, rfl⟩
      · left
        rw [List.getElem?_set_ne hji, hs] at hs'
        exact (Option.some.inj hs').symm
  · intro i rest ops s1 s2 hq hs1 hocc1 hs2 hfree2
    obtain ⟨s0, hs0, hty0, _⟩ := inv.pool_valid _ i (by rw [hq]; exact List.mem_cons_self _ _)
    -- the type of spot `i` never changes
    have hty1 : s1.type = requiredType v.type := by
      have hpark := park_frame lvl v i
      have hrun := run_frame ops (lvl.parkVehicle v).2 i
      rw [hs1, hpark, hs0] at hrun
      simp only [Option.map_some', Option.some.injEq, Prod.mk.injEq] at hrun
      exact hrun.2.trans hty0
    rcases remove_cases ((lvl.parkVehicle v).2.run ops) p with hc | ⟨j, t, ht, _, hc⟩
    · rw [hc, hs1] at hs2
      rw [← Option.some.inj hs2, hocc1] at hfree2
      exact Bool.noConfusion hfree2
    · by_cases hji : j = i
      · subst hji
        rw [hs1] at ht
        have : s1 = t := Option.some.inj ht
        subst this
        rw [hc]
        simp only
        rw [hty1, Function.update_same]
      · rw [hc] at hs2
        simp only at hs2
        rw [List.getElem?_set_ne hji, hs1] at hs2
        rw [← Option.some.inj hs2, hocc1] at hfree2
        exact Bool.noConfusion hfree2

/-- Witness of C18: a Car is parked on the fresh level "L1" and leaves again;
its spot 1 returns to the back of the Compact pool. -/
theorem spot_transitions_witness :
    ((ParkingLevel.new "L1" 1 2 1 1).parkVehicle (Car "KA-01-1234")).2.allSpots.length
        = (ParkingLevel.new "L1" 1 2 1 1).allSpots.length
    ∧ ((ParkingLevel.new "L1" 1 2 1 1).removeVehicle "KA-01-1234").2.allSpots.length
        = (ParkingLevel.new "L1" 1 2 1 1).allSpots.length
    ∧ ((((ParkingLevel.new "L1" 1 2 1 1).parkVehicle (Car "KA-01-1234")).2.run
          []).removeVehicle "KA-01-1234").2.availableSpots (requiredType (Car "KA-01-1234").type)
        = (((ParkingLevel.new "L1" 1 2 1 1).parkVehicle (Car "KA-01-1234")).2.run
            []).availableSpots (requiredType (Car "KA-01-1234").type) ++ [1] :=
  have key := spot_transitions (ParkingLevel.new "L1" 1 2 1 1) (Car "KA-01-1234") "KA-01-1234"
    (LevelReachable.init "L1" 1 2 1 1)
  ⟨key.1.1, key.2.1.1,
    key.2.2 1 [2] []
      { spotId := "L1-C1", type := SpotType.COMPACT, isOccupied := true,
        vehicle := some (Car "KA-01-1234") }
      { spotId := "L1-C1", type := SpotType.COMPACT, isOccupied := false, vehicle := none }
      (by decide) (by decide) rfl (by decide) rfl⟩

end Gpt

namespace Gpt

/-! ## Handicap spots -/

theorem requiredType_ne_handicap (t : VehicleType) : requiredType t ≠ SpotType.HANDICAP := by
  cases t <;> decide

theorem handicapUntouched_new (levelId : String) (h c l m : ℤ) :
    HandicapUntouched h.toNat (ParkingLevel.new levelId h c l m) := by
  refine ⟨fun s hs _ => (new_allSpots_fresh levelId h c l m hs).1, ?_, ?_⟩
  · rw [new_pool]
    rfl
  · intro i s hs
    have hlt := (List.getElem?_eq_some.mp hs).1
    rw [new_allSpots_length] at hlt
    obtain ⟨t, j, hj, rfl⟩ := new_index_cases h c l m i hlt
    rw [new_spot levelId h c l m t j hj] at hs
    have hty : s.type = t := by rw [← Option.some.inj hs]; rfl
    rw [hty]
    cases t <;> simp only [typeOffset, typeCount] at hj ⊢
    · simp [hj]
    · simp
    · simp; omega
    · simp; omega

theorem handicapUntouched_park {n : ℕ} {lvl : ParkingLevel} (v : Vehicle) (inv : LevelInv lvl)
    (hu : HandicapUntouched n lvl) : HandicapUntouched n (lvl.parkVehicle v).2 := by
  rcases park_cases lvl v with hc | ⟨i, rest, hq, hc⟩
  · rw [hc]; exact hu
  · obtain ⟨s, hs, hty, _⟩ := inv.pool_valid _ i (by rw [hq]; exact List.mem_cons_self _ _)
    rw [hc, occupy_of_getElem? v hs]
    obtain ⟨h1, h2, h3⟩ := hu
    have hne : s.type ≠ SpotType.HANDICAP := by
      rw [hty]; exact requiredType_ne_handicap _
    refine ⟨?_, ?_, ?_⟩
    · intro s' hs' hty'
      rcases List.mem_or_eq_of_mem_set hs' with hmem | rfl
      · exact h1 s' hmem hty'
      · exact absurd hty' hne
    · simp only
      rw [Function.update_noteq (Ne.symm (requiredType_ne_handicap _))]
      exact h2
    · intro j s' hs'
      simp only at hs'
      by_cases hji : i = j
      · subst hji
        rw [List.getElem?_set_self (List.getElem?_eq_some.mp hs).1] at hs'
        rw [← Option.some.inj hs']
        exact h3 i s hs
      · rw [List.getElem?_set_ne hji] at hs'
        exact h3 j s' hs'

theorem handicapUntouched_remove {n : ℕ} {lvl : ParkingLevel} (p : String)
    (hu : HandicapUntouched n lvl) : HandicapUntouched n (lvl.removeVehicle p).2 := by
  rcases remove_cases lvl p with hc | ⟨i, s, hs, hholds, hc⟩
  · rw [hc]; exact hu
  · rw [hc]
    obtain ⟨h1, h2, h3⟩ := hu
    have hne : s.type ≠ SpotType.HANDICAP := by
      intro hty
      have := h1 s (List.getElem?_mem hs) hty
      rw [holds_isOccupied hholds] at this
      exact Bool.noConfusion this
    refine ⟨?_, ?_, ?_⟩
    · intro s' hs' hty'
      rcases List.mem_or_eq_of_mem_set hs' with hmem | rfl
      · exact h1 s' hmem hty'
      · rfl
    · simp only
      rw [Function.update_noteq (Ne.symm hne)]
      exact h2
    · intro j s' hs'
      simp only at hs'
      by_cases hji : i = j
      · subst hji
        rw [List.getElem?_set_self (List.getElem?_eq_some.mp hs).1] at hs'
        rw [← Option.some.inj hs']
        exact h3 i s hs
      · rw [List.getElem?_set_ne hji] at hs'
        exact h3 j s' hs'

theorem level_run_handicap {n : ℕ} (ops : List Op) :
    ∀ (lvl : ParkingLevel), LevelInv lvl → HandicapUntouched n lvl →
      LevelInv (lvl.run ops) ∧ HandicapUntouched n (lvl.run ops) := by
  induction ops with
  | nil => intro lvl inv hu; exact ⟨inv, hu⟩
  | cons op ops ih =>
    intro lvl inv hu
    cases op with
    | park v =>
      exact ih _ (levelInv_parkVehicle v inv) (handicapUntouched_park v inv hu)
    | remove p =>
      exact ih _ (levelInv_removeVehicle p inv) (handicapUntouched_remove p hu)

theorem lot_run_handicap {n : ℕ} (ops : List Op) :
    ∀ (lot : ParkingLot), (∀ e ∈ lot.levels, LevelInv e.2 ∧ HandicapUntouched n e.2) →
      ∀ e ∈ (lot.run ops).levels, LevelInv e.2 ∧ HandicapUntouched n e.2 := by
  induction ops with
  | nil => intro lot h; exact h
  | cons op ops ih =>
    intro lot h
    cases op with
    | park v =>
      exact ih _ (parkInLevels_forall (fun lvl => LevelInv lvl ∧ HandicapUntouched n lvl) v
        (fun lvl hl => ⟨levelInv_parkVehicle v hl.1, handicapUntouched_park v hl.1 hl.2⟩)
        lot.levels h)
    | remove p =>
      exact ih _ (removeInLevels_forall (fun lvl => LevelInv lvl ∧ HandicapUntouched n lvl) p
        (fun lvl hl => ⟨levelInv_removeVehicle p hl.1, handicapUntouched_remove p hl.2⟩)
        lot.levels h)

/-- C20: after any sequence of `parkVehicle` / `removeVehicle` calls on a
constructed level, and in every level of a constructed lot (the map iterating
in any order) after any sequence of calls on the lot, every spot of type
HANDICAP is unoccupied, the Handicap spots are exactly the first `handicap`
spots, and the Handicap pool holds exactly these spots in creation order. -/
theorem handicap_never_occupied (levelId : String) (levelIds : List String) (h c l m : ℤ)
    (levels : List (String × ParkingLevel)) (ops : List Op)
    (hperm : levels.Perm (ParkingLot.new levelIds h c l m).levels) :
    ((∀ s ∈ ((ParkingLevel.new levelId h c l m).run ops).allSpots,
        s.type = SpotType.HANDICAP → s.isOccupied = false)
      ∧ ((ParkingLevel.new levelId h c l m).run ops).availableSpots SpotType.HANDICAP
          = List.range' 0 h.toNat
      ∧ ∀ (i : ℕ) (s : ParkingSpot),
          ((ParkingLevel.new levelId h c l m).run ops).allSpots[i]? = some s →
          (s.type = SpotType.HANDICAP ↔ i < h.toNat))
    ∧ ∀ e ∈ (ParkingLot.run { levels := levels } ops).levels,
        (∀ s ∈ e.2.allSpots, s.type = SpotType.HANDICAP → s.isOccupied = false)
        ∧ e.2.availableSpots SpotType.HANDICAP = List.range' 0 h.toNat
        ∧ ∀ (i : ℕ) (s : ParkingSpot), e.2.allSpots[i]? = some s →
            (s.type = SpotType.HANDICAP ↔ i < h.toNat) := by
  constructor
  · exact (level_run_handicap ops _ (levelInv_new levelId h c l m)
      (handicapUntouched_new levelId h c l m)).2
  · intro e he
    refine (lot_run_handicap ops { levels := levels } ?_ e he).2
    intro e' he'
    rw [new_levels_fresh levelIds h c l m (hperm.subset he')]
    exact ⟨levelInv_new _ _ _ _ _, handicapUntouched_new _ _ _ _ _⟩

/-- Witness of C20: the lot of the test case of gpt.cpp (two levels with 5
Handicap spots each) after a Car, a Bike and a Bus arrived and the Car left. -/
theorem handicap_never_occupied_witness :
    ((ParkingLevel.new "L1" 5 20 10 10).run
        [Op.park (Car "KA-01-1234"), Op.park (Bike "KA-02-5678"), Op.park (Bus "KA-03-9999"),
          Op.remove "KA-01-1234"]).availableSpots SpotType.HANDICAP = List.range' 0 5
    ∧ ∀ e ∈ (ParkingLot.run { levels := (ParkingLot.new ["L1", "L2"] 5 20 10 10).levels }
        [Op.park (Car "KA-01-1234"), Op.park (Bike "KA-02-5678"), Op.park (Bus "KA-03-9999"),
          Op.remove "KA-01-1234"]).levels,
        (∀ s ∈ e.2.allSpots, s.type = SpotType.HANDICAP → s.isOccupied = false)
        ∧ e.2.availableSpots SpotType.HANDICAP = List.range' 0 5 :=
  have key := handicap_never_occupied "L1" ["L1", "L2"] 5 20 10 10
    (ParkingLot.new ["L1", "L2"] 5 20 10 10).levels
    [Op.park (Car "KA-01-1234"), Op.park (Bike "KA-02-5678"), Op.park (Bus "KA-03-9999"),
      Op.remove "KA-01-1234"] (List.Perm.refl _)
  ⟨key.1.2.1, fun e he => ⟨(key.2 e he).1, (key.2 e he).2.1⟩⟩

end Gpt

namespace Gpt

/-! ## The pools are queues -/

theorem findAvailableSpot_of_empty (lvl : ParkingLevel) (t : VehicleType)
    (h : lvl.availableSpots (requiredType t) = []) : (lvl.findAvailableSpot t).1 = none := by
  simp only [ParkingLevel.findAvailableSpot, h]

theorem findAvailableSpot_of_front (lvl : ParkingLevel) (t : VehicleType) (i : ℕ) (rest : List ℕ)
    (h : lvl.availableSpots (requiredType t) = i :: rest) :
    (lvl.findAvailableSpot t).1 = some i := by
  simp only [ParkingLevel.findAvailableSpot, h]

theorem handouts_park_empty (lvl : ParkingLevel) (v : Vehicle) (ops : List Op)
    (h : lvl.availableSpots (requiredType v.type) = []) :
    handouts lvl (Op.park v :: ops) = handouts lvl ops := by
  simp only [handouts, findAvailableSpot_of_empty lvl v.type h, parkVehicle_of_empty lvl v h]

theorem handouts_park_front (lvl : ParkingLevel) (v : Vehicle) (ops : List Op) (i : ℕ)
    (rest : List ℕ) (h : lvl.availableSpots (requiredType v.type) = i :: rest) :
    handouts lvl (Op.park v :: ops) = i :: handouts (lvl.parkVehicle v).2 ops := by
  simp only [handouts, findAvailableSpot_of_front lvl v.type i rest h]

/-- Parks only: each park of a class drops the front of the pool of its type. -/
theorem run_parks_pool (t : SpotType) :
    ∀ (vs : List Vehicle) (lvl : ParkingLevel),
      (lvl.run (vs.map Op.park)).availableSpots t
        = (lvl.availableSpots t).drop
            (vs.countP (fun x => decide (requiredType x.type = t)))
  | [], lvl => by simp [ParkingLevel.run]
  | v :: vs, lvl => by
      have hrun : lvl.run ((v :: vs).map Op.park) = ((lvl.parkVehicle v).2).run (vs.map Op.park) :=
        rfl
      rw [hrun, run_parks_pool t vs, List.countP_cons]
      cases hq : lvl.availableSpots (requiredType v.type) with
      | nil =>
        rw [parkVehicle_of_empty lvl v hq]
        by_cases ht : requiredType v.type = t
        · subst ht
          simp [hq]
        · simp [ht]
      | cons i rest =>
        rw [parkVehicle_of_front lvl v i rest hq]
        by_cases ht : requiredType v.type = t
        · subst ht
          simp [hq]
        · simp [ht, Function.update_noteq (Ne.symm ht)]

theorem run_append (lvl : ParkingLevel) (ops1 ops2 : List Op) :
    lvl.run (ops1 ++ ops2) = (lvl.run ops1).run ops2 := by
  simp [ParkingLevel.run, List.foldl_append]

/-- A spot that waits in a pool behind the spots `q` is handed out only after
all of `q` have been handed out. -/
theorem handouts_after_queue (t : SpotType) (i : ℕ) :
    ∀ (ops : List Op) (lvl : ParkingLevel) (q more pre post : List ℕ),
      LevelInv lvl → lvl.availableSpots t = q ++ i :: more →
      handouts lvl ops = pre ++ i :: post → i ∉ pre → ∀ j ∈ q, j ∈ pre
  | [], lvl, q, more, pre, post, _, _, hh, _ => by
      simp [handouts] at hh
  | Op.remove p :: ops, lvl, q, more, pre, post, inv, hpool, hh, hpre => by
      have hh' : handouts (lvl.removeVehicle p).2 ops = pre ++ i :: post := hh
      have inv' := levelInv_removeVehicle p inv
      rcases remove_cases lvl p with hc | ⟨k, s, _, _, hc⟩
      · rw [hc] at hh' inv'
        exact handouts_after_queue t i ops lvl q more pre post inv' hpool hh' hpre
      · by_cases ht : s.type = t
        · refine handouts_after_queue t i ops _ q (more ++ [k]) pre post inv' ?_ hh' hpre
          rw [hc]
          simp only
          rw [ht, Function.update_same, hpool]
          simp
        · refine handouts_after_queue t i ops _ q more pre post inv' ?_ hh' hpre
          rw [hc]
          simp only
          rw [Function.update_noteq (Ne.symm ht), hpool]
  | Op.park v :: ops, lvl, q, more, pre, post, inv, hpool, hh, hpre => by
      have inv' := levelInv_parkVehicle v inv
      cases hq : lvl.availableSpots (requiredType v.type) with
      | nil =>
        rw [handouts_park_empty lvl v ops hq] at hh
        exact handouts_after_queue t i ops lvl q more pre post inv hpool hh hpre
      | cons x rest =>
        rw [handouts_park_front lvl v ops x rest hq] at hh
        have hlvl' := parkVehicle_of_front lvl v x rest hq
        by_cases ht : requiredType v.type = t
        · subst ht
          rw [hpool] at hq
          cases q with
          | nil => intro j hj; simp at hj
          | cons y q' =>
            simp only [List.cons_append, List.cons.injEq] at hq
            obtain ⟨rfl, hrest⟩ := hq
            have hnd := inv.pool_nodup (requiredType v.type)
            rw [hpool, List.cons_append, List.nodup_cons] at hnd
            have hyi : y ≠ i := fun e => hnd.1 (by rw [e]; simp)
            cases pre with
            | nil =>
              simp only [List.nil_append, List.cons.injEq] at hh
              exact absurd hh.1 hyi
            | cons z pre' =>
              simp only [List.cons_append, List.cons.injEq] at hh
              obtain ⟨rfl, hh'⟩ := hh
              have hpre' : i ∉ pre' := fun hm => hpre (List.mem_cons_of_mem _ hm)
              have ih := handouts_after_queue (requiredType v.type) i ops (lvl.parkVehicle v).2
                q' more pre' post inv' (by rw [hlvl']; simp only; rw [Function.update_same, hrest])
                hh' hpre'
              intro j hj
              rcases List.mem_cons.mp hj with rfl | hj
              · exact List.mem_cons_self _ _
              · exact List.mem_cons_of_mem _ (ih j hj)
        · have hxi : x ≠ i := by
            rintro rfl
            obtain ⟨s1, hs1, hty1, _⟩ := inv.pool_valid (requiredType v.type) x
              (by rw [hq]; exact List.mem_cons_self _ _)
            obtain ⟨s2, hs2, hty2, _⟩ := inv.pool_valid t x (by rw [hpool]; simp)
            rw [hs1] at hs2
            rw [← Option.some.inj hs2] at hty2
            exact ht (hty1.symm.trans hty2)
          cases pre with
          | nil =>
            simp only [List.nil_append, List.cons.injEq] at hh
            exact absurd hh.1 hxi
          | cons z pre' =>
            simp only [List.cons_append, List.cons.injEq] at hh
            obtain ⟨rfl, hh'⟩ := hh
            have hpre' : i ∉ pre' := fun hm => hpre (List.mem_cons_of_mem _ hm)
            have ih := handouts_after_queue t i ops (lvl.parkVehicle v).2 q more pre' post inv'
              (by rw [hlvl']; simp only; rw [Function.update_noteq (Ne.symm ht), hpool]) hh' hpre'
            intro j hj
            exact List.mem_cons_of_mem _ (ih j hj)

theorem drop_range' (s j k : ℕ) (hj : j < k) :
    (List.range' s k).drop j = (s + j) :: List.range' (s + j + 1) (k - j - 1) := by
  have hk : k = (k - j - 1 + 1) + j := by omega
  conv => lhs; rw [hk, ← List.range'_append_1 s j (k - j - 1 + 1)]
  rw [List.drop_left' (by simp), List.range'_succ]

/-- C12: the pools are first-in first-out queues. (1) A successful
`ParkingLevel::parkVehicle` hands out the front of the pool of the required
type and leaves the rest of the pool in order. (2) On a freshly constructed
level with parks only, the park of a vehicle that has `j` earlier vehicles of
the same required type, with `j` below the number of spots of that type,
succeeds and receives the spot number `j + 1` of that type (id
`levelId + tag + (j + 1)`). (3) In a reachable level a spot freed by
`removeVehicle` is appended behind the pool of its type, and in any later
sequence of calls it is handed out only after every spot that was in that pool
at the moment of the release. -/
theorem pools_are_fifo :
    (∀ (lvl : ParkingLevel) (v : Vehicle) (i : ℕ) (rest : List ℕ),
        lvl.availableSpots (requiredType v.type) = i :: rest →
        (lvl.findAvailableSpot v.type).1 = some i
        ∧ (lvl.parkVehicle v).1 = true
        ∧ (lvl.parkVehicle v).2.availableSpots (requiredType v.type) = rest
        ∧ (lvl.parkVehicle v).2.allSpots = occupy lvl.allSpots i v)
    ∧ (∀ (levelId : String) (h c l m : ℤ) (vs : List Vehicle) (v : Vehicle) (j : ℕ),
        vs.countP (fun x => decide (requiredType x.type = requiredType v.type)) = j →
        j < typeCount h c l m (requiredType v.type) →
        (((ParkingLevel.new levelId h c l m).run (vs.map Op.park)).findAvailableSpot v.type).1
            = some (typeOffset h c l (requiredType v.type) + j)
        ∧ (((ParkingLevel.new levelId h c l m).run (vs.map Op.park)).parkVehicle v).1 = true
        ∧ ∃ s : ParkingSpot,
            ((ParkingLevel.new levelId h c l m).run (vs.map Op.park)).allSpots[
                typeOffset h c l (requiredType v.type) + j]? = some s
            ∧ s.type = requiredType v.type
            ∧ s.spotId = levelId ++ spotTag (requiredType v.type) ++ toString (j + 1)
            ∧ (((ParkingLevel.new levelId h c l m).run (vs.map Op.park)).parkVehicle v).2.allSpots[
                typeOffset h c l (requiredType v.type) + j]?
                = some { s with isOccupied := true, vehicle := some v })
    ∧ (∀ (lvl : ParkingLevel) (p : String) (i : ℕ) (s s' : ParkingSpot) (ops : List Op)
        (pre post : List ℕ),
        LevelReachable lvl →
        lvl.allSpots[i]? = some s → s.isOccupied = true →
        (lvl.removeVehicle p).2.allSpots[i]? = some s' → s'.isOccupied = false →
        (lvl.removeVehicle p).2.availableSpots s.type = lvl.availableSpots s.type ++ [i]
        ∧ (handouts (lvl.removeVehicle p).2 ops = pre ++ i :: post → i ∉ pre →
            ∀ j ∈ lvl.availableSpots s.type, j ∈ pre)) := by
  refine ⟨?_, ?_, ?_⟩
  · intro lvl v i rest hq
    refine ⟨findAvailableSpot_of_front lvl v.type i rest hq, ?_, ?_, ?_⟩ <;>
      rw [parkVehicle_of_front lvl v i rest hq]
    exact Function.update_same _ _ _
  · intro levelId h c l m vs v j hj hk
    have hpool := run_parks_pool (requiredType v.type) vs (ParkingLevel.new levelId h c l m)
    rw [hj, new_pool, drop_range' _ j _ hk] at hpool
    have hframe := run_frame (vs.map Op.park) (ParkingLevel.new levelId h c l m)
      (typeOffset h c l (requiredType v.type) + j)
    rw [new_spot levelId h c l m _ j hk] at hframe
    cases hs : ((ParkingLevel.new levelId h c l m).run (vs.map Op.park)).allSpots[
        typeOffset h c l (requiredType v.type) + j]? with
    | none => rw [hs] at hframe; simp at hframe
    | some s =>
      rw [hs] at hframe
      simp only [Option.map_some', Option.some.injEq, Prod.mk.injEq, ParkingSpot.new] at hframe
      refine ⟨findAvailableSpot_of_front _ v.type _ _ hpool, ?_, s, rfl, hframe.2, hframe.1, ?_⟩
      · rw [parkVehicle_of_front _ v _ _ hpool]
      · rw [parkVehicle_of_front _ v _ _ hpool, occupy_of_getElem? v hs]
        exact List.getElem?_set_self (List.getElem?_eq_some.mp hs).1
  · intro lvl p i s s' ops pre post hreach hs hocc hs' hfree
    have inv := levelInv_of_reachable hreach
    rcases remove_cases lvl p with hc | ⟨k, t, ht, _, hc⟩
    · rw [hc, hs] at hs'
      rw [← Option.some.inj hs', hocc] at hfree
      exact Bool.noConfusion hfree
    · have hki : k = i := by
        by_contra hne
        rw [hc] at hs'
        simp only at hs'
        rw [List.getElem?_set_ne hne, hs] at hs'
        rw [← Option.some.inj hs', hocc] at hfree
        exact Bool.noConfusion hfree
      subst hki
      rw [hs] at ht
      have hst : s = t := Option.some.inj ht
      subst hst
      have hpool : (lvl.removeVehicle p).2.availableSpots s.type
          = lvl.availableSpots s.type ++ [k] := by
        rw [hc]
        exact Function.update_same _ _ _
      refine ⟨hpool, fun hh hpre => ?_⟩
      exact handouts_after_queue s.type k ops _ (lvl.availableSpots s.type) [] pre post
        (levelInv_removeVehicle p inv) hpool hh hpre

/-- Witness of C12: on the fresh level "L1" with two Compact spots the second
Car receives spot "L1-C2"; after the first Car has left and two more Cars have
arrived, the freed spot 1 was handed out after spot 2, which was free at the
release. -/
theorem pools_are_fifo_witness :
    (((ParkingLevel.new "L1" 1 2 1 1).run ([Car "KA-01-1234"].map Op.park)).findAvailableSpot
        (Car "KA-02-0002").type).1
      = some (typeOffset 1 2 1 (requiredType (Car "KA-02-0002").type) + 1)
    ∧ (∃ s : ParkingSpot,
        ((ParkingLevel.new "L1" 1 2 1 1).run ([Car "KA-01-1234"].map Op.park)).allSpots[
            typeOffset 1 2 1 (requiredType (Car "KA-02-0002").type) + 1]? = some s
        ∧ s.spotId = "L1" ++ spotTag (requiredType (Car "KA-02-0002").type) ++ toString (1 + 1))
    ∧ ∀ j ∈ ((ParkingLevel.new "L1" 1 2 1 1).parkVehicle (Car "KA-01-1234")).2.availableSpots
        SpotType.COMPACT, j ∈ [2] :=
  have key2 := pools_are_fifo.2.1 "L1" 1 2 1 1 [Car "KA-01-1234"] (Car "KA-02-0002") 1
    (by decide) (by decide)
  have key3 := pools_are_fifo.2.2
    ((ParkingLevel.new "L1" 1 2 1 1).parkVehicle (Car "KA-01-1234")).2 "KA-01-1234" 1
    { spotId := "L1-C1", type := SpotType.COMPACT, isOccupied := true,
      vehicle := some (Car "KA-01-1234") }
    { spotId := "L1-C1", type := SpotType.COMPACT, isOccupied := false, vehicle := none }
    [Op.park (Car "KA-02-0002"), Op.park (Car "KA-03-0003")] [2] []
    (LevelReachable.park _ (LevelReachable.init "L1" 1 2 1 1)) (by decide) rfl (by decide) rfl
  ⟨key2.1,
    (let ⟨s, h1, _, h3, _⟩ := key2.2.2; ⟨s, h1, h3⟩),
    key3.2 (by decide) (by decide)⟩

end Gpt

namespace Gpt

/-! ## The iteration order of the levels -/

theorem countP_set_general {α : Type} (p : α → Bool) :
    ∀ (l : List α) (i : ℕ) (a b : α), l[i]? = some a →
      (l.set i b).countP p + (if p a then 1 else 0) = l.countP p + (if p b then 1 else 0)
  | [], i, a, b, h => by simp at h
  | x :: l, 0, a, b, h => by
      simp only [List.getElem?_cons_zero, Option.some.injEq] at h
      subst h
      simp only [List.set_cons_zero, List.countP_cons]
      omega
  | x :: l, i + 1, a, b, h => by
      simp only [List.getElem?_cons_succ] at h
      have ih := countP_set_general p l i a b h
      simp only [List.set_cons_succ, List.countP_cons]
      omega

theorem occupiedOfType_perm (t : SpotType) {l1 l2 : List (String × ParkingLevel)}
    (h : l1.Perm l2) : occupiedOfType t l1 = occupiedOfType t l2 :=
  (h.map _).sum_eq

theorem occupiedOfType_cons (t : SpotType) (e : String × ParkingLevel)
    (rest : List (String × ParkingLevel)) :
    occupiedOfType t (e :: rest)
      = e.2.allSpots.countP (fun s => s.isOccupied && decide (s.type = t))
        + occupiedOfType t rest := by
  simp [occupiedOfType]

/-- A park on a level that satisfies the invariant occupies one more spot of
the required type when it succeeds, and changes no count otherwise. -/
theorem level_park_occupied (t : SpotType) (lvl : ParkingLevel) (v : Vehicle) (inv : LevelInv lvl) :
    (lvl.parkVehicle v).2.allSpots.countP (fun s => s.isOccupied && decide (s.type = t))
      = lvl.allSpots.countP (fun s => s.isOccupied && decide (s.type = t))
        + (if (lvl.parkVehicle v).1 = true ∧ requiredType v.type = t then 1 else 0) := by
  cases hres : (lvl.parkVehicle v).1 with
  | false =>
    have := (parkVehicle_of_empty lvl v (by
      by_contra hne
      obtain ⟨i, rest, hq⟩ := List.exists_cons_of_ne_nil hne
      rw [parkVehicle_of_front lvl v i rest hq] at hres
      exact Bool.noConfusion hres))
    rw [this]
    simp
  | true =>
    obtain ⟨i, rest, s, _, _, hs, hty, hfree, _, heq⟩ := level_park_shape lvl v inv hres
    rw [heq]
    have := countP_set_general (fun s : ParkingSpot => s.isOccupied && decide (s.type = t))
      lvl.allSpots i s { s with isOccupied := true, vehicle := some v } hs
    simp only [hfree, Bool.false_and, Bool.false_eq_true, if_false, Bool.true_and,
      decide_eq_true_eq, add_zero] at this
    simp only [true_and]
    rw [this, hty]

theorem lot_park_occupied (t : SpotType) (v : Vehicle) :
    ∀ (levels : List (String × ParkingLevel)), (∀ e ∈ levels, LevelInv e.2) →
      occupiedOfType t (parkInLevels v levels).2
        = occupiedOfType t levels
          + (if (parkInLevels v levels).1 = true ∧ requiredType v.type = t then 1 else 0)
  | [], _ => by simp [parkInLevels, occupiedOfType]
  | (id, lvl) :: rest, h => by
      have inv : LevelInv lvl := h (id, lvl) (List.mem_cons_self _ _)
      by_cases hq : lvl.availableSpots (requiredType v.type) = []
      · rw [parkInLevels_cons_empty v id lvl rest hq]
        have ih := lot_park_occupied t v rest (fun e he => h e (List.mem_cons_of_mem _ he))
        simp only [occupiedOfType_cons, ih]
        omega
      · rw [parkInLevels_cons_front v id lvl rest hq]
        have hl := level_park_occupied t lvl v inv
        have hres : (lvl.parkVehicle v).1 = true := by
          obtain ⟨i, q, hq'⟩ := List.exists_cons_of_ne_nil hq
          rw [parkVehicle_of_front lvl v i q hq']
        rw [hres] at hl
        simp only [occupiedOfType_cons, hl]
        omega

theorem removeInLevels_true_iff (p : String) :
    ∀ (levels : List (String × ParkingLevel)),
      (removeInLevels p levels).1 = true ↔ ∃ e ∈ levels, p ∈ occupantPlates e.2.allSpots
  | [] => by simp [removeInLevels]
  | (id, lvl) :: rest => by
      by_cases hf : findHolder p lvl.allSpots 0 = none
      · have hno : p ∉ occupantPlates lvl.allSpots :=
          not_mem_occupantPlates.mpr (findHolder_eq_none.mp hf)
        rw [removeInLevels_cons_none p id lvl rest hf]
        simp only [removeInLevels_true_iff p rest, List.mem_cons, exists_eq_or_imp, hno, false_or]
      · have hyes : p ∈ occupantPlates lvl.allSpots := by
          by_contra hno
          exact hf (findHolder_eq_none.mpr (not_mem_occupantPlates.mp hno))
        rw [removeInLevels_cons_some p id lvl rest hf]
        simp only [List.mem_cons, exists_eq_or_imp, hyes, true_or]

/-- When the plate is bound to at most one occupied spot of the lot, the loop of
`ParkingLot::removeVehicle` has the effect of removing the plate in every level. -/
theorem removeInLevels_of_unique (p : String) :
    ∀ (levels : List (String × ParkingLevel)),
      (levels.flatMap fun e => occupantPlates e.2.allSpots).count p ≤ 1 →
      (removeInLevels p levels).2 = levels.map (fun e => (e.1, (e.2.removeVehicle p).2))
  | [], _ => rfl
  | (k, lvl) :: rest, h => by
      simp only [List.flatMap_cons, List.count_append] at h
      by_cases hf : findHolder p lvl.allSpots 0 = none
      · rw [removeInLevels_cons_none p k lvl rest hf,
          removeInLevels_of_unique p rest (by omega)]
        simp only [List.map_cons, removeVehicle_of_none lvl p hf]
      · have hyes : p ∈ occupantPlates lvl.allSpots := by
          by_contra hno
          exact hf (findHolder_eq_none.mpr (not_mem_occupantPlates.mp hno))
        have hpos : 0 < (occupantPlates lvl.allSpots).count p := List.count_pos_iff.mpr hyes
        have hrest : ∀ e ∈ rest, p ∉ occupantPlates e.2.allSpots := by
          intro e he hmem
          have : p ∈ rest.flatMap fun e => occupantPlates e.2.allSpots :=
            List.mem_flatMap.mpr ⟨e, he, hmem⟩
          have := List.count_pos_iff.mpr this
          omega
        rw [removeInLevels_cons_some p k lvl rest hf]
        simp only [List.map_cons, List.cons.injEq, true_and]
        symm
        have hid : ∀ e ∈ rest, (e.1, (e.2.removeVehicle p).2) = id e := by
          intro e he
          rw [removeVehicle_of_none e.2 p
            (findHolder_eq_none.mpr (not_mem_occupantPlates.mp (hrest e he)))]
          rfl
        rw [List.map_congr_left hid, List.map_id]

/-- C19, as stated, fails: in the lot reached by parking the Bus "KA-03-9999",
the Bus "KA-01-1234" and the Car "KA-01-1234" (two levels with one Compact and
one Large spot each), `removeVehicle("KA-01-1234")` leaves no Compact spot
occupied when the levels are iterated L1, L2, and one Compact spot occupied when
they are iterated L2, L1. -/
theorem remove_totals_depend_on_order :
    LotReachable
        { levels := ((ParkingLot.new ["L1", "L2"] 0 1 1 0).run
            [Op.park (Bus "KA-03-9999"), Op.park (Bus "KA-01-1234"),
              Op.park (Car "KA-01-1234")]).levels }
    ∧ (((ParkingLot.new ["L1", "L2"] 0 1 1 0).run
            [Op.park (Bus "KA-03-9999"), Op.park (Bus "KA-01-1234"),
              Op.park (Car "KA-01-1234")]).levels.map
          fun e => (e.1, e.2.allSpots.map fun s => (s.type, s.vehicle.map fun v => v.licensePlate)))
        = [("L1", [(SpotType.COMPACT, some "KA-01-1234"), (SpotType.LARGE, some "KA-03-9999")]),
           ("L2", [(SpotType.COMPACT, none), (SpotType.LARGE, some "KA-01-1234")])]
    ∧ occupiedOfType SpotType.COMPACT
        (ParkingLot.removeVehicle
          { levels := ((ParkingLot.new ["L1", "L2"] 0 1 1 0).run
              [Op.park (Bus "KA-03-9999"), Op.park (Bus "KA-01-1234"),
                Op.park (Car "KA-01-1234")]).levels }
          "KA-01-1234").2.levels = 0
    ∧ occupiedOfType SpotType.COMPACT
        (ParkingLot.removeVehicle
          { levels := ((ParkingLot.new ["L1", "L2"] 0 1 1 0).run
              [Op.park (Bus "KA-03-9999"), Op.park (Bus "KA-01-1234"),
                Op.park (Car "KA-01-1234")]).levels.reverse }
          "KA-01-1234").2.levels = 1 := by
  refine ⟨?_, by decide, by decide, by decide⟩
  exact LotReachable.park _ (LotReachable.park _ (LotReachable.park _
    (LotReachable.init ["L1", "L2"] 0 1 1 0 _ (List.Perm.refl _))))

/-- C19 (amended): for a reachable lot and any other iteration order of its
levels, `ParkingLot::parkVehicle` returns the same flag and leaves the same
number of occupied spots of every type; `ParkingLot::removeVehicle` returns
the same flag, and leaves the same number of occupied spots of every type
when the plate is bound to at most one occupied spot of the lot. -/
theorem iteration_order_independent (levels1 levels2 : List (String × ParkingLevel))
    (v : Vehicle) (p : String)
    (hreach : LotReachable { levels := levels1 }) (hperm : levels1.Perm levels2) :
    ((ParkingLot.parkVehicle { levels := levels1 } v).1
        = (ParkingLot.parkVehicle { levels := levels2 } v).1
      ∧ ∀ t, occupiedOfType t (ParkingLot.parkVehicle { levels := levels1 } v).2.levels
          = occupiedOfType t (ParkingLot.parkVehicle { levels := levels2 } v).2.levels)
    ∧ (ParkingLot.removeVehicle { levels := levels1 } p).1
        = (ParkingLot.removeVehicle { levels := levels2 } p).1
    ∧ ((ParkingLot.plates { levels := levels1 }).count p ≤ 1 →
        ∀ t, occupiedOfType t (ParkingLot.removeVehicle { levels := levels1 } p).2.levels
          = occupiedOfType t (ParkingLot.removeVehicle { levels := levels2 } p).2.levels) := by
  have inv1 : ∀ e ∈ levels1, LevelInv e.2 := lot_levelInv hreach
  have inv2 : ∀ e ∈ levels2, LevelInv e.2 := fun e he => inv1 e (hperm.symm.subset he)
  have hpark : (parkInLevels v levels1).1 = (parkInLevels v levels2).1 := by
    rw [Bool.eq_iff_iff, parkInLevels_true_iff, parkInLevels_true_iff]
    exact ⟨fun ⟨e, he, h⟩ => ⟨e, hperm.subset he, h⟩,
      fun ⟨e, he, h⟩ => ⟨e, hperm.symm.subset he, h⟩⟩
  have hrem : (removeInLevels p levels1).1 = (removeInLevels p levels2).1 := by
    rw [Bool.eq_iff_iff, removeInLevels_true_iff, removeInLevels_true_iff]
    exact ⟨fun ⟨e, he, h⟩ => ⟨e, hperm.subset he, h⟩,
      fun ⟨e, he, h⟩ => ⟨e, hperm.symm.subset he, h⟩⟩
  refine ⟨⟨hpark, fun t => ?_⟩, hrem, fun huniq t => ?_⟩
  · simp only [ParkingLot.parkVehicle]
    rw [lot_park_occupied t v levels1 inv1, lot_park_occupied t v levels2 inv2, hpark,
      occupiedOfType_perm t hperm]
  · simp only [ParkingLot.removeVehicle]
    have huniq2 : (levels2.flatMap fun e => occupantPlates e.2.allSpots).count p ≤ 1 := by
      rw [← (hperm.flatMap_right _).count_eq]
      exact huniq
    rw [removeInLevels_of_unique p levels1 huniq, removeInLevels_of_unique p levels2 huniq2]
    exact occupiedOfType_perm t (hperm.map _)

/-- Witness of C19 (amended): the lot of two levels holding one Bus, iterated
in the two possible orders. -/
theorem iteration_order_independent_witness :
    ((ParkingLot.parkVehicle { levels := (demoLot.parkVehicle (Bus "KA-03-9999")).2.levels }
          (Bus "KA-04-0001")).1
        = (ParkingLot.parkVehicle
            { levels := (demoLot.parkVehicle (Bus "KA-03-9999")).2.levels.reverse }
            (Bus "KA-04-0001")).1
      ∧ ∀ t, occupiedOfType t
            (ParkingLot.parkVehicle { levels := (demoLot.parkVehicle (Bus "KA-03-9999")).2.levels }
              (Bus "KA-04-0001")).2.levels
          = occupiedOfType t
            (ParkingLot.parkVehicle
              { levels := (demoLot.parkVehicle (Bus "KA-03-9999")).2.levels.reverse }
              (Bus "KA-04-0001")).2.levels)
    ∧ (ParkingLot.removeVehicle { levels := (demoLot.parkVehicle (Bus "KA-03-9999")).2.levels }
          "KA-03-9999").1
        = (ParkingLot.removeVehicle
            { levels := (demoLot.parkVehicle (Bus "KA-03-9999")).2.levels.reverse }
            "KA-03-9999").1
    ∧ ∀ t, occupiedOfType t
          (ParkingLot.removeVehicle { levels := (demoLot.parkVehicle (Bus "KA-03-9999")).2.levels }
            "KA-03-9999").2.levels
        = occupiedOfType t
          (ParkingLot.removeVehicle
            { levels := (demoLot.parkVehicle (Bus "KA-03-9999")).2.levels.reverse }
            "KA-03-9999").2.levels :=
  have key := iteration_order_independent
    (demoLot.parkVehicle (Bus "KA-03-9999")).2.levels
    (demoLot.parkVehicle (Bus "KA-03-9999")).2.levels.reverse (Bus "KA-04-0001") "KA-03-9999"
    (LotReachable.park _ (LotReachable.init ["L1", "L2"] 0 0 1 0 _ (List.Perm.refl _)))
    (List.reverse_perm _).symm
  ⟨key.1, key.2.1, key.2.2 (by decide)⟩

end Gpt

namespace PLot

/-! ## Parking_lot.cpp: what `removeVehicle` and `parkVehicle` leave behind -/

theorem plot_findHolder_some {vehicle : ℕ} {spots : List Spot} {n i : ℕ} {s : Spot}
    (h : findHolder vehicle spots n = some (i, s)) :
    ∃ k, i = n + k ∧ spots[k]? = some s ∧ s.isOccupied = true ∧ s.vehicle = some vehicle := by
  induction spots generalizing n with
  | nil => simp [findHolder] at h
  | cons a rest ih =>
    unfold findHolder at h
    by_cases ha : (a.isOccupied && a.vehicle == some vehicle) = true
    · rw [if_pos ha] at h
      simp only [Option.some.injEq, Prod.mk.injEq] at h
      obtain ⟨rfl, rfl⟩ := h
      simp only [Bool.and_eq_true, beq_iff_eq] at ha
      exact ⟨0, rfl, by simp, ha.1, ha.2⟩
    · rw [if_neg ha] at h
      obtain ⟨k, hk, hget, hocc, hveh⟩ := ih h
      exact ⟨k + 1, by omega, by simpa using hget, hocc, hveh⟩

/-- A successful `removeVehicle` of Parking_lot.cpp: the spot is marked free and
appended to the back of the pool of its type, the `Vehicle` object is deleted,
and the `vehicle` field of the spot still holds the address of that object. -/
theorem plot_removeVehicle_effect (lot : ParkingLot) (mem : Memory) (vehicle : ℕ)
    (timeArg timeNow : ℤ) (r : Removal)
    (h : lot.removeVehicle mem vehicle timeArg timeNow = some r) (hf : r.found = true) :
    ∃ i spot, lot.allSpots[i]? = some spot
      ∧ spot.isOccupied = true ∧ spot.vehicle = some vehicle
      ∧ r.lot.allSpots = lot.allSpots.set i { spot with isOccupied := false }
      ∧ r.lot.allSpots[i]?
          = some { id := spot.id, isOccupied := false, vehicle := some vehicle, type := spot.type }
      ∧ r.lot.availableSpots spot.type = lot.availableSpots spot.type ++ [i]
      ∧ r.mem.vehicleAt vehicle = none := by
  unfold ParkingLot.removeVehicle at h
  split at h
  · simp only [Option.some.injEq] at h
    subst h
    simp at hf
  · rename_i i spot hfind
    obtain ⟨k, hk, hs, hocc, hveh⟩ := plot_findHolder_some hfind
    have hik : i = k := by omega
    subst hik
    split at h
    · simp at h
    · rename_i v hv
      simp only [Option.some.injEq] at h
      subst h
      have hlt := (List.getElem?_eq_some.mp hs).1
      refine ⟨i, spot, hs, hocc, hveh, rfl, ?_, ?_, ?_⟩
      · simp only [List.getElem?_set_self hlt, hveh]
      · simp only [Function.update_same]
      · simp only [Memory.vehicleAt]
        by_cases hv' : vehicle < mem.vehicles.length
        · rw [List.getElem?_set_self hv']
          rfl
        · rw [List.getElem?_eq_none (by simpa using hv')]
          rfl

/-- C14 (the code at the failing input): a Car is parked on the spot "1C1" and
removed. `removeVehicle` returns true, the spot is marked free and is at the
back of the Car pool, but its occupant reference is not cleared: the `vehicle`
field still holds the address 0 of the `Vehicle` object, which has been deleted. -/
theorem plot_removed_spot_keeps_occupant :
    ∃ lot1 mem1 r,
      (ParkingLot.new "1" 0 0 1 0).parkVehicle
          ((Memory.mk [] []).newVehicle "ABC" SpotType.CAR).2 0 42 0 = some (true, lot1, mem1)
      ∧ lot1.removeVehicle mem1 0 7200 7200 = some r
      ∧ r.found = true
      ∧ r.lot.allSpots
          = [{ id := "1C1", isOccupied := false, vehicle := some 0, type := SpotType.CAR }]
      ∧ r.lot.availableSpots SpotType.CAR = [0]
      ∧ r.mem.vehicleAt 0 = none := by
  refine ⟨_, _, _, rfl, rfl, rfl, ?_, ?_, ?_⟩ <;> decide

/-- A `parkVehicle` of Parking_lot.cpp that finds no free spot: it returns
false, the lot and the `Vehicle` objects are as before, and one `Ticket` has been
allocated. -/
theorem plot_parkVehicle_failure (lot : ParkingLot) (mem : Memory) (vehicle : ℕ) (v : Vehicle)
    (randValue : ℕ) (now : ℤ) (hv : mem.vehicleAt vehicle = some v)
    (hq : lot.availableSpots v.type = []) :
    lot.parkVehicle mem vehicle randValue now
      = some (false, lot,
          { vehicles := mem.vehicles, tickets := mem.tickets ++ [Ticket.new randValue now] }) := by
  simp only [ParkingLot.parkVehicle, hv, ParkingLot.findAvailableSpot, hq]

/-- A `parkVehicle` of Parking_lot.cpp that finds a free spot: it returns true,
one `Ticket` stamped with the clock reading has been allocated, and the vehicle
points to it. -/
theorem plot_parkVehicle_success (lot : ParkingLot) (mem : Memory) (vehicle : ℕ) (v : Vehicle)
    (randValue : ℕ) (now : ℤ) (spot : ℕ) (rest : List ℕ) (hv : mem.vehicleAt vehicle = some v)
    (hq : lot.availableSpots v.type = spot :: rest) :
    ∃ lot1 mem1, lot.parkVehicle mem vehicle randValue now = some (true, lot1, mem1)
      ∧ mem1.tickets = mem.tickets ++ [Ticket.new randValue now]
      ∧ mem1.vehicleAt vehicle = some { v with ticket := some mem.tickets.length }
      ∧ (mem1.tickets[mem.tickets.length]?).map Ticket.entryTime = some now := by
  have hlt : vehicle < mem.vehicles.length := by
    by_contra hge
    simp only [Memory.vehicleAt, List.getElem?_eq_none (by simpa using hge)] at hv
    exact Option.noConfusion hv
  have hpark : lot.parkVehicle mem vehicle randValue now
      = some (true,
          { levelId := lot.levelId
            availableSpots := Function.update lot.availableSpots v.type rest
            allSpots := occupy lot.allSpots spot vehicle },
          Memory.setTicket
            { vehicles := mem.vehicles, tickets := mem.tickets ++ [Ticket.new randValue now] }
            vehicle mem.tickets.length) := by
    simp only [ParkingLot.parkVehicle, hv, ParkingLot.findAvailableSpot, hq]
  have hset : Memory.setTicket
      { vehicles := mem.vehicles, tickets := mem.tickets ++ [Ticket.new randValue now] }
      vehicle mem.tickets.length
      = { vehicles := mem.vehicles.set vehicle (some { v with ticket := some mem.tickets.length })
          tickets := mem.tickets ++ [Ticket.new randValue now] } := by
    simp only [Memory.setTicket, Memory.vehicleAt] at hv ⊢
    simp only [hv]
  rw [hset] at hpark
  refine ⟨_, _, hpark, rfl, ?_, ?_⟩
  · simp only [Memory.vehicleAt, List.getElem?_set_self hlt]
    rfl
  · simp [Ticket.new]

/-- C15 (the code at the failing input): a Car arrives at a lot without any Car
spot at clock 100. `parkVehicle` returns false and leaves the lot and the
vehicle as they were (no ticket is associated), but a `Ticket` with entry time
100 has been created. -/
theorem plot_ticket_created_on_failure :
    ∃ lot1 mem1,
      (ParkingLot.new "1" 1 1 0 1).parkVehicle
          ((Memory.mk [] []).newVehicle "ABC" SpotType.CAR).2 0 42 100 = some (false, lot1, mem1)
      ∧ lot1.allSpots = (ParkingLot.new "1" 1 1 0 1).allSpots
      ∧ (∀ t, lot1.availableSpots t = (ParkingLot.new "1" 1 1 0 1).availableSpots t)
      ∧ mem1.vehicles = [some (Vehicle.new "ABC" SpotType.CAR)]
      ∧ (Vehicle.new "ABC" SpotType.CAR).ticket = none
      ∧ mem1.tickets = [{ ticketNumber := "42", entryTime := 100 }] := by
  refine ⟨_, _, plot_parkVehicle_failure _ _ 0 (Vehicle.new "ABC" SpotType.CAR) 42 100 rfl
    (by decide), rfl, fun t => rfl, rfl, rfl, ?_⟩
  decide

end PLot

/-! ## Decimal numerals and spot ids -/

theorem digitChar_value : ∀ k, k < 10 → (Nat.digitChar k).toNat - 48 = k := by
  decide

theorem digitChar_ne_letter : ∀ k, k < 10 → Nat.digitChar k ≠ 'U' := by
  decide

/-- Reading the decimal digits that `Nat.toDigitsCore` puts in front of `ds`
gives back the number. -/
theorem toDigitsCore_value :
    ∀ (fuel n : ℕ) (ds : List Char), n < fuel →
      (Nat.toDigitsCore 10 fuel n ds).foldl (fun a c => 10 * a + (c.toNat - 48)) 0
        = ds.foldl (fun a c => 10 * a + (c.toNat - 48)) n
  | 0, n, ds, h => absurd h (Nat.not_lt_zero n)
  | fuel + 1, n, ds, h => by
      unfold Nat.toDigitsCore
      have hd := digitChar_value (n % 10) (Nat.mod_lt n (by decide))
      by_cases h0 : n / 10 = 0
      · simp only [h0, if_true, List.foldl_cons, hd, Nat.mul_zero, Nat.zero_add]
        congr 1
        omega
      · simp only [h0, if_false]
        rw [toDigitsCore_value fuel (n / 10) _ (by omega)]
        simp only [List.foldl_cons, hd]
        congr 1
        omega

theorem toDigits_injective {a b : ℕ} (h : Nat.toDigits 10 a = Nat.toDigits 10 b) : a = b := by
  have ha := toDigitsCore_value (a + 1) a [] (Nat.lt_succ_self a)
  have hb := toDigitsCore_value (b + 1) b [] (Nat.lt_succ_self b)
  simp only [List.foldl_nil] at ha hb
  unfold Nat.toDigits at h
  rw [← ha, ← hb, h]

theorem mem_toDigitsCore :
    ∀ (fuel n : ℕ) (ds : List Char) (c : Char), c ∈ Nat.toDigitsCore 10 fuel n ds →
      c ∈ ds ∨ ∃ k, k < 10 ∧ c = Nat.digitChar k
  | 0, n, ds, c, h => by
      unfold Nat.toDigitsCore at h
      exact Or.inl h
  | fuel + 1, n, ds, c, h => by
      unfold Nat.toDigitsCore at h
      by_cases h0 : n / 10 = 0
      · simp only [h0, if_true, List.mem_cons] at h
        rcases h with h | h
        · exact Or.inr ⟨n % 10, Nat.mod_lt n (by decide), h⟩
        · exact Or.inl h
      · simp only [h0, if_false] at h
        rcases mem_toDigitsCore fuel (n / 10) _ c h with h | h
        · rcases List.mem_cons.mp h with h | h
          · exact Or.inr ⟨n % 10, Nat.mod_lt n (by decide), h⟩
          · exact Or.inl h
        · exact Or.inr h

theorem toDigits_no_letter (n : ℕ) : 'U' ∉ Nat.toDigits 10 n := by
  intro h
  rcases mem_toDigitsCore (n + 1) n [] 'U' h with h | ⟨k, hk, h⟩
  · simp at h
  · exact digitChar_ne_letter k hk h.symm

theorem toString_nat_data (n : ℕ) : (toString n).data = Nat.toDigits 10 n := rfl

/-- Two ids `levelId + tag + number` with the same level id agree exactly when
the tag followed by the digits agree. -/
theorem spotId_eq_iff (levelId tag1 tag2 : String) (a b : ℕ) :
    levelId ++ tag1 ++ toString a = levelId ++ tag2 ++ toString b
      ↔ tag1.data ++ Nat.toDigits 10 a = tag2.data ++ Nat.toDigits 10 b := by
  rw [String.ext_iff]
  simp only [String.data_append, toString_nat_data, List.append_assoc, List.append_cancel_left_eq]

namespace Gpt

theorem spotId_injective (levelId : String) (t1 t2 : SpotType) (a b : ℕ)
    (h : levelId ++ spotTag t1 ++ toString a = levelId ++ spotTag t2 ++ toString b) :
    t1 = t2 ∧ a = b := by
  rw [spotId_eq_iff] at h
  cases t1 <;> cases t2 <;>
    simp only [spotTag, List.cons_append, List.nil_append, List.cons.injEq, true_and] at h <;>
    first
    | exact ⟨rfl, toDigits_injective h⟩
    | exact absurd h.1 (by decide)

end Gpt

namespace PLot

/-! ## The constructor of Parking_lot.cpp in closed form -/

theorem plot_createSpot_fields (lot : ParkingLot) (t : SpotType) (i : ℕ) :
    (lot.createSpot t i).levelId = lot.levelId
    ∧ (lot.createSpot t i).allSpots
        = lot.allSpots ++ [Spot.new (lot.levelId ++ spotTag t ++ toString (i + 1)) t]
    ∧ (lot.createSpot t i).availableSpots
        = Function.update lot.availableSpots t (lot.availableSpots t ++ [lot.allSpots.length]) := by
  cases t <;> exact ⟨rfl, rfl, rfl⟩

theorem plot_createSpot_fold (t : SpotType) :
    ∀ (k : ℕ) (lot : ParkingLot),
      ((List.range k).foldl (fun l i => l.createSpot t i) lot).levelId = lot.levelId
      ∧ ((List.range k).foldl (fun l i => l.createSpot t i) lot).allSpots
          = lot.allSpots
            ++ (List.range k).map (fun i => Spot.new (lot.levelId ++ spotTag t ++ toString (i + 1)) t)
      ∧ ((List.range k).foldl (fun l i => l.createSpot t i) lot).availableSpots
          = Function.update lot.availableSpots t
              (lot.availableSpots t ++ List.range' lot.allSpots.length k)
  | 0, lot => by simp
  | k + 1, lot => by
      obtain ⟨h1, h2, h3⟩ := plot_createSpot_fold t k lot
      rw [List.range_succ, List.foldl_append]
      simp only [List.foldl_cons, List.foldl_nil]
      obtain ⟨s1, s2, s3⟩ :=
        plot_createSpot_fields ((List.range k).foldl (fun l i => l.createSpot t i) lot) t k
      rw [s1, s2, s3, h1, h2, h3]
      refine ⟨rfl, ?_, ?_⟩
      · simp only [List.map_append, List.map_cons, List.map_nil, List.append_assoc]
      · simp only [Function.update_same, Function.update_idem, List.length_append,
          List.length_map, List.length_range, List.append_assoc, List.range'_concat, Nat.one_mul]

theorem plot_createSpots_closed (lot : ParkingLot) (t : SpotType) (n : ℤ) :
    (lot.createSpots t n).levelId = lot.levelId
    ∧ (lot.createSpots t n).allSpots
        = lot.allSpots
          ++ (List.range n.toNat).map
              (fun i => Spot.new (lot.levelId ++ spotTag t ++ toString (i + 1)) t)
    ∧ (lot.createSpots t n).availableSpots
        = Function.update lot.availableSpots t
            (lot.availableSpots t ++ List.range' lot.allSpots.length n.toNat) :=
  plot_createSpot_fold t n.toNat lot

/-- The spots of a constructed lot of Parking_lot.cpp, as one list. -/
theorem plot_new_allSpots (levelId : String) (h b c u : ℤ) :
    (ParkingLot.new levelId h b c u).allSpots
      = (List.range h.toNat).map
            (fun i => Spot.new (levelId ++ "H" ++ toString (i + 1)) SpotType.HANDICAP)
        ++ (List.range b.toNat).map
            (fun i => Spot.new (levelId ++ "B" ++ toString (i + 1)) SpotType.BIKE)
        ++ (List.range c.toNat).map
            (fun i => Spot.new (levelId ++ "C" ++ toString (i + 1)) SpotType.CAR)
        ++ (List.range u.toNat).map
            (fun i => Spot.new (levelId ++ "BU" ++ toString (i + 1)) SpotType.BUS) := by
  simp only [ParkingLot.new, plot_createSpots_closed, List.nil_append, spotTag]

/-- The pools of a constructed lot of Parking_lot.cpp. -/
theorem plot_new_pool (levelId : String) (h b c u : ℤ) (t : SpotType) :
    (ParkingLot.new levelId h b c u).availableSpots t
      = List.range' (typeOffset h b c t) (typeCount h b c u t) := by
  simp only [ParkingLot.new, plot_createSpots_closed, List.nil_append, List.length_append,
    List.length_map, List.length_range, List.length_nil]
  cases t <;> simp [typeOffset, typeCount, Function.update]

theorem plot_new_length (levelId : String) (h b c u : ℤ) :
    (ParkingLot.new levelId h b c u).allSpots.length
      = h.toNat + b.toNat + c.toNat + u.toNat := by
  simp only [plot_new_allSpots, List.length_append, List.length_map, List.length_range]

theorem plot_numbered_getElem? (levelId tag : String) (t : SpotType) (n j : ℕ) (hj : j < n) :
    ((List.range n).map (fun i => Spot.new (levelId ++ tag ++ toString (i + 1)) t))[j]?
      = some (Spot.new (levelId ++ tag ++ toString (j + 1)) t) := by
  simp [List.getElem?_map, List.getElem?_range hj]

theorem plot_new_spot (levelId : String) (h b c u : ℤ) (t : SpotType) (j : ℕ)
    (hj : j < typeCount h b c u t) :
    (ParkingLot.new levelId h b c u).allSpots[typeOffset h b c t + j]?
      = some (Spot.new (levelId ++ spotTag t ++ toString (j + 1)) t) := by
  rw [plot_new_allSpots]
  have key := Gpt.getElem?_append4
    ((List.range h.toNat).map
      (fun i => Spot.new (levelId ++ "H" ++ toString (i + 1)) SpotType.HANDICAP))
    ((List.range b.toNat).map
      (fun i => Spot.new (levelId ++ "B" ++ toString (i + 1)) SpotType.BIKE))
    ((List.range c.toNat).map
      (fun i => Spot.new (levelId ++ "C" ++ toString (i + 1)) SpotType.CAR))
    ((List.range u.toNat).map
      (fun i => Spot.new (levelId ++ "BU" ++ toString (i + 1)) SpotType.BUS)) j
  simp only [List.length_map, List.length_range] at key
  cases t <;> simp only [typeCount] at hj <;> simp only [typeOffset, spotTag]
  · rw [Nat.zero_add, key.1 hj]
    exact plot_numbered_getElem? _ _ _ _ j hj
  · rw [key.2.1 hj]
    exact plot_numbered_getElem? _ _ _ _ j hj
  · rw [key.2.2.1 hj]
    exact plot_numbered_getElem? _ _ _ _ j hj
  · rw [key.2.2.2 hj]
    exact plot_numbered_getElem? _ _ _ _ j hj

theorem plot_index_cases (h b c u : ℤ) (i : ℕ) (hi : i < h.toNat + b.toNat + c.toNat + u.toNat) :
    ∃ t j, j < typeCount h b c u t ∧ i = typeOffset h b c t + j := by
  by_cases h1 : i < h.toNat
  · exact ⟨SpotType.HANDICAP, i, h1, by simp [typeOffset]⟩
  · by_cases h2 : i < h.toNat + b.toNat
    · exact ⟨SpotType.BIKE, i - h.toNat, by simp only [typeCount]; omega,
        by simp only [typeOffset]; omega⟩
    · by_cases h3 : i < h.toNat + b.toNat + c.toNat
      · exact ⟨SpotType.CAR, i - (h.toNat + b.toNat), by simp only [typeCount]; omega,
          by simp only [typeOffset]; omega⟩
      · exact ⟨SpotType.BUS, i - (h.toNat + b.toNat + c.toNat),
          by simp only [typeCount]; omega, by simp only [typeOffset]; omega⟩

theorem plot_spotId_injective (levelId : String) (t1 t2 : SpotType) (a b : ℕ)
    (h : levelId ++ spotTag t1 ++ toString a = levelId ++ spotTag t2 ++ toString b) :
    t1 = t2 ∧ a = b := by
  rw [spotId_eq_iff] at h
  cases t1 <;> cases t2 <;>
    simp only [spotTag, List.cons_append, List.nil_append, List.cons.injEq, true_and] at h <;>
    first
    | exact ⟨rfl, toDigits_injective h⟩
    | exact absurd h.1 (by decide)
    | (exfalso
       have hmem : 'U' ∈ Nat.toDigits 10 a := by rw [h]; exact List.mem_cons_self _ _
       exact toDigits_no_letter a hmem)
    | (exfalso
       have hmem : 'U' ∈ Nat.toDigits 10 b := by rw [← h]; exact List.mem_cons_self _ _
       exact toDigits_no_letter b hmem)

end PLot

namespace Gpt

/-! ## Construction -/

theorem new_countP (levelId : String) (h c l m : ℤ) (t : SpotType) :
    (ParkingLevel.new levelId h c l m).allSpots.countP (fun s => decide (s.type = t))
      = typeCount h c l m t := by
  simp only [ParkingLevel.new, List.countP_append, countP_createSpots]
  cases t <;> simp [typeCount]

theorem new_ids_nodup (levelId : String) (h c l m : ℤ) :
    ((ParkingLevel.new levelId h c l m).allSpots.map (fun s => s.spotId)).Nodup := by
  rw [List.nodup_iff_getElem?_ne_getElem?]
  intro i j hij hj heq
  rw [List.length_map, new_allSpots_length] at hj
  obtain ⟨t1, j1, hj1, rfl⟩ := new_index_cases h c l m i (by omega)
  obtain ⟨t2, j2, hj2, hjeq⟩ := new_index_cases h c l m j hj
  rw [hjeq] at heq
  simp only [List.getElem?_map, new_spot levelId h c l m t1 j1 hj1,
    new_spot levelId h c l m t2 j2 hj2, Option.map_some', Option.some.injEq,
    ParkingSpot.new] at heq
  obtain ⟨rfl, hjj⟩ := spotId_injective levelId t1 t2 _ _ heq
  omega

end Gpt

namespace PLot

theorem plot_new_fresh (levelId : String) (h b c u : ℤ) {s : Spot}
    (hs : s ∈ (ParkingLot.new levelId h b c u).allSpots) :
    s.isOccupied = false ∧ s.vehicle = none := by
  obtain ⟨i, hi⟩ := List.mem_iff_getElem?.mp hs
  have hlt := (List.getElem?_eq_some.mp hi).1
  rw [plot_new_length] at hlt
  obtain ⟨t, j, hj, rfl⟩ := plot_index_cases h b c u i hlt
  rw [plot_new_spot levelId h b c u t j hj] at hi
  rw [← Option.some.inj hi]
  exact ⟨rfl, rfl⟩

theorem plot_countP_numbered (levelId tag : String) (t t' : SpotType) (n : ℕ) :
    ((List.range n).map (fun i => Spot.new (levelId ++ tag ++ toString (i + 1)) t')).countP
        (fun s => decide (s.type = t))
      = if t' = t then n else 0 := by
  by_cases h : t' = t
  · rw [if_pos h, List.countP_eq_length.mpr]
    · simp
    · intro s hs
      obtain ⟨i, _, rfl⟩ := List.mem_map.mp hs
      simp [Spot.new, h]
  · rw [if_neg h, List.countP_eq_zero]
    intro s hs
    obtain ⟨i, _, rfl⟩ := List.mem_map.mp hs
    simp [Spot.new, h]

theorem plot_new_countP (levelId : String) (h b c u : ℤ) (t : SpotType) :
    (ParkingLot.new levelId h b c u).allSpots.countP (fun s => decide (s.type = t))
      = typeCount h b c u t := by
  simp only [plot_new_allSpots, List.countP_append, plot_countP_numbered]
  cases t <;> simp [typeCount]

theorem plot_new_ids_nodup (levelId : String) (h b c u : ℤ) :
    ((ParkingLot.new levelId h b c u).allSpots.map (fun s => s.id)).Nodup := by
  rw [List.nodup_iff_getElem?_ne_getElem?]
  intro i j hij hj heq
  rw [List.length_map, plot_new_length] at hj
  obtain ⟨t1, j1, hj1, rfl⟩ := plot_index_cases h b c u i (by omega)
  obtain ⟨t2, j2, hj2, hjeq⟩ := plot_index_cases h b c u j hj
  rw [hjeq] at heq
  simp only [List.getElem?_map, plot_new_spot levelId h b c u t1 j1 hj1,
    plot_new_spot levelId h b c u t2 j2 hj2, Option.map_some', Option.some.injEq,
    Spot.new] at heq
  obtain ⟨rfl, hjj⟩ := plot_spotId_injective levelId t1 t2 _ _ heq
  omega

end PLot

/-- C16: construction from non-negative counts, in gpt.cpp
(`ParkingLevel(levelId, handicap, compact, large, motorcycle)`) and in
Parking_lot.cpp (`ParkingLot(levelId, handicap, bike, car, bus)`): the number
of spots of each type is the given count; the spot number `j + 1` of a type
sits at index `typeOffset + j`, is unoccupied with no occupant and has the id
`levelId + tag + (j + 1)`; the pool of each type holds exactly the indices of
its spots, once each and in creation order; the ids are pairwise distinct. -/
theorem construction_creates_spots (levelId : String) (n1 n2 n3 n4 : ℤ)
    (h1 : 0 ≤ n1) (h2 : 0 ≤ n2) (h3 : 0 ≤ n3) (h4 : 0 ≤ n4) :
    ((((Gpt.ParkingLevel.new levelId n1 n2 n3 n4).allSpots.countP
            (fun s => decide (s.type = Gpt.SpotType.HANDICAP)) : ℕ) : ℤ) = n1
      ∧ (((Gpt.ParkingLevel.new levelId n1 n2 n3 n4).allSpots.countP
            (fun s => decide (s.type = Gpt.SpotType.COMPACT)) : ℕ) : ℤ) = n2
      ∧ (((Gpt.ParkingLevel.new levelId n1 n2 n3 n4).allSpots.countP
            (fun s => decide (s.type = Gpt.SpotType.LARGE)) : ℕ) : ℤ) = n3
      ∧ (((Gpt.ParkingLevel.new levelId n1 n2 n3 n4).allSpots.countP
            (fun s => decide (s.type = Gpt.SpotType.MOTORCYCLE)) : ℕ) : ℤ) = n4
      ∧ (∀ (t : Gpt.SpotType) (j : ℕ), j < Gpt.typeCount n1 n2 n3 n4 t →
          (Gpt.ParkingLevel.new levelId n1 n2 n3 n4).allSpots[Gpt.typeOffset n1 n2 n3 t + j]?
            = some { spotId := levelId ++ Gpt.spotTag t ++ toString (j + 1), type := t,
                     isOccupied := false, vehicle := none })
      ∧ (∀ s ∈ (Gpt.ParkingLevel.new levelId n1 n2 n3 n4).allSpots,
          s.isOccupied = false ∧ s.vehicle = none)
      ∧ (∀ t : Gpt.SpotType, (Gpt.ParkingLevel.new levelId n1 n2 n3 n4).availableSpots t
          = List.range' (Gpt.typeOffset n1 n2 n3 t) (Gpt.typeCount n1 n2 n3 n4 t))
      ∧ ((Gpt.ParkingLevel.new levelId n1 n2 n3 n4).allSpots.map (fun s => s.spotId)).Nodup)
    ∧ ((((PLot.ParkingLot.new levelId n1 n2 n3 n4).allSpots.countP
            (fun s => decide (s.type = PLot.SpotType.HANDICAP)) : ℕ) : ℤ) = n1
      ∧ (((PLot.ParkingLot.new levelId n1 n2 n3 n4).allSpots.countP
            (fun s => decide (s.type = PLot.SpotType.BIKE)) : ℕ) : ℤ) = n2
      ∧ (((PLot.ParkingLot.new levelId n1 n2 n3 n4).allSpots.countP
            (fun s => decide (s.type = PLot.SpotType.CAR)) : ℕ) : ℤ) = n3
      ∧ (((PLot.ParkingLot.new levelId n1 n2 n3 n4).allSpots.countP
            (fun s => decide (s.type = PLot.SpotType.BUS)) : ℕ) : ℤ) = n4
      ∧ (∀ (t : PLot.SpotType) (j : ℕ), j < PLot.typeCount n1 n2 n3 n4 t →
          (PLot.ParkingLot.new levelId n1 n2 n3 n4).allSpots[PLot.typeOffset n1 n2 n3 t + j]?
            = some { id := levelId ++ PLot.spotTag t ++ toString (j + 1), isOccupied := false,
                     vehicle := none, type := t })
      ∧ (∀ s ∈ (PLot.ParkingLot.new levelId n1 n2 n3 n4).allSpots,
          s.isOccupied = false ∧ s.vehicle = none)
      ∧ (∀ t : PLot.SpotType, (PLot.ParkingLot.new levelId n1 n2 n3 n4).availableSpots t
          = List.range' (PLot.typeOffset n1 n2 n3 t) (PLot.typeCount n1 n2 n3 n4 t))
      ∧ ((PLot.ParkingLot.new levelId n1 n2 n3 n4).allSpots.map (fun s => s.id)).Nodup) := by
  refine ⟨⟨?_, ?_, ?_, ?_, ?_, ?_, ?_, ?_⟩, ⟨?_, ?_, ?_, ?_, ?_, ?_, ?_, ?_⟩⟩
  · rw [Gpt.new_countP]; exact Int.toNat_of_nonneg h1
  · rw [Gpt.new_countP]; exact Int.toNat_of_nonneg h2
  · rw [Gpt.new_countP]; exact Int.toNat_of_nonneg h3
  · rw [Gpt.new_countP]; exact Int.toNat_of_nonneg h4
  · exact fun t j hj => Gpt.new_spot levelId n1 n2 n3 n4 t j hj
  · exact fun s hs => Gpt.new_allSpots_fresh levelId n1 n2 n3 n4 hs
  · exact fun t => Gpt.new_pool levelId n1 n2 n3 n4 t
  · exact Gpt.new_ids_nodup levelId n1 n2 n3 n4
  · rw [PLot.plot_new_countP]; exact Int.toNat_of_nonneg h1
  · rw [PLot.plot_new_countP]; exact Int.toNat_of_nonneg h2
  · rw [PLot.plot_new_countP]; exact Int.toNat_of_nonneg h3
  · rw [PLot.plot_new_countP]; exact Int.toNat_of_nonneg h4
  · exact fun t j hj => PLot.plot_new_spot levelId n1 n2 n3 n4 t j hj
  · exact fun s hs => PLot.plot_new_fresh levelId n1 n2 n3 n4 hs
  · exact fun t => PLot.plot_new_pool levelId n1 n2 n3 n4 t
  · exact PLot.plot_new_ids_nodup levelId n1 n2 n3 n4

/-- Witness of C16: the counts 5, 20, 10, 10 of the test case of gpt.cpp, for the
level "L1" of gpt.cpp and for a lot "L1" of Parking_lot.cpp. -/
theorem construction_creates_spots_witness :
    ((((Gpt.ParkingLevel.new "L1" 5 20 10 10).allSpots.countP
            (fun s => decide (s.type = Gpt.SpotType.COMPACT)) : ℕ) : ℤ) = 20
      ∧ (Gpt.ParkingLevel.new "L1" 5 20 10 10).availableSpots Gpt.SpotType.COMPACT
          = List.range' (Gpt.typeOffset 5 20 10 Gpt.SpotType.COMPACT)
              (Gpt.typeCount 5 20 10 10 Gpt.SpotType.COMPACT)
      ∧ ((Gpt.ParkingLevel.new "L1" 5 20 10 10).allSpots.map (fun s => s.spotId)).Nodup)
    ∧ ((((PLot.ParkingLot.new "L1" 5 20 10 10).allSpots.countP
            (fun s => decide (s.type = PLot.SpotType.BUS)) : ℕ) : ℤ) = 10
      ∧ (PLot.ParkingLot.new "L1" 5 20 10 10).availableSpots PLot.SpotType.BUS
          = List.range' (PLot.typeOffset 5 20 10 PLot.SpotType.BUS)
              (PLot.typeCount 5 20 10 10 PLot.SpotType.BUS)
      ∧ ((PLot.ParkingLot.new "L1" 5 20 10 10).allSpots.map (fun s => s.id)).Nodup) :=
  have key := construction_creates_spots "L1" 5 20 10 10 (by decide) (by decide) (by decide)
    (by decide)
  ⟨⟨key.1.2.1, key.1.2.2.2.2.2.2.1 _, key.1.2.2.2.2.2.2.2⟩,
    ⟨key.2.2.2.2.1, key.2.2.2.2.2.2.2.1 _, key.2.2.2.2.2.2.2.2⟩⟩
